import Mathlib

/-!
# IMAP backup / export engine: shallow embedding and verified properties

The development embeds the backend of the repository
(`backend/src/services/imapService.js`, `backend/src/routes/sync.js`,
`backend/src/storage/accounts.js`) as pure Lean functions.

* The file system below `../data` is an explicit `Store` value; its calls
  (`mkdir`, `writeFile`, `readdir`) succeed, and a file holds the value that was
  written to it (JSON serialisation is taken to be faithful).
* The IMAP servers are scripted: every call that can raise carries its
  outcome in the script, so a theorem quantified over scripts covers every
  behaviour of the remote side. Functions return the list of client calls they
  make next to their result.
* Asynchronous request handlers are control-point machines: one step runs a
  handler from one suspension point (`await`) to the next, and a schedule picks
  the handler that runs next.
* `new Date()` is a clock value passed in; `new Date(d).toUTCString()` is a
  parameter `toUTCString`.
-/

set_option autoImplicit false

namespace ImapBackup

/-! ## Key/value containers (JS `Map`, directory entries) -/

/-- Lookup of a key (`Map.prototype.get`, reading a directory entry). -/
def KV.get {α β : Type} [DecidableEq α] : List (α × β) → α → Option β
  | [], _ => none
  | (k', v') :: rest, k => if k' = k then some v' else KV.get rest k

/-- Presence of a key (`Map.prototype.has`). -/
def KV.has {α β : Type} [DecidableEq α] (m : List (α × β)) (k : α) : Bool :=
  (KV.get m k).isSome

/-- Insert or overwrite in place (`Map.prototype.set`, overwriting a file). -/
def KV.set {α β : Type} [DecidableEq α] : List (α × β) → α → β → List (α × β)
  | [], k, v => [(k, v)]
  | (k', v') :: rest, k, v =>
      if k' = k then (k, v) :: rest else (k', v') :: KV.set rest k v

/-- Removal of a key (`Map.prototype.delete`). -/
def KV.delete {α β : Type} [DecidableEq α] : List (α × β) → α → List (α × β)
  | [], _ => []
  | (k', v') :: rest, k =>
      if k' = k then KV.delete rest k else (k', v') :: KV.delete rest k

/-! ## Data model -/

/-- JS truthiness of an optional string: `undefined`, `null`, `false` and the
empty string are falsy. -/
def truthy : Option String → Bool
  | none => false
  | some s => s ≠ ""

/-- Attachment descriptor kept by `downloadMailboxMessages` (lines 109-113). -/
structure Attachment where
  filename : Option String
  contentType : Option String
  size : Option Nat
  deriving DecidableEq, Repr

/-- Stored message record, the object pushed at `imapService.js` lines 100-114.
Dates are instants (milliseconds); `none` stands for an absent field. -/
structure Message where
  uid : Nat
  flags : List String
  subject : Option String
  from_ : Option String
  to_ : Option String
  date : Option Nat
  text : Option String
  html : Option String
  attachments : Option (List Attachment)
  deriving DecidableEq, Repr

/-- One entry of the summary index (`saveMessages`, lines 147-153). -/
structure SummaryEntry where
  uid : Nat
  subject : Option String
  from_ : Option String
  date : Option Nat
  flags : List String
  deriving DecidableEq, Repr

/-- Content of `summary.json` (`saveMessages`, lines 143-154). -/
structure Summary where
  boxName : String
  messageCount : Nat
  downloadedAt : Nat
  messages : List SummaryEntry
  deriving DecidableEq, Repr

/-- One folder directory below `../data/<accountEmail>/`: the two files
`messages.json` and `summary.json`, each absent until written. -/
structure BoxDir where
  messagesFile : Option (List Message)
  summaryFile : Option Summary
  deriving DecidableEq, Repr

/-- The tree below `../data`: folder directories keyed by
`(accountEmail, directory name)`, in directory-listing order. -/
abbrev Store := List ((String × String) × BoxDir)

/-! ## Mailbox store (`imapService.js`) -/

/-- The character class of the regular expression `/[/\\:*?"<>|]/g`. -/
def unsafeChars : List Char :=
  ['/', Char.ofNat 92, ':', '*', '?', Char.ofNat 34, '<', '>', '|']

/-- The replacement `boxName.replace(/[/\\:*?"<>|]/g, '_')` of `saveMessages`
(line 133) and `readLocalMessages` (line 230). -/
def sanitizeBoxName (boxName : String) : String :=
  String.mk (boxName.data.map fun c => if c ∈ unsafeChars then '_' else c)

/-- Creation of a folder directory, `fs.mkdir(boxDir, { recursive: true })`:
an existing directory is left as it is. -/
def mkdir (s : Store) (accountEmail dir : String) : Store :=
  match KV.get s (accountEmail, dir) with
  | some _ => s
  | none => KV.set s (accountEmail, dir) { messagesFile := none, summaryFile := none }

/-- Overwrite `messages.json` in a folder directory (line 140). -/
def writeMessagesFile (s : Store) (accountEmail dir : String) (messages : List Message) :
    Store :=
  match KV.get s (accountEmail, dir) with
  | some d => KV.set s (accountEmail, dir) { d with messagesFile := some messages }
  | none => KV.set s (accountEmail, dir) { messagesFile := some messages, summaryFile := none }

/-- Overwrite `summary.json` in a folder directory (line 157). -/
def writeSummaryFile (s : Store) (accountEmail dir : String) (summary : Summary) : Store :=
  match KV.get s (accountEmail, dir) with
  | some d => KV.set s (accountEmail, dir) { d with summaryFile := some summary }
  | none => KV.set s (accountEmail, dir) { messagesFile := none, summaryFile := some summary }

/-- The projection `m => ({ uid, subject, from, date, flags })` (lines 147-153). -/
def summaryEntry (m : Message) : SummaryEntry :=
  { uid := m.uid, subject := m.subject, from_ := m.from_, date := m.date, flags := m.flags }

/-- The summary object built by `saveMessages` (lines 143-154); `now` is the
value of `new Date().toISOString()`. -/
def buildSummary (now : Nat) (boxName : String) (messages : List Message) : Summary :=
  { boxName := boxName
    messageCount := messages.length
    downloadedAt := now
    messages := messages.map summaryEntry }

/-- Return value of `saveMessages` (line 159). -/
structure SaveResult where
  boxDir : String × String
  messageCount : Nat
  deriving DecidableEq, Repr

/-- `saveMessages(accountEmail, boxName, messages)` (lines 132-160): create the
directory, write `messages.json`, then write `summary.json`. -/
def saveMessages (s : Store) (now : Nat) (accountEmail boxName : String)
    (messages : List Message) : Store × SaveResult :=
  let sanitizedBoxName := sanitizeBoxName boxName
  let s1 := mkdir s accountEmail sanitizedBoxName
  let s2 := writeMessagesFile s1 accountEmail sanitizedBoxName messages
  let s3 := writeSummaryFile s2 accountEmail sanitizedBoxName
    (buildSummary now boxName messages)
  (s3, { boxDir := (accountEmail, sanitizedBoxName), messageCount := messages.length })

/-- The file-system call of `saveMessages` that raises: `fs.mkdir` (line 136),
the write of `messages.json` (line 140) or the write of `summary.json`
(line 157). -/
inductive SaveStep
  | mkdir
  | writeMessages
  | writeSummary
  deriving DecidableEq, Repr

/-- A failure of the file system during one `saveMessages`: the call that
raises and the message of its error (`ENAMETOOLONG` from `mkdir` for a
directory name longer than the file system allows, `EACCES` from a write to a
read-only file, ...). -/
structure SaveError where
  step : SaveStep
  message : String
  deriving DecidableEq, Repr

/-- `saveMessages(accountEmail, boxName, messages)` on a file system that may
fail (lines 132-160): the outcome (`.error msg` when a call raises) and the
store afterwards. The calls before the raising one have taken effect; the
raising call leaves the directory or file as it was. -/
def saveMessagesOutcome (failure : Option SaveError) (s : Store) (now : Nat)
    (accountEmail boxName : String) (messages : List Message) :
    Except String SaveResult × Store :=
  match failure with
  | none =>
    (.ok (saveMessages s now accountEmail boxName messages).2,
      (saveMessages s now accountEmail boxName messages).1)
  | some e =>
    let sanitizedBoxName := sanitizeBoxName boxName
    match e.step with
    | .mkdir => (.error e.message, s)
    | .writeMessages => (.error e.message, mkdir s accountEmail sanitizedBoxName)
    | .writeSummary =>
      (.error e.message,
        writeMessagesFile (mkdir s accountEmail sanitizedBoxName) accountEmail
          sanitizedBoxName messages)

/-- `readLocalMessages(accountEmail, mailboxName)` (lines 229-241): the content
of `messages.json`, or the empty list when it cannot be read. -/
def readLocalMessages (s : Store) (accountEmail mailboxName : String) : List Message :=
  let sanitizedBoxName := sanitizeBoxName mailboxName
  match KV.get s (accountEmail, sanitizedBoxName) with
  | some d => d.messagesFile.getD []
  | none => []

/-- Reading `summary.json` of the folder directory `dirName`, as the route
`GET /:accountEmail/mailboxes/:mailboxName/summary` does (`routes/mailboxes.js`,
lines 34-60); `none` is the 404 answer. -/
def readSummary (s : Store) (accountEmail dirName : String) : Option Summary :=
  match KV.get s (accountEmail, dirName) with
  | some d => d.summaryFile
  | none => none

/-- `getLocalMailboxes(accountEmail)` (lines 244-254): the entries of
`../data/<accountEmail>`, or the empty list when the directory is missing. -/
def getLocalMailboxes (s : Store) (accountEmail : String) : List String :=
  (s.filter fun e => e.1.1 = accountEmail).map fun e => e.1.2

/-! ## Accounts and protocol sessions -/

/-- An account record of `accounts.json` (`addAccount`, `storage/accounts.js`
lines 33-44). -/
structure Account where
  id : String
  email : String
  host : Option String
  port : Option Nat
  username : Option String
  password : Option String
  tls : Bool
  createdAt : Nat
  lastSync : Option Nat
  status : String
  deriving DecidableEq, Repr

/-- Calls made on IMAP clients, in the order they are made. -/
inductive Event
  | probeConnect (host : String)
  | probeLogout (host : String)
  | connect (host : String) (port : Nat) (user : String)
  | list
  | getMailboxLock (path : String)
  | fetch (path : String)
  | lockRelease (path : String)
  | logout
  | mailboxCreate (path : String)
  | append (path : String) (rfc822 : String) (flags : List String) (date : Nat)
  deriving DecidableEq, Repr

/-- An error object, reduced to the two fields the code reads. -/
structure JsError where
  message : Option String
  responseText : Option String
  deriving DecidableEq, Repr

/-- Scripted outcome of probing one candidate host in `discoverImapHost`:
`some err` means the call raises `err`. -/
structure ProbeScript where
  connectError : Option JsError
  logoutError : Option JsError
  deriving DecidableEq, Repr

/-- `s.includes(sub)` on strings. -/
def includes (s sub : String) : Bool :=
  decide (sub.data <:+: s.data)

/-- `email.split('@')[1]`, rendered inside a template literal: a missing
second segment prints as `undefined`. The split is taken on the characters of
the string. -/
def emailDomain (email : String) : String :=
  match email.data.splitOn '@' with
  | _ :: d :: _ => String.mk d
  | _ => "undefined"

/-- The body of the `try` block of `discoverImapHost` for one candidate
(lines 33-54): both probe calls swallow their error with `.catch(() => {})`,
so the body returns the candidate. -/
def probeCandidate (probe : String → ProbeScript) (host : String) :
    Except JsError String × List Event :=
  let _connected := (probe host).connectError
  let _loggedOut := (probe host).logoutError
  (.ok host, [.probeConnect host, .probeLogout host])

/-- The `for (const host of commonHosts)` loop of `discoverImapHost`
(lines 31-64); `none` means the loop fell through. -/
def discoverLoop (probe : String → ProbeScript) : List String → Option String × List Event
  | [] => (none, [])
  | host :: rest =>
    match probeCandidate probe host with
    | (.ok h, ev) => (some h, ev)
    | (.error err, ev) =>
      if (err.message.map (includes · "auth")).getD false
          || (err.responseText.map (includes · "auth")).getD false then
        (some host, ev)
      else
        let r := discoverLoop probe rest
        (r.1, ev ++ r.2)

/-- `discoverImapHost(email)` (lines 21-69). -/
def discoverImapHost (probe : String → ProbeScript) (email : String) : String × List Event :=
  let domain := emailDomain email
  let commonHosts := ["imap." ++ domain, "mail." ++ domain, domain]
  match discoverLoop probe commonHosts with
  | (some host, ev) => (host, ev)
  | (none, ev) => ("imap." ++ domain, ev)

/-- `flattenMailboxTree(mailboxTree)` (lines 7-18): push every element. -/
def flattenMailboxTree {α : Type} (mailboxTree : List α) : List α :=
  mailboxTree.foldl (fun result mailbox => result ++ [mailbox]) []

/-! ## Download and synchronisation (`imapService.js`) -/

/-- What `mailparser`'s `simpleParser` returns, reduced to the fields read at
lines 100-114 (`from`/`to` are the `.text` of the address objects). -/
structure ParsedMail where
  subject : Option String
  from_ : Option String
  to_ : Option String
  date : Option Nat
  text : Option String
  html : Option String
  attachments : Option (List Attachment)
  deriving DecidableEq, Repr

/-- One message yielded by `client.fetch('1:*', ...)`. -/
structure RawMessage where
  uid : Nat
  flags : List String
  source : String
  deriving DecidableEq, Repr

/-- Scripted behaviour of one remote folder during a sync: whether
`getMailboxLock` raises, the `exists` count of the selected mailbox, the
messages the fetch yields, whether the fetch raises, the clock value at the
moment the folder is saved, and whether the file system fails during the save
of the folder. -/
structure MailboxScript where
  path : String
  lockError : Option String
  exists_ : Nat
  fetched : List RawMessage
  fetchError : Option String
  savedAt : Nat
  saveError : Option SaveError
  deriving DecidableEq, Repr

/-- Scripted behaviour of the source server during `syncAccount`. -/
structure SyncServer where
  probe : String → ProbeScript
  connectError : Option String
  listResult : Except String (List MailboxScript)
  logoutError : Option String

/-- Return value of `downloadMailboxMessages` (lines 83 and 121). -/
structure Download where
  boxName : String
  count : Nat
  messages : List Message
  deriving DecidableEq, Repr

/-- An element of the `results` array of `syncAccount`: either a download
(line 201) or `{ boxName, error }` (line 204). -/
structure SyncEntry where
  boxName : String
  count : Option Nat
  messages : Option (List Message)
  error : Option String
  deriving DecidableEq, Repr

/-- The record built from a parsed message (lines 100-114). -/
def toMessage (raw : RawMessage) (parsed : ParsedMail) : Message :=
  { uid := raw.uid
    flags := raw.flags
    subject := parsed.subject
    from_ := parsed.from_
    to_ := parsed.to_
    date := parsed.date
    text := parsed.text
    html := parsed.html
    attachments := parsed.attachments }

/-- The `for await` loop of `downloadMailboxMessages` (lines 91-118): a message
whose parse raises is logged and left out. -/
def parseFetched (simpleParser : String → Except String ParsedMail) :
    List RawMessage → List Message
  | [] => []
  | raw :: rest =>
    match simpleParser raw.source with
    | .ok parsed => toMessage raw parsed :: parseFetched simpleParser rest
    | .error _ => parseFetched simpleParser rest

/-- `downloadMailboxMessages(client, mailbox, accountEmail)` (lines 72-129). -/
def downloadMailboxMessages (simpleParser : String → Except String ParsedMail)
    (mailbox : MailboxScript) : Except String Download × List Event :=
  match mailbox.lockError with
  | some err => (.error err, [.getMailboxLock mailbox.path])
  | none =>
    if mailbox.exists_ = 0 then
      (.ok { boxName := mailbox.path, count := 0, messages := [] },
        [.getMailboxLock mailbox.path, .lockRelease mailbox.path])
    else
      match mailbox.fetchError with
      | some err =>
        (.error err,
          [.getMailboxLock mailbox.path, .fetch mailbox.path, .lockRelease mailbox.path])
      | none =>
        let messages := parseFetched simpleParser mailbox.fetched
        (.ok { boxName := mailbox.path, count := messages.length, messages := messages },
          [.getMailboxLock mailbox.path, .fetch mailbox.path, .lockRelease mailbox.path])

/-- The object pushed by `results.push(result)` (line 201). -/
def Download.toEntry (d : Download) : SyncEntry :=
  { boxName := d.boxName, count := some d.count, messages := some d.messages, error := none }

/-- The object pushed at line 204. -/
def errorEntry (path err : String) : SyncEntry :=
  { boxName := path, count := none, messages := none, error := some err }

/-- The `for (const mailbox of mailboxes)` loop of `syncAccount`
(lines 196-206): store after the loop, result entries, client calls. Download
and save sit in one `try`: when either raises, the `catch` pushes
`{ boxName, error }` and the loop goes on. -/
def syncMailboxes (simpleParser : String → Except String ParsedMail) (email : String) :
    Store → List MailboxScript → Store × List SyncEntry × List Event
  | s, [] => (s, [], [])
  | s, mailbox :: rest =>
    match downloadMailboxMessages simpleParser mailbox with
    | (.ok result, ev) =>
      match saveMessagesOutcome mailbox.saveError s mailbox.savedAt email mailbox.path
          result.messages with
      | (.ok _, s1) =>
        let r := syncMailboxes simpleParser email s1 rest
        (r.1, result.toEntry :: r.2.1, ev ++ r.2.2)
      | (.error err, s1) =>
        let r := syncMailboxes simpleParser email s1 rest
        (r.1, errorEntry mailbox.path err :: r.2.1, ev ++ r.2.2)
    | (.error err, ev) =>
      let r := syncMailboxes simpleParser email s rest
      (r.1, errorEntry mailbox.path err :: r.2.1, ev ++ r.2.2)

/-- The result entry of one folder (lines 198-205): the download when both the
download and the save returned, else `{ boxName, error }` with the message of
the error raised. -/
def folderEntry (simpleParser : String → Except String ParsedMail) (mailbox : MailboxScript) :
    SyncEntry :=
  match (downloadMailboxMessages simpleParser mailbox).1 with
  | .ok result =>
    match (saveMessagesOutcome mailbox.saveError [] mailbox.savedAt "" mailbox.path
        result.messages).1 with
    | .ok _ => result.toEntry
    | .error err => errorEntry mailbox.path err
  | .error err => errorEntry mailbox.path err

/-- The effect of one folder on the store (line 200): what `saveMessages` did
when the download returned, nothing when it raised. -/
def folderSave (simpleParser : String → Except String ParsedMail) (email : String)
    (s : Store) (mailbox : MailboxScript) : Store :=
  match (downloadMailboxMessages simpleParser mailbox).1 with
  | .ok result =>
    (saveMessagesOutcome mailbox.saveError s mailbox.savedAt email mailbox.path
      result.messages).2
  | .error _ => s

/-- The messages a folder yields when neither the lock nor the fetch raises. -/
def downloaded (simpleParser : String → Except String ParsedMail) (mb : MailboxScript) :
    List Message :=
  if mb.exists_ = 0 then [] else parseFetched simpleParser mb.fetched

/-- Return value of `syncAccount` (lines 214-220). -/
structure SyncResult where
  success : Bool
  email : String
  mailboxCount : Nat
  totalMessages : Nat
  results : List SyncEntry
  deriving DecidableEq, Repr

/-- `results.reduce((sum, r) => sum + (r.count || 0), 0)` (line 210). -/
def totalMessages (results : List SyncEntry) : Nat :=
  results.foldl (fun sum r => sum + r.count.getD 0) 0

/-- Host, port and user of the client configuration (lines 167-181 and
290-304), with the client calls made by host discovery. -/
def imapConfig (probe : String → ProbeScript) (account : Account) :
    (String × Nat × String) × List Event :=
  let hostEv : String × List Event :=
    if truthy account.host then (account.host.getD "", [])
    else discoverImapHost probe account.email
  let port := if account.port.getD 0 = 0 then 993 else account.port.getD 0
  let user := if truthy account.username then account.username.getD "" else account.email
  ((hostEv.1, port, user), hostEv.2)

/-- `syncAccount(account)` (lines 163-226): outcome (`.error msg` when it
raises an error with message `msg`), the store afterwards, and the client
calls made. -/
def syncAccount (srv : SyncServer) (simpleParser : String → Except String ParsedMail)
    (s : Store) (account : Account) : Except String SyncResult × Store × List Event :=
  let cfg := imapConfig srv.probe account
  let evConnect := cfg.2 ++ [Event.connect cfg.1.1 cfg.1.2.1 cfg.1.2.2]
  match srv.connectError with
  | some err => (.error err, s, evConnect ++ [.logout])
  | none =>
    match srv.listResult with
    | .error err => (.error err, s, evConnect ++ [.list, .logout])
    | .ok mailboxTree =>
      let mailboxes := flattenMailboxTree mailboxTree
      let r := syncMailboxes simpleParser account.email s mailboxes
      match srv.logoutError with
      | some err => (.error err, r.1, evConnect ++ [.list] ++ r.2.2 ++ [.logout, .logout])
      | none =>
        (.ok { success := true
               email := account.email
               mailboxCount := mailboxes.length
               totalMessages := totalMessages r.2.1
               results := r.2.1 },
          r.1, evConnect ++ [.list] ++ r.2.2 ++ [.logout])

/-! ## Encoding and export (`imapService.js`) -/

/-- The `lines` array of `messageToRFC822(message)` (lines 257-280);
`toUTCString d` stands for `new Date(d).toUTCString()`. -/
def messageToRFC822Lines (toUTCString : Nat → String) (message : Message) : List String :=
  let lines : List String := []
  let lines := if truthy message.from_ then lines ++ ["From: " ++ message.from_.getD ""]
    else lines
  let lines := if truthy message.to_ then lines ++ ["To: " ++ message.to_.getD ""] else lines
  let lines := if truthy message.subject then lines ++ ["Subject: " ++ message.subject.getD ""]
    else lines
  let lines := match message.date with
    | some d => lines ++ ["Date: " ++ toUTCString d]
    | none => lines
  let lines := lines ++ ["MIME-Version: 1.0"]
  if truthy message.html then
    lines ++ ["Content-Type: text/html; charset=utf-8", "", message.html.getD ""]
  else if truthy message.text then
    lines ++ ["Content-Type: text/plain; charset=utf-8", "", message.text.getD ""]
  else
    lines ++ ["Content-Type: text/plain; charset=utf-8", "", "(No content)"]

/-- `messageToRFC822(message)` (lines 257-283): the lines joined by CRLF. -/
def messageToRFC822 (toUTCString : Nat → String) (message : Message) : String :=
  "\r\n".intercalate (messageToRFC822Lines toUTCString message)

/-- Scripted behaviour of the target server during `exportToAccount`:
`createError i` is the outcome of `mailboxCreate` for the folder at position
`i` of the export list, `appendError n` the outcome of the `n`-th `append` call
of the run (counted from 0), `now` the value of `new Date()`. -/
structure ExportServer where
  probe : String → ProbeScript
  connectError : Option String
  createError : Nat → Option JsError
  appendError : Nat → Option String
  logoutError : Option String
  now : Nat

/-- The `status` field of a per-folder export entry. -/
inductive ExportStatus
  | skipped
  | success
  | failed
  deriving DecidableEq, Repr

/-- An element of the `results` array of `exportToAccount`
(lines 341-345, 380-385, 388-392). -/
structure ExportEntry where
  mailbox : String
  total : Option Nat
  exported : Option Nat
  status : ExportStatus
  error : Option String
  deriving DecidableEq, Repr

/-- Return value of `exportToAccount` (lines 320-323 and 401-408). -/
structure ExportResult where
  success : Bool
  message : Option String
  sourceEmail : Option String
  targetEmail : Option String
  mailboxCount : Option Nat
  totalExported : Option Nat
  results : Option (List ExportEntry)
  deriving DecidableEq, Repr

/-- State of the upload loop of one folder: the counter `uploaded`, the number
of `append` calls made so far in the run, and the client calls of the loop. -/
structure UploadState where
  uploaded : Nat
  appendCalls : Nat
  events : List Event
  deriving DecidableEq, Repr

/-- The `for (const message of messages)` loop (lines 364-375): one `append`
per message; `uploaded++` only when the call returns. -/
def uploadMessages (srv : ExportServer) (toUTCString : Nat → String) (mailboxName : String) :
    UploadState → List Message → UploadState
  | st, [] => st
  | st, message :: rest =>
    let rfc822 := messageToRFC822 toUTCString message
    let flags := message.flags
    let date := message.date.getD srv.now
    let ev := Event.append mailboxName rfc822 flags date
    match srv.appendError st.appendCalls with
    | none =>
      uploadMessages srv toUTCString mailboxName
        { uploaded := st.uploaded + 1, appendCalls := st.appendCalls + 1,
          events := st.events ++ [ev] } rest
    | some _ =>
      uploadMessages srv toUTCString mailboxName
        { uploaded := st.uploaded, appendCalls := st.appendCalls + 1,
          events := st.events ++ [ev] } rest

/-- State of the folder loop of `exportToAccount`: `results`, `totalExported`,
the position of the next folder, the number of `append` calls so far, and the
client calls made. -/
structure ExportState where
  results : List ExportEntry
  totalExported : Nat
  folderIndex : Nat
  appendCalls : Nat
  events : List Event
  deriving DecidableEq, Repr

/-- The `for (const mailboxName of mailboxesToExport)` loop (lines 332-394).
The outcome of `mailboxCreate` is read and dropped (lines 352-360). -/
def exportMailboxes (srv : ExportServer) (toUTCString : Nat → String) (s : Store)
    (sourceEmail : String) : ExportState → List String → ExportState
  | st, [] => st
  | st, mailboxName :: rest =>
    let messages := readLocalMessages s sourceEmail mailboxName
    if messages.length = 0 then
      exportMailboxes srv toUTCString s sourceEmail
        { st with
          results := st.results ++
            [{ mailbox := mailboxName, total := none, exported := some 0,
               status := .skipped, error := none }]
          folderIndex := st.folderIndex + 1 } rest
    else
      let _created := srv.createError st.folderIndex
      let up := uploadMessages srv toUTCString mailboxName
        { uploaded := 0, appendCalls := st.appendCalls, events := [] } messages
      exportMailboxes srv toUTCString s sourceEmail
        { results := st.results ++
            [{ mailbox := mailboxName, total := some messages.length,
               exported := some up.uploaded, status := .success, error := none }]
          totalExported := st.totalExported + up.uploaded
          folderIndex := st.folderIndex + 1
          appendCalls := up.appendCalls
          events := st.events ++ [Event.mailboxCreate mailboxName] ++ up.events } rest

/-- The folder set of an export (lines 314-316): the caller's list when it is
given and non-empty, else the local folders of the source account. -/
def mailboxesToExport (s : Store) (sourceEmail : String) (mailboxes : Option (List String)) :
    List String :=
  match mailboxes with
  | some l => if l.length > 0 then l else getLocalMailboxes s sourceEmail
  | none => getLocalMailboxes s sourceEmail

/-- The object returned at lines 320-323. -/
def noMailboxesResult : ExportResult :=
  { success := false, message := some "No mailboxes found to export",
    sourceEmail := none, targetEmail := none, mailboxCount := none,
    totalExported := none, results := none }

/-- `exportToAccount(sourceEmail, targetAccount, mailboxes)` (lines 286-414):
outcome (`.error msg` when it raises) and the client calls made. `mailboxes` is
`none` when the caller passes no list. -/
def exportToAccount (srv : ExportServer) (toUTCString : Nat → String) (s : Store)
    (sourceEmail : String) (targetAccount : Account) (mailboxes : Option (List String)) :
    Except String ExportResult × List Event :=
  let cfg := imapConfig srv.probe targetAccount
  let evConnect := cfg.2 ++ [Event.connect cfg.1.1 cfg.1.2.1 cfg.1.2.2]
  match srv.connectError with
  | some err => (.error err, evConnect ++ [.logout])
  | none =>
    let toExport := mailboxesToExport s sourceEmail mailboxes
    if toExport.length = 0 then
      (.ok noMailboxesResult, evConnect)
    else
      let st := exportMailboxes srv toUTCString s sourceEmail
        { results := [], totalExported := 0, folderIndex := 0, appendCalls := 0, events := [] }
        toExport
      match srv.logoutError with
      | some err => (.error err, evConnect ++ st.events ++ [.logout, .logout])
      | none =>
        (.ok { success := true, message := none,
               sourceEmail := some sourceEmail, targetEmail := some targetAccount.email,
               mailboxCount := some toExport.length,
               totalExported := some st.totalExported,
               results := some st.results },
          evConnect ++ st.events ++ [.logout])

/-- The `append` call made for one stored message (lines 366-370). -/
def appendEvent (srv : ExportServer) (toUTCString : Nat → String) (mailboxName : String)
    (message : Message) : Event :=
  .append mailboxName (messageToRFC822 toUTCString message) message.flags
    (message.date.getD srv.now)

/-- Number of `append` calls that return among the calls numbered
`start, ..., start + count - 1` of a run. -/
def successes (srv : ExportServer) (start count : Nat) : Nat :=
  ((List.range count).filter fun j => (srv.appendError (start + j)).isNone).length

/-- The entry pushed for a folder without stored messages (lines 341-345). -/
def skippedEntry (mailboxName : String) : ExportEntry :=
  { mailbox := mailboxName, total := none, exported := some 0, status := .skipped,
    error := none }

/-- The entry pushed for a folder after its upload loop (lines 380-385). -/
def successEntry (mailboxName : String) (total exported : Nat) : ExportEntry :=
  { mailbox := mailboxName, total := some total, exported := some exported,
    status := .success, error := none }

/-- Whether a client call is an `append`. -/
def Event.isAppend : Event → Bool
  | .append _ _ _ _ => true
  | _ => false

/-- Whether a client call is a `mailboxCreate`. -/
def Event.isCreate : Event → Bool
  | .mailboxCreate _ => true
  | _ => false

/-- The result entries of the folder loop, the first `append` of which is call
number `start` of the run. -/
def folderEntries (srv : ExportServer) (s : Store) (sourceEmail : String) :
    Nat → List String → List ExportEntry
  | _, [] => []
  | start, f :: rest =>
    (if (readLocalMessages s sourceEmail f).length = 0 then skippedEntry f
      else successEntry f (readLocalMessages s sourceEmail f).length
        (successes srv start (readLocalMessages s sourceEmail f).length))
      :: folderEntries srv s sourceEmail
          (start + (readLocalMessages s sourceEmail f).length) rest

/-- The client calls of the folder loop. -/
def folderEvents (srv : ExportServer) (toUTCString : Nat → String) (s : Store)
    (sourceEmail : String) : List String → List Event
  | [] => []
  | f :: rest =>
    (if (readLocalMessages s sourceEmail f).length = 0 then []
      else Event.mailboxCreate f ::
        (readLocalMessages s sourceEmail f).map (appendEvent srv toUTCString f))
      ++ folderEvents srv toUTCString s sourceEmail rest

/-! ## Reference parser of the message codec -/

/-- Split a character sequence at every CRLF. -/
def splitCRLF : List Char → List (List Char)
  | [] => [[]]
  | [c] => [[c]]
  | c :: d :: rest =>
    if c = '\r' ∧ d = '\n' then [] :: splitCRLF rest
    else
      match splitCRLF (d :: rest) with
      | [] => [[c]]
      | l :: ls => (c :: l) :: ls

/-- Join lines with CRLF (`lines.join('\r\n')` on character sequences). -/
def joinCRLF : List (List Char) → List Char
  | [] => []
  | [l] => l
  | l :: m :: rest => l ++ '\r' :: '\n' :: joinCRLF (m :: rest)

/-- The value of the first header line that starts with `name`. -/
def headerValue (name : List Char) (headers : List (List Char)) : Option String :=
  (headers.find? fun l => name.isPrefixOf l).map fun l => String.mk (l.drop name.length)

/-- Modelled from the spec: the parse direction of the Message Codec (section
2: "parses raw protocol-delivered message bytes into a structured record
(subject, participants, date, body variants, attachment metadata)"), which the
code takes from the library function `simpleParser` of `mailparser`; that
library is not part of the source tree, and the functions of the sync take the
parser as a parameter named `simpleParser`. The model reads the header lines up to
the first empty line, takes subject, sender, recipient and date from the
headers of those names, and returns the rest as the html body when the
content type is `text/html` and as the text body otherwise. A source without
an empty line is rejected. `parseDate` reads a date header. -/
def referenceParser (parseDate : String → Option Nat) (source : String) :
    Except String ParsedMail :=
  let lines := splitCRLF source.data
  let headers := lines.takeWhile fun l => !l.isEmpty
  match lines.dropWhile fun l => !l.isEmpty with
  | [] => .error "no message body"
  | _ :: bodyLines =>
    let body := String.mk (joinCRLF bodyLines)
    let isHtml := ((headerValue "Content-Type: ".data headers).map fun v =>
      "text/html".data.isPrefixOf v.data).getD false
    .ok { subject := headerValue "Subject: ".data headers
          from_ := headerValue "From: ".data headers
          to_ := headerValue "To: ".data headers
          date := (headerValue "Date: ".data headers).bind parseDate
          text := if isHtml then none else some body
          html := if isHtml then some body else none
          attachments := some [] }

/-- A header field that `messageToRFC822` writes on one line and the codec
reads back unchanged: absent, or a non-empty string without carriage return. -/
def singleLine (v : Option String) : Prop :=
  ∀ s, v = some s → s ≠ "" ∧ '\r' ∉ s.data

/-- Parsing the encoding of `m` reproduces subject, sender, recipient and both
body variants of `m`. -/
def roundTrips (parser : String → Except String ParsedMail) (toUTCString : Nat → String)
    (m : Message) : Prop :=
  ∃ p, parser (messageToRFC822 toUTCString m) = .ok p ∧
    p.subject = m.subject ∧ p.from_ = m.from_ ∧ p.to_ = m.to_ ∧
    p.text = m.text ∧ p.html = m.html

/-- The header line written for an optional field (lines 261-263): none when
the field is falsy. -/
def optLine (name : String) (v : Option String) : List String :=
  if truthy v then [name ++ v.getD ""] else []

/-- The `Content-Type` line chosen at lines 268-280. -/
def contentTypeLine (message : Message) : String :=
  if truthy message.html then "Content-Type: text/html; charset=utf-8"
  else "Content-Type: text/plain; charset=utf-8"

/-- The body chosen at lines 268-280: the html, else the text, else the
placeholder. -/
def bodyOf (message : Message) : String :=
  if truthy message.html then message.html.getD ""
  else if truthy message.text then message.text.getD ""
  else "(No content)"

/-- The `Date` header line (line 264): none when the message has no date. -/
def dateLines (toUTCString : Nat → String) : Option Nat → List String
  | some d => ["Date: " ++ toUTCString d]
  | none => []

/-- The lines of the encoding before the empty line. -/
def headerLines (toUTCString : Nat → String) (message : Message) : List String :=
  optLine "From: " message.from_ ++ optLine "To: " message.to_ ++
    optLine "Subject: " message.subject ++ dateLines toUTCString message.date ++
    ["MIME-Version: 1.0", contentTypeLine message]

/-! ## Account registry (`storage/accounts.js`) -/

/-- `getAccountById(id)` (lines 24-27) on the content of `accounts.json`. -/
def getAccountById (accounts : List Account) (id : String) : Option Account :=
  accounts.find? fun acc => acc.id = id

/-- `updateAccount(id, updates)` (lines 57-69): raises `Account not found` when
no account has the id, else merges `updates` into the first such account and
writes the file. Returns the new file content and the updated account. -/
def updateAccount (accounts : List Account) (id : String) (updates : Account → Account) :
    Except String (List Account × Account) :=
  match accounts.findIdx? fun acc => acc.id = id with
  | none => .error "Account not found"
  | some index =>
    match accounts.get? index with
    | none => .error "Account not found"
    | some acc => .ok (accounts.set index (updates acc), updates acc)

/-- `deleteAccount(id)` (lines 72-84). -/
def deleteAccount (accounts : List Account) (id : String) :
    Except String (List Account × Account) :=
  match accounts.find? fun acc => acc.id = id with
  | none => .error "Account not found"
  | some account => .ok (accounts.filter fun acc => acc.id ≠ id, account)

/-- The characters of an identifier issued by `uuidv4()` (`addAccount`,
line 34): hexadecimal digits and the hyphen. -/
def isUuidChar (c : Char) : Bool :=
  c.isDigit || ('a'.toNat ≤ c.toNat && c.toNat ≤ 'f'.toNat) || c = '-'

/-- Identifiers made of `uuidv4()` characters only. -/
def isRegistryId (id : String) : Prop :=
  ∀ c ∈ id.data, isUuidChar c = true

/-! ## Operation records and routes (`routes/sync.js`) -/

/-- The `status` field of an operation record. -/
inductive Status
  | running
  | completed
  | failed
  deriving DecidableEq, Repr

/-- A value of the `activeSyncs` / `activeExports` maps; a field the object
literal does not set is `none`. -/
structure OpRecord (ρ : Type) where
  status : Status
  startedAt : Option Nat
  completedAt : Option Nat
  result : Option ρ
  error : Option String
  deriving DecidableEq, Repr

/-- What a trigger route answers. -/
inductive Response
  | error (code : Nat) (error : String)
  | syncStarted (accountId email : String)
  | exportStarted (exportId sourceEmail targetEmail : String)
  deriving DecidableEq, Repr

/-- HTTP status of a response (`res.json` without `res.status` answers 200). -/
def Response.code : Response → Nat
  | .error code _ => code
  | .syncStarted _ _ => 200
  | .exportStarted _ _ _ => 200

/-- Whether the response is an acceptance of the trigger. -/
def Response.accepted : Response → Bool
  | .error _ _ => false
  | .syncStarted _ _ => true
  | .exportStarted _ _ _ => true

/-- Body of `POST /sync/export`. -/
structure ExportRequest where
  sourceAccountId : Option String
  targetAccountId : Option String
  mailboxes : Option (List String)
  deriving DecidableEq, Repr

/-- The process state the routes act on: `accounts.json`, the data directory,
the two module-level maps, the calls of `syncAccount` and `exportToAccount`
made so far, and the pending eviction timers (key and due time). -/
structure World where
  accounts : List Account
  store : Store
  activeSyncs : List (String × OpRecord SyncResult)
  activeExports : List (String × OpRecord ExportResult)
  syncCalls : List Account
  exportCalls : List (String × Account × Option (List String))
  syncTimers : List (String × Nat)
  exportTimers : List (String × Nat)

/-- Control points of one `POST /sync/:accountId` handler (lines 92-148). -/
inductive SyncPost
  | entry (accountId : String)
  | awaitAccount (accountId : String)
  | done (res : Response)
  deriving DecidableEq, Repr

/-- One scheduling step of a `POST /sync/:accountId` handler: from the entry
to the `await getAccountById` of line 103, or from there to the end of the
synchronous part (line 119, where `syncAccount(account)` is called). -/
def SyncPost.step (now : Nat) (w : World) : SyncPost → World × SyncPost
  | .entry accountId =>
    if KV.has w.activeSyncs accountId then
      (w, .done (.error 409 "Sync already in progress for this account"))
    else
      (w, .awaitAccount accountId)
  | .awaitAccount accountId =>
    match getAccountById w.accounts accountId with
    | none => (w, .done (.error 404 "Account not found"))
    | some account =>
      ({ w with
          activeSyncs := KV.set w.activeSyncs accountId
            { status := .running, startedAt := some now, completedAt := none,
              result := none, error := none }
          syncCalls := w.syncCalls ++ [account] },
        .done (.syncStarted accountId account.email))
  | .done res => (w, .done res)

/-- The template literal of line 32. -/
def exportKey (sourceAccountId targetAccountId : String) : String :=
  sourceAccountId ++ "->" ++ targetAccountId

/-- Control points of one `POST /sync/export` handler (lines 15-77). -/
inductive ExportPost
  | entry (req : ExportRequest)
  | awaitSource (req : ExportRequest)
  | awaitTarget (req : ExportRequest) (sourceAccount : Option Account)
  | done (res : Response)
  deriving DecidableEq, Repr

/-- One scheduling step of a `POST /sync/export` handler: from the entry to the
`await` of line 25, from there to the `await` of line 26, and from there to the
end of the synchronous part (line 53, where `exportToAccount` is called). -/
def ExportPost.step (now : Nat) (w : World) : ExportPost → World × ExportPost
  | .entry req =>
    if !truthy req.sourceAccountId || !truthy req.targetAccountId then
      (w, .done (.error 400 "Missing required fields: sourceAccountId, targetAccountId"))
    else
      (w, .awaitSource req)
  | .awaitSource req =>
    (w, .awaitTarget req (getAccountById w.accounts (req.sourceAccountId.getD "")))
  | .awaitTarget req sourceAccount =>
    match sourceAccount, getAccountById w.accounts (req.targetAccountId.getD "") with
    | some source, some target =>
      let exportId := exportKey (req.sourceAccountId.getD "") (req.targetAccountId.getD "")
      if KV.has w.activeExports exportId then
        (w, .done (.error 409 "Export already in progress for these accounts"))
      else
        ({ w with
            activeExports := KV.set w.activeExports exportId
              { status := .running, startedAt := some now, completedAt := none,
                result := none, error := none }
            exportCalls := w.exportCalls ++ [(source.email, target, req.mailboxes)] },
          .done (.exportStarted exportId source.email target.email))
    | _, _ => (w, .done (.error 404 "Source or target account not found"))
  | .done res => (w, .done res)

/-- The `.then` / `.catch` callbacks of the export route (lines 54-73), run
when `exportToAccount` settles with `outcome`. -/
def exportSettle (now : Nat) (w : World) (exportId : String)
    (outcome : Except String ExportResult) : World :=
  match outcome with
  | .ok result =>
    { w with
      activeExports := KV.set w.activeExports exportId
        { status := .completed, startedAt := none, completedAt := some now,
          result := some result, error := none }
      exportTimers := w.exportTimers ++ [(exportId, now + 300000)] }
  | .error err =>
    { w with
      activeExports := KV.set w.activeExports exportId
        { status := .failed, startedAt := none, completedAt := some now,
          result := none, error := some err }
      exportTimers := w.exportTimers ++ [(exportId, now + 300000)] }

/-- The `.catch` callback of the sync route (lines 135-144). -/
def syncCatch (now : Nat) (w : World) (accountId : String) (err : String) : World :=
  { w with
    activeSyncs := KV.set w.activeSyncs accountId
      { status := .failed, startedAt := none, completedAt := some now,
        result := none, error := some err }
    syncTimers := w.syncTimers ++ [(accountId, now + 60000)] }

/-- The first part of the `.then` callback of the sync route (lines 121-125),
up to the `await updateAccount(...)`. -/
def syncThen (now : Nat) (w : World) (accountId : String) (result : SyncResult) : World :=
  { w with
    activeSyncs := KV.set w.activeSyncs accountId
      { status := .completed, startedAt := none, completedAt := some now,
        result := some result, error := none } }

/-- The rest of the `.then` callback (lines 128-133): `updateAccount` records
the last-sync time; when it raises, the promise returned by `.then` rejects and
the chained `.catch` callback runs. -/
def syncThenUpdate (now : Nat) (w : World) (accountId : String) : World :=
  match updateAccount w.accounts accountId fun acc => { acc with lastSync := some now } with
  | .ok updated =>
    { w with
      accounts := updated.1
      syncTimers := w.syncTimers ++ [(accountId, now + 60000)] }
  | .error err => syncCatch now w accountId err

/-- Everything the sync route does once `syncAccount` settles with `outcome`
(lines 120-144). -/
def syncSettle (now : Nat) (w : World) (accountId : String)
    (outcome : Except String SyncResult) : World :=
  match outcome with
  | .ok result => syncThenUpdate now (syncThen now w accountId result) accountId
  | .error err => syncCatch now w accountId err

/-- The background run started by an accepted sync trigger: `syncAccount` on the
current store, then the callbacks of the route. -/
def runSync (srv : SyncServer) (simpleParser : String → Except String ParsedMail)
    (now : Nat) (w : World) (account : Account) : World :=
  let r := syncAccount srv simpleParser w.store account
  syncSettle now { w with store := r.2.1 } account.id r.1

/-- The background run started by an accepted export trigger. -/
def runExport (srv : ExportServer) (toUTCString : Nat → String) (now : Nat) (w : World)
    (exportId sourceEmail : String) (targetAccount : Account)
    (mailboxes : Option (List String)) : World :=
  exportSettle now w exportId
    (exportToAccount srv toUTCString w.store sourceEmail targetAccount mailboxes).1

/-- An expired timer of the sync route fires (`activeSyncs.delete`). -/
def fireSyncTimer (w : World) (accountId : String) : World :=
  { w with activeSyncs := KV.delete w.activeSyncs accountId }

/-- An expired timer of the export route fires (`activeExports.delete`). -/
def fireExportTimer (w : World) (exportId : String) : World :=
  { w with activeExports := KV.delete w.activeExports exportId }

/-- `DELETE /accounts/:id` (`routes/accounts.js`, lines 82-89) on the registry. -/
def deleteAccountRoute (w : World) (id : String) : World :=
  match deleteAccount w.accounts id with
  | .ok r => { w with accounts := r.1 }
  | .error _ => w

/-- Two `POST /sync/:accountId` handlers in flight: the scheduler picks which
one runs up to its next suspension point (`false`: the first). -/
def stepSyncPair (now : Nat) : World × SyncPost × SyncPost → Bool → World × SyncPost × SyncPost
  | (w, h1, h2), false => ((h1.step now w).1, (h1.step now w).2, h2)
  | (w, h1, h2), true => ((h2.step now w).1, h1, (h2.step now w).2)

/-- A run of two sync handlers under a schedule. -/
def runSyncPair (now : Nat) (init : World × SyncPost × SyncPost) (schedule : List Bool) :
    World × SyncPost × SyncPost :=
  schedule.foldl (stepSyncPair now) init

/-- What the scheduler may pick while two `POST /sync/export` handlers are in
flight: let one of them run up to its next suspension point, or let the export
started by one of them settle with some outcome. -/
inductive ExportAction
  | handler (second : Bool)
  | settle (second : Bool) (outcome : Except String ExportResult)

/-- One scheduling step with two export handlers in flight. Settling is
possible only for a handler that has started its export. -/
def stepExportPair (now : Nat) :
    World × ExportPost × ExportPost → ExportAction → World × ExportPost × ExportPost
  | (w, h1, h2), .handler false => ((h1.step now w).1, (h1.step now w).2, h2)
  | (w, h1, h2), .handler true => ((h2.step now w).1, h1, (h2.step now w).2)
  | (w, h1, h2), .settle false outcome =>
    match h1 with
    | .done (.exportStarted exportId _ _) => (exportSettle now w exportId outcome, h1, h2)
    | _ => (w, h1, h2)
  | (w, h1, h2), .settle true outcome =>
    match h2 with
    | .done (.exportStarted exportId _ _) => (exportSettle now w exportId outcome, h1, h2)
    | _ => (w, h1, h2)

/-- A run of two export handlers under a schedule. -/
def runExportPair (now : Nat) (init : World × ExportPost × ExportPost)
    (schedule : List ExportAction) : World × ExportPost × ExportPost :=
  schedule.foldl (stepExportPair now) init

/-- Whether a handler has answered with an acceptance. -/
def ExportPost.accepted : ExportPost → Bool
  | .done res => res.accepted
  | _ => false

/-- Whether a handler has answered with an acceptance. -/
def SyncPost.accepted : SyncPost → Bool
  | .done res => res.accepted
  | _ => false

/-- The conflict answer of the export route (lines 36-38). -/
def exportConflict : Response :=
  .error 409 "Export already in progress for these accounts"

/-- A trigger for the pair passes the field check of line 19 and the registry
check of line 28. -/
def validPair (accounts : List Account) (src tgt : String) : Prop :=
  src ≠ "" ∧ tgt ≠ "" ∧
    (getAccountById accounts src).isSome = true ∧ (getAccountById accounts tgt).isSome = true

/-- What can be said of a handler that was entered with a request for the pair
`(src, tgt)`, at each of its control points. -/
def ExportPost.serves (accounts : List Account) (src tgt : String) : ExportPost → Prop
  | .entry r => r.sourceAccountId = some src ∧ r.targetAccountId = some tgt
  | .awaitSource r =>
    r.sourceAccountId = some src ∧ r.targetAccountId = some tgt ∧ src ≠ "" ∧ tgt ≠ ""
  | .awaitTarget r sa =>
    r.sourceAccountId = some src ∧ r.targetAccountId = some tgt ∧ src ≠ "" ∧ tgt ≠ "" ∧
      sa = getAccountById accounts src
  | .done (.error c m) =>
    Response.error c m = exportConflict ∨ (c ≠ 409 ∧ ¬ validPair accounts src tgt)
  | .done (.exportStarted id _ _) => id = exportKey src tgt ∧ validPair accounts src tgt
  | .done (.syncStarted _ _) => False

/-- Invariant of a run of two export handlers, the first for `(s1, t1)` and the
second for `(s2, t2)`, started in world `w0`: the registry is unchanged, keys
enter `activeExports` only through an acceptance, an accepted handler's key is
present, a conflict answer is explained, and `exportToAccount` has been called
once per acceptance. -/
def exportPairInv (w0 : World) (s1 t1 s2 t2 : String)
    (st : World × ExportPost × ExportPost) : Prop :=
  st.1.accounts = w0.accounts ∧
  st.2.1.serves w0.accounts s1 t1 ∧
  st.2.2.serves w0.accounts s2 t2 ∧
  (∀ k, KV.has st.1.activeExports k = true →
    KV.has w0.activeExports k = true ∨ (k = exportKey s1 t1 ∧ st.2.1.accepted = true) ∨
      (k = exportKey s2 t2 ∧ st.2.2.accepted = true)) ∧
  (st.2.1.accepted = true → KV.has st.1.activeExports (exportKey s1 t1) = true) ∧
  (st.2.2.accepted = true → KV.has st.1.activeExports (exportKey s2 t2) = true) ∧
  (st.2.1 = .done exportConflict →
    KV.has w0.activeExports (exportKey s1 t1) = true ∨
      (exportKey s1 t1 = exportKey s2 t2 ∧ st.2.2.accepted = true)) ∧
  (st.2.2 = .done exportConflict →
    KV.has w0.activeExports (exportKey s2 t2) = true ∨
      (exportKey s1 t1 = exportKey s2 t2 ∧ st.2.1.accepted = true)) ∧
  st.1.exportCalls.length = w0.exportCalls.length
    + (if st.2.1.accepted then 1 else 0) + (if st.2.2.accepted then 1 else 0) ∧
  (exportKey s1 t1 = exportKey s2 t2 →
    ¬ (st.2.1.accepted = true ∧ st.2.2.accepted = true))

/-- Whether a client call is a probe made by host discovery. -/
def Event.isProbe : Event → Bool
  | .probeConnect _ => true
  | .probeLogout _ => true
  | _ => false

/-- Whether a client call is a `logout` of the session. -/
def Event.isLogout : Event → Bool
  | .logout => true
  | _ => false

/-- Whether a client call acquires a mailbox lock. -/
def Event.isLock : Event → Bool
  | .getMailboxLock _ => true
  | _ => false

/-- Whether a client call releases a mailbox lock. -/
def Event.isRelease : Event → Bool
  | .lockRelease _ => true
  | _ => false

/-- The folder script in which the fetch yields only the raw messages that the
parser accepts. -/
def MailboxScript.parsable (simpleParser : String → Except String ParsedMail)
    (mb : MailboxScript) : MailboxScript :=
  { mb with
    fetched := mb.fetched.filter fun raw =>
      match simpleParser raw.source with
      | .ok _ => true
      | .error _ => false }

/-- The server script in which every folder yields only the raw messages that
the parser accepts. -/
def SyncServer.parsable (simpleParser : String → Except String ParsedMail)
    (srv : SyncServer) : SyncServer :=
  { srv with
    listResult :=
      match srv.listResult with
      | .ok folders => .ok (folders.map fun mb => mb.parsable simpleParser)
      | .error err => .error err }

/-- The states of the store during `saveMessages` (lines 136-157): after the
`mkdir`, after the write of `messages.json`, after the write of
`summary.json`. -/
def saveMessagesStates (s : Store) (now : Nat) (accountEmail boxName : String)
    (messages : List Message) : Store × Store × Store :=
  let sanitizedBoxName := sanitizeBoxName boxName
  let s1 := mkdir s accountEmail sanitizedBoxName
  let s2 := writeMessagesFile s1 accountEmail sanitizedBoxName messages
  let s3 := writeSummaryFile s2 accountEmail sanitizedBoxName
    (buildSummary now boxName messages)
  (s1, s2, s3)

/-- The summary of a folder directory is the projection of its message
collection: same count, entry by entry the same uid, subject, sender, date and
flags. A directory without summary has nothing to compare. -/
def summaryConsistent (d : BoxDir) : Prop :=
  ∀ summary, d.summaryFile = some summary →
    summary.messageCount = (d.messagesFile.getD []).length ∧
    summary.messages = (d.messagesFile.getD []).map summaryEntry

/-- The number of message records saved for one folder by a `saveMessages`
that returned (line 200): the `messageCount` it returns; none when the download
raises, since then `saveMessages` is not reached, and none when `saveMessages`
raises. -/
def savedCount (simpleParser : String → Except String ParsedMail) (mb : MailboxScript) : Nat :=
  match (downloadMailboxMessages simpleParser mb).1 with
  | .ok result =>
    match (saveMessagesOutcome mb.saveError [] mb.savedAt "" mb.path result.messages).1 with
    | .ok saved => saved.messageCount
    | .error _ => 0
  | .error _ => 0

/-- The fields an operation record carries, by status, as the four object
literals of each route set them (lines 42-45, 56-60, 66-70 and 109-112,
122-126, 137-141): `startedAt` on a running record; `completedAt` and `result`
on a completed one; `completedAt` and `error` on a failed one. -/
def OpRecord.shaped {ρ : Type} (r : OpRecord ρ) : Prop :=
  match r.status with
  | .running =>
    r.startedAt.isSome = true ∧ r.completedAt = none ∧ r.result = none ∧ r.error = none
  | .completed =>
    r.startedAt = none ∧ r.completedAt.isSome = true ∧ r.result.isSome = true ∧ r.error = none
  | .failed =>
    r.startedAt = none ∧ r.completedAt.isSome = true ∧ r.result = none ∧ r.error.isSome = true

/-- Every record of a map of operation records has the fields of its status. -/
def mapShaped {ρ : Type} (m : List (String × OpRecord ρ)) : Prop :=
  ∀ k r, KV.get m k = some r → r.shaped

/-- Every record of `activeSyncs` and of `activeExports` has the fields of its
status. -/
def recordsShaped (w : World) : Prop :=
  mapShaped w.activeSyncs ∧ mapShaped w.activeExports

/-- Everything in `routes/sync.js` and `routes/accounts.js` that acts on the
process state: a trigger handler at some control point runs to its next
suspension point, a callback of a background run is called, a timer fires, an
account is deleted. -/
inductive RouteAction
  | syncPost (p : SyncPost)
  | exportPost (p : ExportPost)
  | syncThen (accountId : String) (result : SyncResult)
  | syncThenUpdate (accountId : String)
  | syncCatch (accountId : String) (err : String)
  | exportSettle (exportId : String) (outcome : Except String ExportResult)
  | syncTimer (accountId : String)
  | exportTimer (exportId : String)
  | deleteAccount (id : String)

/-- The process state after an action taken at clock value `now`. -/
def routeStep (w : World) (a : Nat × RouteAction) : World :=
  match a.2 with
  | .syncPost p => (p.step a.1 w).1
  | .exportPost p => (p.step a.1 w).1
  | .syncThen accountId result => syncThen a.1 w accountId result
  | .syncThenUpdate accountId => syncThenUpdate a.1 w accountId
  | .syncCatch accountId err => syncCatch a.1 w accountId err
  | .exportSettle exportId outcome => exportSettle a.1 w exportId outcome
  | .syncTimer accountId => fireSyncTimer w accountId
  | .exportTimer exportId => fireExportTimer w exportId
  | .deleteAccount id => deleteAccountRoute w id

/-- One `POST /sync/export` handler run from its entry to its answer
(lines 15-53), nothing else acting on the process state in between. -/
def ExportPost.run (now : Nat) (w : World) (req : ExportRequest) : World × ExportPost :=
  let r1 := (ExportPost.entry req).step now w
  let r2 := r1.2.step now r1.1
  r2.2.step now r2.1

/-! ## Concrete scenarios -/

/-- A parser that accepts every source. -/
def exampleParser : String → Except String ParsedMail :=
  fun _ => .ok { subject := some "hi", from_ := none, to_ := none, date := none,
                 text := none, html := none, attachments := none }

/-- A remote folder with one message. -/
def exampleInbox : MailboxScript :=
  { path := "INBOX", lockError := none, exists_ := 1,
    fetched := [{ uid := 1, flags := [], source := "a" }],
    fetchError := none, savedAt := 5, saveError := none }

/-- A remote folder whose fetch raises. -/
def exampleSent : MailboxScript :=
  { path := "Sent", lockError := none, exists_ := 2, fetched := [],
    fetchError := some "fetch failed", savedAt := 6, saveError := none }

/-- An empty remote folder. -/
def exampleDrafts : MailboxScript :=
  { path := "Drafts", lockError := none, exists_ := 0, fetched := [],
    fetchError := none, savedAt := 7, saveError := none }

/-- The folder list of the example server. -/
def exampleFolders : List MailboxScript := [exampleInbox, exampleSent, exampleDrafts]

/-- A server that connects, lists three folders and logs out. -/
def exampleSyncServer : SyncServer :=
  { probe := fun _ => { connectError := none, logoutError := none }
    connectError := none
    listResult := .ok exampleFolders
    logoutError := none }

/-- The account `a@x.com`. -/
def exampleAccountA : Account :=
  { id := "1", email := "a@x.com", host := some "imap.x.com", port := some 993,
    username := some "a", password := some "p", tls := true, createdAt := 0,
    lastSync := none, status := "active" }

/-- The world of the examples: account `a@x.com` registered, nothing stored,
nothing running. -/
def exampleWorld : World :=
  { accounts := [exampleAccountA], store := [], activeSyncs := [], activeExports := [],
    syncCalls := [], exportCalls := [], syncTimers := [], exportTimers := [] }

/-- The account `b@y.com`. -/
def exampleAccountB : Account :=
  { id := "2", email := "b@y.com", host := some "imap.y.com", port := some 993,
    username := some "b", password := some "q", tls := true, createdAt := 0,
    lastSync := none, status := "active" }

/-- A world with both example accounts registered. -/
def exampleWorldAB : World :=
  { exampleWorld with accounts := [exampleAccountA, exampleAccountB] }

/-- The request to export account `1` into account `2`. -/
def exampleExportRequest : ExportRequest :=
  { sourceAccountId := some "1", targetAccountId := some "2", mailboxes := none }

/-- A stored message with the given uid. -/
def exampleMessage (uid : Nat) : Message :=
  { uid := uid, flags := ["\\Seen"], subject := some "hello", from_ := some "a@x.com",
    to_ := some "c@z.com", date := some 1000, text := some "body", html := none,
    attachments := some [] }

/-- The local copy of `a@x.com`: `INBOX` with three messages, `Drafts` with none. -/
def exampleStore : Store :=
  (saveMessages
    (saveMessages [] 5 "a@x.com" "INBOX"
      [exampleMessage 1, exampleMessage 2, exampleMessage 3]).1
    6 "a@x.com" "Drafts" []).1

/-- The example world with the local copy of `a@x.com` in place. -/
def exampleWorldStored : World :=
  { exampleWorldAB with store := exampleStore }

/-- A target server on which every call succeeds. -/
def exampleExportServer : ExportServer :=
  { probe := fun _ => { connectError := none, logoutError := none }
    connectError := none
    createError := fun _ => none
    appendError := fun _ => none
    logoutError := none
    now := 2000 }

/-- A rendering of dates for the examples. -/
def exampleUTC : Nat → String :=
  fun _ => "Thu, 01 Jan 1970 00:00:01 GMT"

/-- A target server on which the appends numbered 1 and 2 of a run raise. -/
def exampleFlakyServer : ExportServer :=
  { exampleExportServer with
    appendError := fun n => if n = 1 ∨ n = 2 then some "append rejected" else none }

/-- A server on which everything succeeds except the closing logout. -/
def exampleLogoutFailsServer : SyncServer :=
  { exampleSyncServer with logoutError := some "logout failed" }

/-- The world after a trigger `POST /sync/1` has been accepted in
`exampleWorld` and the account `1` has then been deleted. -/
def exampleWorldDeleted : World :=
  deleteAccountRoute
    ((SyncPost.awaitAccount "1").step 7 ((SyncPost.entry "1").step 7 exampleWorld).1).1 "1"

/-- A stored message with both body variants. -/
def exampleBothA : Message :=
  { exampleMessage 1 with text := some "plain A", html := some "<p>x</p>" }

/-- The same message with another plain text. -/
def exampleBothB : Message :=
  { exampleMessage 1 with text := some "plain B", html := some "<p>x</p>" }

/-- A stored message with neither body variant. -/
def exampleNeither : Message :=
  { exampleMessage 1 with text := none, html := none }

/-- A stored message whose plain text is the placeholder of the encoder. -/
def examplePlaceholder : Message :=
  { exampleMessage 1 with text := some "(No content)", html := none }

/-- A server whose `connect` raises. -/
def exampleUnreachableServer : SyncServer :=
  { exampleSyncServer with connectError := some "connect ECONNREFUSED" }

/-- The world after a trigger `POST /sync/1` has been accepted in
`exampleWorld` (at time 7). -/
def exampleWorldRunning : World :=
  ((SyncPost.awaitAccount "1").step 7 ((SyncPost.entry "1").step 7 exampleWorld).1).1

/-- The world after the sync started in `exampleWorldRunning` has completed
(at time 9). -/
def exampleWorldCompleted : World :=
  runSync exampleSyncServer exampleParser 9 exampleWorldRunning exampleAccountA

/-- The world after the sync started in `exampleWorldRunning` has failed to
connect (at time 9). -/
def exampleWorldFailed : World :=
  runSync exampleUnreachableServer exampleParser 9 exampleWorldRunning exampleAccountA

/-- A target server on which everything succeeds except the closing logout. -/
def exampleExportLogoutFails : ExportServer :=
  { exampleExportServer with logoutError := some "logout failed" }

/-- A parser that rejects the source `bad`. -/
def exampleStrictParser : String → Except String ParsedMail :=
  fun source => if source = "bad" then .error "parse error" else exampleParser source

/-- A remote folder with two messages, the second of which does not parse. -/
def exampleInboxBad : MailboxScript :=
  { exampleInbox with
    exists_ := 2
    fetched := [{ uid := 1, flags := [], source := "a" },
                { uid := 2, flags := [], source := "bad" }] }

/-- A server whose only folder holds one parsable message. -/
def exampleGoodServer : SyncServer :=
  { exampleSyncServer with listResult := .ok [exampleInbox] }

/-- A server whose only folder holds a parsable and an unparsable message. -/
def exampleBadServer : SyncServer :=
  { exampleSyncServer with listResult := .ok [exampleInboxBad] }

/-- Probe outcomes for the domain `d.com`: `imap.d.com` cannot be reached
(connection-level failure), `mail.d.com` rejects the throwaway credential
(authentication-style rejection), `d.com` cannot be reached. -/
def exampleProbe : String → ProbeScript :=
  fun host =>
    if host = "mail.d.com" then
      { connectError := some { message := some "authentication failed",
                               responseText := some "NO [AUTHENTICATIONFAILED] auth" }
        logoutError := none }
    else
      { connectError := some { message := some "getaddrinfo ENOTFOUND",
                               responseText := none }
        logoutError := some { message := some "Connection not established",
                              responseText := none } }

/-- Outcome of `mailboxCreate` when the folder already exists on the target. -/
def exampleCreateExists : Nat → Option JsError :=
  fun _ => some { message := some "Command failed",
                  responseText := some "NO [ALREADYEXISTS] Mailbox already exists" }

/-- Outcome of `mailboxCreate` when the target refuses for another reason. -/
def exampleCreateDenied : Nat → Option JsError :=
  fun _ => some { message := some "Command failed",
                  responseText := some "NO [NOPERM] Permission denied" }

/-- A sync of account `1` triggered at time 10 that completes at time 20,
followed by an export from `1` to `2` triggered at time 30 that fails at
time 40. -/
def exampleActions : List (Nat × RouteAction) :=
  [(10, .syncPost (.entry "1")), (10, .syncPost (.awaitAccount "1")),
   (20, .syncThen "1" { success := true, email := "a@x.com", mailboxCount := 0,
                        totalMessages := 0, results := [] }),
   (20, .syncThenUpdate "1"),
   (30, .exportPost (.entry exampleExportRequest)),
   (30, .exportPost (.awaitSource exampleExportRequest)),
   (30, .exportPost (.awaitTarget exampleExportRequest (some exampleAccountA))),
   (40, .exportSettle "1->2" (.error "connect ECONNREFUSED"))]

/-- The store after a sync saved one message for the server path
`INBOX/Sent` of `a@x.com`. -/
def exampleSentStore : Store :=
  (saveMessages [] 5 "a@x.com" "INBOX/Sent" [exampleMessage 1]).1

/-- A remote folder with one message whose path is 300 characters long: lock
and fetch return, `mkdir` of the folder directory raises. -/
def exampleLongFolder : MailboxScript :=
  { path := String.mk (List.replicate 300 'a'), lockError := none, exists_ := 1,
    fetched := [{ uid := 4, flags := [], source := "b" }],
    fetchError := none, savedAt := 8,
    saveError := some { step := .mkdir, message := "ENAMETOOLONG: name too long, mkdir" } }

/-- A server that lists `INBOX` and the folder with the long path. -/
def exampleLongServer : SyncServer :=
  { exampleSyncServer with listResult := .ok [exampleInbox, exampleLongFolder] }

/-- The folder `INBOX` on a file system where `summary.json` of its directory
cannot be written. -/
def exampleDeniedFolder : MailboxScript :=
  { exampleInbox with
    saveError := some { step := .writeSummary,
                        message := "EACCES: permission denied, open summary.json" } }

/-- A server that lists the one folder `INBOX`. -/
def exampleDeniedServer : SyncServer :=
  { exampleSyncServer with listResult := .ok [exampleDeniedFolder] }

/-! ## Lemmas on key/value containers -/

theorem KV.get_set_same {α β : Type} [DecidableEq α] (m : List (α × β)) (k : α) (v : β) :
    KV.get (KV.set m k v) k = some v := by
  induction m with
  | nil => simp [KV.set, KV.get]
  | cons e rest ih =>
    obtain ⟨k', v'⟩ := e
    by_cases h : k' = k
    · simp [KV.set, KV.get, h]
    · simp [KV.set, KV.get, h, ih]

theorem KV.get_set_other {α β : Type} [DecidableEq α] (m : List (α × β)) (k k2 : α) (v : β)
    (h : k ≠ k2) : KV.get (KV.set m k v) k2 = KV.get m k2 := by
  induction m with
  | nil => simp [KV.set, KV.get, h]
  | cons e rest ih =>
    obtain ⟨k', v'⟩ := e
    by_cases h1 : k' = k
    · subst h1
      simp [KV.set, KV.get, h]
    · by_cases h2 : k' = k2
      · subst h2
        simp [KV.set, KV.get, h1]
      · simp [KV.set, KV.get, h1, h2, ih]

/-- After `saveMessages` the folder directory holds exactly the written
collection and its summary. -/
theorem get_saveMessages (s : Store) (now : Nat) (accountEmail boxName : String)
    (messages : List Message) :
    KV.get (saveMessages s now accountEmail boxName messages).1
        (accountEmail, sanitizeBoxName boxName)
      = some { messagesFile := some messages
               summaryFile := some (buildSummary now boxName messages) } := by
  unfold saveMessages writeSummaryFile writeMessagesFile
  simp only []
  cases h : KV.get (mkdir s accountEmail (sanitizeBoxName boxName))
      (accountEmail, sanitizeBoxName boxName) <;>
    simp [KV.get_set_same]

/-- Directories other than the written one are untouched by `saveMessages`. -/
theorem get_saveMessages_other (s : Store) (now : Nat) (accountEmail boxName : String)
    (messages : List Message) (k : String × String)
    (h : (accountEmail, sanitizeBoxName boxName) ≠ k) :
    KV.get (saveMessages s now accountEmail boxName messages).1 k = KV.get s k := by
  have hm : KV.get (mkdir s accountEmail (sanitizeBoxName boxName)) k = KV.get s k := by
    unfold mkdir
    cases KV.get s (accountEmail, sanitizeBoxName boxName) <;>
      simp [KV.get_set_other _ _ _ _ h]
  unfold saveMessages writeSummaryFile writeMessagesFile
  simp only []
  cases h1 : KV.get (mkdir s accountEmail (sanitizeBoxName boxName))
      (accountEmail, sanitizeBoxName boxName) <;>
    simp [KV.get_set_same, KV.get_set_other _ _ _ _ h, hm]

/-- Creating the directory leaves the other directories as they are. -/
theorem get_mkdir_other (s : Store) (accountEmail dir : String) (k : String × String)
    (h : (accountEmail, dir) ≠ k) : KV.get (mkdir s accountEmail dir) k = KV.get s k := by
  unfold mkdir
  cases KV.get s (accountEmail, dir) <;> simp [KV.get_set_other _ _ _ _ h]

/-- Creating the directory leaves the messages read from it as they are. -/
theorem readLocalMessages_mkdir (s : Store) (accountEmail boxName : String) :
    readLocalMessages (mkdir s accountEmail (sanitizeBoxName boxName)) accountEmail boxName
      = readLocalMessages s accountEmail boxName := by
  unfold readLocalMessages mkdir
  cases h : KV.get s (accountEmail, sanitizeBoxName boxName) with
  | none => simp [KV.get_set_same, h]
  | some d => simp [h]

/-- After the write of `messages.json` the directory holds the written
collection. -/
theorem readLocalMessages_writeMessagesFile (s : Store) (accountEmail boxName : String)
    (messages : List Message) :
    readLocalMessages (writeMessagesFile s accountEmail (sanitizeBoxName boxName) messages)
        accountEmail boxName
      = messages := by
  unfold readLocalMessages writeMessagesFile
  cases h : KV.get s (accountEmail, sanitizeBoxName boxName) <;> simp [KV.get_set_same]

/-- A save without failure is `saveMessages`. -/
theorem saveMessagesOutcome_none (s : Store) (now : Nat) (accountEmail boxName : String)
    (messages : List Message) :
    saveMessagesOutcome none s now accountEmail boxName messages
      = (.ok (saveMessages s now accountEmail boxName messages).2,
          (saveMessages s now accountEmail boxName messages).1) := rfl

/-- A save with a failure raises the error of the failing call. -/
theorem saveMessagesOutcome_some (e : SaveError) (s : Store) (now : Nat)
    (accountEmail boxName : String) (messages : List Message) :
    (saveMessagesOutcome (some e) s now accountEmail boxName messages).1 = .error e.message := by
  obtain ⟨step, msg⟩ := e
  cases step <;> rfl

/-- Directories other than the one addressed are untouched by a save, whether
it returns or raises. -/
theorem get_saveMessagesOutcome_other (failure : Option SaveError) (s : Store) (now : Nat)
    (accountEmail boxName : String) (messages : List Message) (k : String × String)
    (h : (accountEmail, sanitizeBoxName boxName) ≠ k) :
    KV.get (saveMessagesOutcome failure s now accountEmail boxName messages).2 k
      = KV.get s k := by
  cases failure with
  | none => exact get_saveMessages_other s now accountEmail boxName messages k h
  | some e =>
    obtain ⟨step, msg⟩ := e
    unfold saveMessagesOutcome
    cases step
    · rfl
    · exact get_mkdir_other s accountEmail _ k h
    · simp only []
      unfold writeMessagesFile
      cases KV.get (mkdir s accountEmail (sanitizeBoxName boxName))
          (accountEmail, sanitizeBoxName boxName) <;>
        simp [KV.get_set_other _ _ _ _ h, get_mkdir_other s accountEmail _ k h]

/-! ## Lemmas on the synchronisation loop -/

theorem flattenMailboxTree_eq {α : Type} (mailboxTree : List α) :
    flattenMailboxTree mailboxTree = mailboxTree := by
  have h : ∀ (l acc : List α),
      l.foldl (fun result mailbox => result ++ [mailbox]) acc = acc ++ l := by
    intro l
    induction l with
    | nil => intro acc; simp
    | cons x xs ih => intro acc; simp [ih]
  simpa [flattenMailboxTree] using h mailboxTree []

/-- One turn of the folder loop: the entry of the folder, its effect on the
store, and the client calls of its download. -/
theorem syncMailboxes_cons (simpleParser : String → Except String ParsedMail)
    (email : String) (mb : MailboxScript) (rest : List MailboxScript) (s : Store) :
    syncMailboxes simpleParser email s (mb :: rest)
      = ((syncMailboxes simpleParser email (folderSave simpleParser email s mb) rest).1,
          folderEntry simpleParser mb
            :: (syncMailboxes simpleParser email (folderSave simpleParser email s mb) rest).2.1,
          (downloadMailboxMessages simpleParser mb).2
            ++ (syncMailboxes simpleParser email (folderSave simpleParser email s mb) rest).2.2) := by
  rw [syncMailboxes]
  unfold folderSave folderEntry
  rcases h : downloadMailboxMessages simpleParser mb with ⟨r, ev⟩
  cases r with
  | error e => rfl
  | ok d =>
    cases hs : mb.saveError with
    | none => rfl
    | some e =>
      obtain ⟨step, msg⟩ := e
      cases step <;> rfl

theorem syncMailboxes_results (simpleParser : String → Except String ParsedMail)
    (email : String) (folders : List MailboxScript) (s : Store) :
    (syncMailboxes simpleParser email s folders).2.1
      = folders.map (folderEntry simpleParser) := by
  induction folders generalizing s with
  | nil => rfl
  | cons mb rest ih => rw [syncMailboxes_cons, List.map_cons, ← ih]

theorem syncMailboxes_store (simpleParser : String → Except String ParsedMail)
    (email : String) (folders : List MailboxScript) (s : Store) :
    (syncMailboxes simpleParser email s folders).1
      = folders.foldl (folderSave simpleParser email) s := by
  induction folders generalizing s with
  | nil => rfl
  | cons mb rest ih => rw [syncMailboxes_cons, List.foldl_cons, ← ih]

/-- Later folders that are saved under other directory names leave a folder
directory as it is. -/
theorem get_foldl_folderSave (simpleParser : String → Except String ParsedMail)
    (email : String) (k : String) (post : List MailboxScript) (s : Store)
    (h : ∀ mb ∈ post, ∀ d, (downloadMailboxMessages simpleParser mb).1 = .ok d →
      sanitizeBoxName mb.path ≠ k) :
    KV.get (post.foldl (folderSave simpleParser email) s) (email, k) = KV.get s (email, k) := by
  induction post generalizing s with
  | nil => rfl
  | cons mb rest ih =>
    simp only [List.foldl_cons]
    rw [ih _ (fun mb' hmb' => h mb' (List.mem_cons_of_mem _ hmb'))]
    unfold folderSave
    cases hd : (downloadMailboxMessages simpleParser mb).1 with
    | error e => rfl
    | ok d =>
      simp only []
      apply get_saveMessagesOutcome_other
      intro hk
      exact h mb (List.mem_cons_self _ _) d hd (by simpa using congrArg Prod.snd hk)

theorem downloadMailboxMessages_lockError (simpleParser : String → Except String ParsedMail)
    (mb : MailboxScript) (err : String) (h : mb.lockError = some err) :
    (downloadMailboxMessages simpleParser mb).1 = .error err := by
  simp [downloadMailboxMessages, h]

theorem downloadMailboxMessages_fetchError (simpleParser : String → Except String ParsedMail)
    (mb : MailboxScript) (err : String) (h1 : mb.lockError = none) (h2 : mb.exists_ ≠ 0)
    (h3 : mb.fetchError = some err) :
    (downloadMailboxMessages simpleParser mb).1 = .error err := by
  simp [downloadMailboxMessages, h1, h2, h3]

theorem downloadMailboxMessages_ok (simpleParser : String → Except String ParsedMail)
    (mb : MailboxScript) (h1 : mb.lockError = none)
    (h2 : mb.exists_ = 0 ∨ mb.fetchError = none) :
    (downloadMailboxMessages simpleParser mb).1
      = .ok { boxName := mb.path
              count := (downloaded simpleParser mb).length
              messages := downloaded simpleParser mb } := by
  by_cases h0 : mb.exists_ = 0
  · simp [downloadMailboxMessages, downloaded, h1, h0]
  · rcases h2 with h2 | h2
    · exact absurd h2 h0
    · simp [downloadMailboxMessages, downloaded, h1, h0, h2]

/-! ## Lemmas on the export trigger -/

theorem KV.has_set {α β : Type} [DecidableEq α] (m : List (α × β)) (k k2 : α) (v : β) :
    KV.has (KV.set m k v) k2 = (decide (k = k2) || KV.has m k2) := by
  by_cases h : k = k2
  · subst h; simp [KV.has, KV.get_set_same]
  · simp [KV.has, KV.get_set_other _ _ _ _ h, h]

theorem key_chars_inj (a : List Char) :
    ∀ (b x y : List Char), (∀ c ∈ a, c ≠ '>') → (∀ c ∈ b, c ≠ '>') →
      a ++ '-' :: '>' :: x = b ++ '-' :: '>' :: y → a = b ∧ x = y := by
  induction a with
  | nil =>
    intro b x y _ hb h
    cases b with
    | nil => simpa using h
    | cons d b' =>
      cases b' with
      | nil => simp at h
      | cons e b'' =>
        simp only [List.nil_append, List.cons_append, List.cons.injEq] at h
        exact absurd h.2.1.symm (hb e (by simp))
  | cons c a' ih =>
    intro b x y ha hb h
    cases b with
    | nil =>
      cases a' with
      | nil => simp at h
      | cons e a'' =>
        simp only [List.nil_append, List.cons_append, List.cons.injEq] at h
        exact absurd h.2.1 (ha e (by simp))
    | cons d b' =>
      simp only [List.cons_append, List.cons.injEq] at h
      obtain ⟨hcd, hrest⟩ := h
      have := ih b' x y (fun c hc => ha c (List.mem_cons_of_mem _ hc))
        (fun c hc => hb c (List.mem_cons_of_mem _ hc)) hrest
      exact ⟨by rw [hcd, this.1], this.2⟩

theorem isRegistryId_no_gt (id : String) (h : isRegistryId id) : ∀ c ∈ id.data, c ≠ '>' := by
  intro c hc hgt
  have := h c hc
  rw [hgt] at this
  exact absurd this (by decide)

/-- The export key determines the pair when the source ids are registry ids. -/
theorem exportKey_inj (s1 t1 s2 t2 : String) (h1 : isRegistryId s1) (h2 : isRegistryId s2)
    (h : exportKey s1 t1 = exportKey s2 t2) : s1 = s2 ∧ t1 = t2 := by
  have hd : (exportKey s1 t1).data = (exportKey s2 t2).data := by rw [h]
  have hk : ∀ a b : String, (exportKey a b).data = a.data ++ '-' :: '>' :: b.data := by
    intro a b
    simp [exportKey, String.data_append]
  rw [hk, hk] at hd
  have := key_chars_inj s1.data s2.data t1.data t2.data (isRegistryId_no_gt s1 h1)
    (isRegistryId_no_gt s2 h2) hd
  exact ⟨String.ext this.1, String.ext this.2⟩

theorem exportSettle_accounts (now : Nat) (w : World) (id : String)
    (outcome : Except String ExportResult) :
    (exportSettle now w id outcome).accounts = w.accounts := by
  cases outcome <;> rfl

theorem exportSettle_calls (now : Nat) (w : World) (id : String)
    (outcome : Except String ExportResult) :
    (exportSettle now w id outcome).exportCalls = w.exportCalls := by
  cases outcome <;> rfl

theorem exportSettle_has (now : Nat) (w : World) (id k : String)
    (outcome : Except String ExportResult) :
    KV.has (exportSettle now w id outcome).activeExports k
      = (decide (id = k) || KV.has w.activeExports k) := by
  cases outcome <;> simp [exportSettle, KV.has_set]

theorem truthy_some (s : String) : truthy (some s) = decide (s ≠ "") := rfl

theorem ExportPost.step_spec (now : Nat) (w : World) (accounts : List Account)
    (src tgt : String) (h : ExportPost) (hacc : w.accounts = accounts)
    (hs : h.serves accounts src tgt) :
    (h.step now w).1.accounts = accounts ∧
    (h.step now w).2.serves accounts src tgt ∧
    (((h.step now w).1 = w ∧ (h.step now w).2.accepted = h.accepted ∧
        ((h.step now w).2 = .done exportConflict →
          h = .done exportConflict ∨ KV.has w.activeExports (exportKey src tgt) = true)) ∨
     (h.accepted = false ∧ (h.step now w).2.accepted = true ∧
        KV.has w.activeExports (exportKey src tgt) = false ∧
        (∀ k, KV.has (h.step now w).1.activeExports k
          = (decide (exportKey src tgt = k) || KV.has w.activeExports k)) ∧
        (h.step now w).1.exportCalls.length = w.exportCalls.length + 1)) := by
  subst hacc
  cases h with
  | entry r =>
    obtain ⟨h1, h2⟩ := hs
    by_cases hv : src ≠ "" ∧ tgt ≠ ""
    · refine ⟨?_, ?_, Or.inl ⟨?_, ?_, ?_⟩⟩ <;>
        simp [ExportPost.step, h1, h2, truthy_some, hv.1, hv.2, ExportPost.serves,
          ExportPost.accepted]
    · have hv2 : src = "" ∨ tgt = "" := by
        by_cases hs0 : src = ""
        · exact Or.inl hs0
        · by_cases ht0 : tgt = ""
          · exact Or.inr ht0
          · exact absurd ⟨hs0, ht0⟩ hv
      have hstep : (ExportPost.entry r).step now w
          = (w, .done (.error 400 "Missing required fields: sourceAccountId, targetAccountId")) := by
        rcases hv2 with h0 | h0 <;> simp [ExportPost.step, h1, h2, truthy_some, h0]
      rw [hstep]
      refine ⟨rfl, ?_, Or.inl ⟨rfl, rfl, ?_⟩⟩
      · right
        refine ⟨by decide, ?_⟩
        intro hvp
        rcases hv2 with h0 | h0
        · exact hvp.1 h0
        · exact hvp.2.1 h0
      · intro hc
        simp [exportConflict] at hc
  | awaitSource r =>
    obtain ⟨h1, h2, h3, h4⟩ := hs
    refine ⟨rfl, ?_, Or.inl ⟨rfl, rfl, ?_⟩⟩
    · simp [ExportPost.step, ExportPost.serves, h1, h2, h3, h4]
    · intro hc
      simp [ExportPost.step] at hc
  | awaitTarget r sa =>
    obtain ⟨h1, h2, h3, h4, h5⟩ := hs
    cases sa with
    | none =>
      have hstep : (ExportPost.awaitTarget r none).step now w
          = (w, .done (.error 404 "Source or target account not found")) := by
        simp [ExportPost.step]
      rw [hstep]
      refine ⟨rfl, ?_, Or.inl ⟨rfl, rfl, ?_⟩⟩
      · right
        refine ⟨by decide, ?_⟩
        intro hvp
        have h6 := hvp.2.2.1
        rw [← h5] at h6
        simp at h6
      · intro hc
        simp [exportConflict] at hc
    | some source =>
      cases hta : getAccountById w.accounts (r.targetAccountId.getD "") with
      | none =>
        have hstep : (ExportPost.awaitTarget r (some source)).step now w
            = (w, .done (.error 404 "Source or target account not found")) := by
          simp [ExportPost.step, hta]
        rw [hstep]
        refine ⟨rfl, ?_, Or.inl ⟨rfl, rfl, ?_⟩⟩
        · right
          refine ⟨by decide, ?_⟩
          intro hvp
          have h6 := hvp.2.2.2
          rw [h2] at hta
          simp only [Option.getD_some] at hta
          rw [hta] at h6
          simp at h6
        · intro hc
          simp [exportConflict] at hc
      | some target =>
        have hvalid : validPair w.accounts src tgt := by
          have hta2 := hta
          rw [h2] at hta2
          simp only [Option.getD_some] at hta2
          refine ⟨h3, h4, ?_, ?_⟩
          · rw [← h5]; rfl
          · rw [hta2]; rfl
        have hkey : exportKey (r.sourceAccountId.getD "") (r.targetAccountId.getD "")
            = exportKey src tgt := by simp [h1, h2]
        by_cases hhas : KV.has w.activeExports (exportKey src tgt) = true
        · have hstep : (ExportPost.awaitTarget r (some source)).step now w
              = (w, .done exportConflict) := by
            simp [ExportPost.step, hta, hkey, hhas, exportConflict]
          rw [hstep]
          refine ⟨rfl, Or.inl rfl, Or.inl ⟨rfl, rfl, fun _ => Or.inr hhas⟩⟩
        · have hhas2 : KV.has w.activeExports (exportKey src tgt) = false := by
            simpa using hhas
          refine ⟨?_, ?_, Or.inr ⟨rfl, ?_, hhas2, ?_, ?_⟩⟩
          · simp [ExportPost.step, hta, hkey, hhas2]
          · simp [ExportPost.step, hta, hkey, hhas2, ExportPost.serves, hvalid]
          · simp [ExportPost.step, hta, hkey, hhas2, ExportPost.accepted,
              Response.accepted]
          · intro k
            simp [ExportPost.step, hta, hkey, hhas2, KV.has_set]
          · simp [ExportPost.step, hta, hkey, hhas2]
  | done res =>
    refine ⟨rfl, hs, Or.inl ⟨rfl, rfl, fun hc => Or.inl hc⟩⟩

theorem accepted_done_conflict : (ExportPost.done exportConflict).accepted = false := rfl

theorem exportPairInv_handler_first (now : Nat) (w0 : World) (s1 t1 s2 t2 : String)
    (w : World) (h1 h2 : ExportPost) (hinv : exportPairInv w0 s1 t1 s2 t2 (w, h1, h2)) :
    exportPairInv w0 s1 t1 s2 t2 ((h1.step now w).1, (h1.step now w).2, h2) := by
  obtain ⟨i1, i2, i3, i4, i5, i6, i7, i8, i9, i10⟩ := hinv
  simp only [] at i1 i2 i3 i4 i5 i6 i7 i8 i9 i10
  obtain ⟨j1, j2, j3⟩ := ExportPost.step_spec now w w0.accounts s1 t1 h1 i1 i2
  generalize (h1.step now w).1 = w' at *
  generalize (h1.step now w).2 = h1' at *
  rcases j3 with ⟨hw, hacc, hconf⟩ | ⟨hold, hnew, hhas, hset, hcalls⟩
  · subst hw
    refine ⟨i1, j2, i3, ?_, ?_, i6, ?_, ?_, ?_, ?_⟩
    · intro k hk; simp only [hacc]; exact i4 k hk
    · intro ha; rw [hacc] at ha; exact i5 ha
    · intro hc
      rcases hconf hc with hc1 | hc1
      · exact i7 hc1
      · rcases i4 _ hc1 with h | ⟨_, h⟩ | h
        · exact Or.inl h
        · have hc2 : h1' = ExportPost.done exportConflict := hc
          rw [← hacc, hc2, accepted_done_conflict] at h
          exact absurd h (by decide)
        · exact Or.inr ⟨h.1.symm ▸ rfl, h.2⟩
    · intro hc; simp only [hacc]; exact i8 hc
    · simp only [hacc]; exact i9
    · rintro hk ⟨ha, hb⟩
      simp only [] at ha hb
      rw [hacc] at ha
      exact i10 hk ⟨ha, hb⟩
  · refine ⟨j1, j2, i3, ?_, ?_, ?_, ?_, ?_, ?_, ?_⟩
    · intro k hk
      simp only []
      rw [hset k] at hk
      by_cases hkk : exportKey s1 t1 = k
      · exact Or.inr (Or.inl ⟨hkk.symm, hnew⟩)
      · simp only [hkk, decide_False, Bool.false_or] at hk
        rcases i4 k hk with h | ⟨_, h⟩ | h
        · exact Or.inl h
        · rw [hold] at h; exact absurd h (by decide)
        · exact Or.inr (Or.inr h)
    · intro _; simp only []; rw [hset]; simp
    · intro ha; simp only []; rw [hset, i6 ha]; simp
    · intro hc
      simp only [] at hc hnew
      rw [hc, accepted_done_conflict] at hnew
      exact absurd hnew (by decide)
    · intro hc
      simp only [] at hc ⊢
      rcases i8 hc with h | ⟨_, h⟩
      · exact Or.inl h
      · rw [hold] at h; exact absurd h (by decide)
    · simp only [] at hnew ⊢
      rw [hcalls, i9, hold, hnew]
      simp only [Bool.false_eq_true, if_false, if_true]
      omega
    · rintro hk ⟨_, hb⟩
      have h6 := i6 hb
      rw [← hk, hhas] at h6
      exact absurd h6 (by decide)

theorem exportPairInv_handler_second (now : Nat) (w0 : World) (s1 t1 s2 t2 : String)
    (w : World) (h1 h2 : ExportPost) (hinv : exportPairInv w0 s1 t1 s2 t2 (w, h1, h2)) :
    exportPairInv w0 s1 t1 s2 t2 ((h2.step now w).1, h1, (h2.step now w).2) := by
  obtain ⟨i1, i2, i3, i4, i5, i6, i7, i8, i9, i10⟩ := hinv
  simp only [] at i1 i2 i3 i4 i5 i6 i7 i8 i9 i10
  obtain ⟨j1, j2, j3⟩ := ExportPost.step_spec now w w0.accounts s2 t2 h2 i1 i3
  generalize (h2.step now w).1 = w' at *
  generalize (h2.step now w).2 = h2' at *
  rcases j3 with ⟨hw, hacc, hconf⟩ | ⟨hold, hnew, hhas, hset, hcalls⟩
  · subst hw
    refine ⟨i1, i2, j2, ?_, i5, ?_, ?_, ?_, ?_, ?_⟩
    · intro k hk; simp only [hacc]; exact i4 k hk
    · intro ha; rw [hacc] at ha; exact i6 ha
    · intro hc; simp only [hacc]; exact i7 hc
    · intro hc
      rcases hconf hc with hc1 | hc1
      · exact i8 hc1
      · rcases i4 _ hc1 with h | h | ⟨_, h⟩
        · exact Or.inl h
        · exact Or.inr ⟨h.1.symm ▸ rfl, h.2⟩
        · have hc2 : h2' = ExportPost.done exportConflict := hc
          rw [← hacc, hc2, accepted_done_conflict] at h
          exact absurd h (by decide)
    · simp only [hacc]; exact i9
    · rintro hk ⟨ha, hb⟩
      simp only [] at ha hb
      rw [hacc] at hb
      exact i10 hk ⟨ha, hb⟩
  · refine ⟨j1, i2, j2, ?_, ?_, ?_, ?_, ?_, ?_, ?_⟩
    · intro k hk
      simp only []
      rw [hset k] at hk
      by_cases hkk : exportKey s2 t2 = k
      · exact Or.inr (Or.inr ⟨hkk.symm, hnew⟩)
      · simp only [hkk, decide_False, Bool.false_or] at hk
        rcases i4 k hk with h | h | ⟨_, h⟩
        · exact Or.inl h
        · exact Or.inr (Or.inl h)
        · rw [hold] at h; exact absurd h (by decide)
    · intro ha; simp only []; rw [hset, i5 ha]; simp
    · intro _; simp only []; rw [hset]; simp
    · intro hc
      simp only [] at hc ⊢
      rcases i7 hc with h | ⟨_, h⟩
      · exact Or.inl h
      · rw [hold] at h; exact absurd h (by decide)
    · intro hc
      simp only [] at hc hnew
      rw [hc, accepted_done_conflict] at hnew
      exact absurd hnew (by decide)
    · simp only [] at hnew ⊢
      rw [hcalls, i9, hold, hnew]
      simp only [Bool.false_eq_true, if_false, if_true]
    · rintro hk ⟨ha, _⟩
      have h5 := i5 ha
      rw [hk, hhas] at h5
      exact absurd h5 (by decide)

theorem exportPairInv_settle (now : Nat) (w0 : World) (s1 t1 s2 t2 : String)
    (w : World) (h1 h2 : ExportPost) (id : String) (outcome : Except String ExportResult)
    (hinv : exportPairInv w0 s1 t1 s2 t2 (w, h1, h2))
    (hid : (id = exportKey s1 t1 ∧ h1.accepted = true) ∨
      (id = exportKey s2 t2 ∧ h2.accepted = true)) :
    exportPairInv w0 s1 t1 s2 t2 (exportSettle now w id outcome, h1, h2) := by
  obtain ⟨i1, i2, i3, i4, i5, i6, i7, i8, i9, i10⟩ := hinv
  simp only [] at i1 i2 i3 i4 i5 i6 i7 i8 i9 i10
  refine ⟨?_, i2, i3, ?_, ?_, ?_, i7, i8, ?_, i10⟩
  · simp only [exportSettle_accounts]; exact i1
  · intro k hk
    simp only [exportSettle_has] at hk
    by_cases hkk : id = k
    · subst hkk
      rcases hid with h | h
      · exact Or.inr (Or.inl h)
      · exact Or.inr (Or.inr h)
    · simp only [hkk, decide_False, Bool.false_or] at hk
      exact i4 k hk
  · intro ha
    simp only [exportSettle_has, i5 ha, Bool.or_true]
  · intro ha
    simp only [exportSettle_has, i6 ha, Bool.or_true]
  · simp only [exportSettle_calls]; exact i9

theorem exportPairInv_step (now : Nat) (w0 : World) (s1 t1 s2 t2 : String)
    (st : World × ExportPost × ExportPost) (a : ExportAction)
    (hinv : exportPairInv w0 s1 t1 s2 t2 st) :
    exportPairInv w0 s1 t1 s2 t2 (stepExportPair now st a) := by
  obtain ⟨w, h1, h2⟩ := st
  cases a with
  | handler second =>
    cases second with
    | false => exact exportPairInv_handler_first now w0 s1 t1 s2 t2 w h1 h2 hinv
    | true => exact exportPairInv_handler_second now w0 s1 t1 s2 t2 w h1 h2 hinv
  | settle second outcome =>
    cases second with
    | false =>
      cases h1 with
      | done res =>
        cases res with
        | exportStarted id a b =>
          exact exportPairInv_settle now w0 s1 t1 s2 t2 w _ h2 id outcome hinv
            (Or.inl ⟨hinv.2.1.1, rfl⟩)
        | error c m => exact hinv
        | syncStarted a b => exact hinv
      | entry r => exact hinv
      | awaitSource r => exact hinv
      | awaitTarget r sa => exact hinv
    | true =>
      cases h2 with
      | done res =>
        cases res with
        | exportStarted id a b =>
          exact exportPairInv_settle now w0 s1 t1 s2 t2 w h1 _ id outcome hinv
            (Or.inr ⟨hinv.2.2.1.1, rfl⟩)
        | error c m => exact hinv
        | syncStarted a b => exact hinv
      | entry r => exact hinv
      | awaitSource r => exact hinv
      | awaitTarget r sa => exact hinv

theorem exportPairInv_run (now : Nat) (w0 : World) (s1 t1 s2 t2 : String)
    (schedule : List ExportAction) (st : World × ExportPost × ExportPost)
    (hinv : exportPairInv w0 s1 t1 s2 t2 st) :
    exportPairInv w0 s1 t1 s2 t2 (runExportPair now st schedule) := by
  induction schedule generalizing st with
  | nil => exact hinv
  | cons a rest ih =>
    exact ih (stepExportPair now st a) (exportPairInv_step now w0 s1 t1 s2 t2 st a hinv)

theorem exportPairInv_init (w0 : World) (s1 t1 s2 t2 : String)
    (mb1 mb2 : Option (List String)) :
    exportPairInv w0 s1 t1 s2 t2
      (w0,
        .entry { sourceAccountId := some s1, targetAccountId := some t1, mailboxes := mb1 },
        .entry { sourceAccountId := some s2, targetAccountId := some t2, mailboxes := mb2 }) := by
  refine ⟨rfl, ⟨rfl, rfl⟩, ⟨rfl, rfl⟩, ?_, ?_, ?_, ?_, ?_, ?_, ?_⟩
  · intro k hk; exact Or.inl hk
  · intro h; simp [ExportPost.accepted] at h
  · intro h; simp [ExportPost.accepted] at h
  · intro h; simp at h
  · intro h; simp at h
  · simp [ExportPost.accepted]
  · rintro _ ⟨h, _⟩; simp [ExportPost.accepted] at h

/-! ## Lemmas on the export loops -/

theorem successes_zero (srv : ExportServer) (start : Nat) : successes srv start 0 = 0 := rfl

theorem successes_succ (srv : ExportServer) (start count : Nat) :
    successes srv start (count + 1)
      = (if (srv.appendError start).isNone then 1 else 0) + successes srv (start + 1) count := by
  unfold successes
  rw [List.range_succ_eq_map, List.filter_cons, List.filter_map]
  have hf : ((fun j => (srv.appendError (start + j)).isNone) ∘ Nat.succ)
      = fun j => (srv.appendError (start + 1 + j)).isNone := by
    funext j
    simp only [Function.comp, Nat.succ_eq_add_one]
    rw [Nat.add_assoc, Nat.add_comm 1 j]
  rw [hf]
  by_cases h : (srv.appendError start).isNone = true
  · simp only [Nat.add_zero, h, if_true, List.length_cons, List.length_map]; omega
  · simp only [Nat.add_zero, h, if_false, List.length_map, Bool.false_eq_true]; omega

theorem successes_le (srv : ExportServer) (start count : Nat) :
    successes srv start count ≤ count := by
  unfold successes
  exact (List.length_filter_le _ _).trans (by simp)

theorem successes_all (srv : ExportServer) (h : ∀ n, srv.appendError n = none)
    (start count : Nat) : successes srv start count = count := by
  unfold successes
  rw [List.filter_eq_self.mpr]
  · simp
  · intro j _
    simp [h]

theorem uploadMessages_spec (srv : ExportServer) (toUTCString : Nat → String)
    (mailboxName : String) (messages : List Message) (st : UploadState) :
    uploadMessages srv toUTCString mailboxName st messages
      = { uploaded := st.uploaded + successes srv st.appendCalls messages.length
          appendCalls := st.appendCalls + messages.length
          events := st.events ++ messages.map (appendEvent srv toUTCString mailboxName) } := by
  induction messages generalizing st with
  | nil => simp [uploadMessages, successes_zero]
  | cons m rest ih =>
    unfold uploadMessages
    simp only [List.length_cons, successes_succ, List.map_cons]
    cases h : srv.appendError st.appendCalls with
    | none =>
      simp only [ih, Option.isNone_none, if_true, UploadState.mk.injEq]
      refine ⟨by omega, by omega, ?_⟩
      simp [appendEvent]
    | some e =>
      simp only [ih, Option.isNone_some, UploadState.mk.injEq]
      refine ⟨by simp, by omega, ?_⟩
      simp [appendEvent]

theorem exportMailboxes_spec (srv : ExportServer) (toUTCString : Nat → String) (s : Store)
    (sourceEmail : String) (folders : List String) (st : ExportState) :
    exportMailboxes srv toUTCString s sourceEmail st folders
      = { results := st.results ++ folderEntries srv s sourceEmail st.appendCalls folders
          totalExported := st.totalExported +
            ((folderEntries srv s sourceEmail st.appendCalls folders).map
              fun e => e.exported.getD 0).sum
          folderIndex := st.folderIndex + folders.length
          appendCalls := st.appendCalls +
            (folders.map fun f => (readLocalMessages s sourceEmail f).length).sum
          events := st.events ++ folderEvents srv toUTCString s sourceEmail folders } := by
  induction folders generalizing st with
  | nil => simp [exportMailboxes, folderEntries, folderEvents]
  | cons f rest ih =>
    unfold exportMailboxes
    by_cases h0 : (readLocalMessages s sourceEmail f).length = 0
    · simp only [h0, if_true, ih, folderEntries, folderEvents, ExportState.mk.injEq]
      have hnil : readLocalMessages s sourceEmail f = [] := List.length_eq_zero.mp h0
      refine ⟨by simp [skippedEntry], by simp [skippedEntry], by simp; omega,
        by simp [hnil], by simp⟩
    · simp only [h0, if_false, ih, folderEntries, folderEvents, uploadMessages_spec,
        ExportState.mk.injEq]
      refine ⟨by simp [successEntry], by simp [successEntry]; omega, by simp; omega,
        by simp; omega, by simp⟩

theorem discoverLoop_events (probe : String → ProbeScript) (hosts : List String) :
    ∀ e ∈ (discoverLoop probe hosts).2, e.isAppend = false ∧ e.isCreate = false := by
  cases hosts with
  | nil => simp [discoverLoop]
  | cons host rest =>
    intro e he
    simp only [discoverLoop, probeCandidate, List.mem_cons, List.mem_singleton,
      List.not_mem_nil, or_false] at he
    rcases he with rfl | rfl <;> exact ⟨rfl, rfl⟩

theorem imapConfig_events (probe : String → ProbeScript) (account : Account) :
    ∀ e ∈ (imapConfig probe account).2, e.isAppend = false ∧ e.isCreate = false := by
  intro e he
  unfold imapConfig at he
  by_cases h : truthy account.host = true
  · simp [h] at he
  · simp only [h, if_false, Bool.false_eq_true] at he
    unfold discoverImapHost at he
    simp only [] at he
    split at he
    · rename_i host ev heq
      have := discoverLoop_events probe _ e (by rw [heq]; exact he)
      exact this
    · rename_i ev heq
      have := discoverLoop_events probe _ e (by rw [heq]; exact he)
      exact this

theorem filter_eq_nil_of_forall {α : Type} (p : α → Bool) (l : List α)
    (h : ∀ e ∈ l, p e = false) : l.filter p = [] := by
  rw [List.filter_eq_nil_iff]
  intro e he
  simp [h e he]

theorem folderEntries_mailbox (srv : ExportServer) (s : Store) (sourceEmail : String)
    (folders : List String) (start : Nat) :
    (folderEntries srv s sourceEmail start folders).map (·.mailbox) = folders := by
  induction folders generalizing start with
  | nil => rfl
  | cons f rest ih =>
    simp only [folderEntries, List.map_cons, ih, List.cons.injEq, and_true]
    split <;> rfl

theorem folderEntries_length (srv : ExportServer) (s : Store) (sourceEmail : String)
    (folders : List String) (start : Nat) :
    (folderEntries srv s sourceEmail start folders).length = folders.length := by
  have := congrArg List.length (folderEntries_mailbox srv s sourceEmail folders start)
  simpa using this

theorem folderEntries_append (srv : ExportServer) (s : Store) (sourceEmail : String)
    (pre post : List String) (start : Nat) :
    folderEntries srv s sourceEmail start (pre ++ post)
      = folderEntries srv s sourceEmail start pre ++
        folderEntries srv s sourceEmail
          (start + (pre.map fun g => (readLocalMessages s sourceEmail g).length).sum) post := by
  induction pre generalizing start with
  | nil => simp [folderEntries]
  | cons f rest ih =>
    rw [List.cons_append]
    simp only [folderEntries, List.map_cons, List.sum_cons, List.cons_append]
    rw [ih, Nat.add_assoc]

theorem folderEvents_appends (srv : ExportServer) (toUTCString : Nat → String) (s : Store)
    (sourceEmail : String) (folders : List String) :
    (folderEvents srv toUTCString s sourceEmail folders).filter Event.isAppend
      = folders.flatMap fun f =>
          (readLocalMessages s sourceEmail f).map (appendEvent srv toUTCString f) := by
  induction folders with
  | nil => rfl
  | cons f rest ih =>
    simp only [folderEvents, List.filter_append, ih, List.flatMap_cons]
    congr 1
    by_cases h0 : (readLocalMessages s sourceEmail f).length = 0
    · have hnil : readLocalMessages s sourceEmail f = [] := List.length_eq_zero.mp h0
      simp [hnil]
    · simp only [h0, if_false]
      rw [List.filter_cons]
      simp only [Event.isAppend, Bool.false_eq_true, if_false]
      rw [List.filter_eq_self]
      intro e he
      simp only [List.mem_map] at he
      obtain ⟨m, _, rfl⟩ := he
      rfl

/-- The result of an export whose session is established and closed and whose
folder set is not empty. -/
theorem exportToAccount_ok (srv : ExportServer) (toUTCString : Nat → String) (s : Store)
    (sourceEmail : String) (targetAccount : Account) (mailboxes : Option (List String))
    (hconnect : srv.connectError = none) (hlogout : srv.logoutError = none)
    (hne : mailboxesToExport s sourceEmail mailboxes ≠ []) :
    exportToAccount srv toUTCString s sourceEmail targetAccount mailboxes
      = (.ok { success := true, message := none
               sourceEmail := some sourceEmail, targetEmail := some targetAccount.email
               mailboxCount := some (mailboxesToExport s sourceEmail mailboxes).length
               totalExported := some
                 ((folderEntries srv s sourceEmail 0
                    (mailboxesToExport s sourceEmail mailboxes)).map
                      fun e => e.exported.getD 0).sum
               results := some (folderEntries srv s sourceEmail 0
                 (mailboxesToExport s sourceEmail mailboxes)) },
          (imapConfig srv.probe targetAccount).2 ++
            [Event.connect (imapConfig srv.probe targetAccount).1.1
              (imapConfig srv.probe targetAccount).1.2.1
              (imapConfig srv.probe targetAccount).1.2.2] ++
            folderEvents srv toUTCString s sourceEmail
              (mailboxesToExport s sourceEmail mailboxes) ++ [Event.logout]) := by
  have hlen : ¬ (mailboxesToExport s sourceEmail mailboxes).length = 0 := by
    intro h; exact hne (List.length_eq_zero.mp h)
  unfold exportToAccount
  simp only [hconnect, hlogout, hlen, if_false, exportMailboxes_spec, List.nil_append,
    Nat.zero_add]

/-- The result of an export whose session is established and whose folder set
is empty (lines 318-324). -/
theorem exportToAccount_empty (srv : ExportServer) (toUTCString : Nat → String) (s : Store)
    (sourceEmail : String) (targetAccount : Account) (mailboxes : Option (List String))
    (hconnect : srv.connectError = none)
    (hempty : mailboxesToExport s sourceEmail mailboxes = []) :
    exportToAccount srv toUTCString s sourceEmail targetAccount mailboxes
      = (.ok noMailboxesResult,
          (imapConfig srv.probe targetAccount).2 ++
            [Event.connect (imapConfig srv.probe targetAccount).1.1
              (imapConfig srv.probe targetAccount).1.2.1
              (imapConfig srv.probe targetAccount).1.2.2]) := by
  unfold exportToAccount
  simp only [hconnect, hempty, List.length_nil, if_true]

theorem folderEntries_all_ok (srv : ExportServer) (s : Store) (sourceEmail : String)
    (h : ∀ n, srv.appendError n = none) (folders : List String) (start : Nat) :
    folderEntries srv s sourceEmail start folders
      = folders.map fun f =>
          if (readLocalMessages s sourceEmail f).length = 0 then
            { mailbox := f, total := none, exported := some 0, status := .skipped,
              error := none }
          else
            { mailbox := f, total := some (readLocalMessages s sourceEmail f).length,
              exported := some (readLocalMessages s sourceEmail f).length,
              status := .success, error := none } := by
  induction folders generalizing start with
  | nil => rfl
  | cons f rest ih =>
    simp only [folderEntries, List.map_cons, ih, successes_all srv h, skippedEntry,
      successEntry]

theorem folderEntries_all_ok_sum (srv : ExportServer) (s : Store) (sourceEmail : String)
    (h : ∀ n, srv.appendError n = none) (folders : List String) (start : Nat) :
    ((folderEntries srv s sourceEmail start folders).map fun e => e.exported.getD 0).sum
      = (folders.map fun f => (readLocalMessages s sourceEmail f).length).sum := by
  induction folders generalizing start with
  | nil => rfl
  | cons f rest ih =>
    simp only [folderEntries, List.map_cons, List.sum_cons, ih]
    congr 1
    by_cases h0 : (readLocalMessages s sourceEmail f).length = 0
    · simp [h0, skippedEntry]
    · simp [h0, successEntry, successes_all srv h]

/-! ## Lemmas on the codec -/

theorem messageToRFC822Lines_eq (toUTCString : Nat → String) (message : Message) :
    messageToRFC822Lines toUTCString message
      = headerLines toUTCString message ++ ["", bodyOf message] := by
  unfold messageToRFC822Lines headerLines optLine contentTypeLine bodyOf dateLines
  cases message.date <;>
    by_cases h1 : truthy message.from_ = true <;>
    by_cases h2 : truthy message.to_ = true <;>
    by_cases h3 : truthy message.subject = true <;>
    by_cases h4 : truthy message.html = true <;>
    by_cases h5 : truthy message.text = true <;>
    simp [h1, h2, h3, h4, h5]

theorem splitCRLF_ne_nil (s : List Char) : splitCRLF s ≠ [] := by
  match s with
  | [] => simp [splitCRLF]
  | [c] => simp [splitCRLF]
  | c :: d :: rest =>
    unfold splitCRLF
    split
    · simp
    · split <;> simp

theorem joinCRLF_cons_of_ne_nil (l : List Char) (rest : List (List Char)) (h : rest ≠ []) :
    joinCRLF (l :: rest) = l ++ '\r' :: '\n' :: joinCRLF rest := by
  cases rest with
  | nil => exact absurd rfl h
  | cons m rest => rfl

theorem joinCRLF_push (c : Char) (l : List Char) (ls : List (List Char)) :
    joinCRLF ((c :: l) :: ls) = c :: joinCRLF (l :: ls) := by
  cases ls with
  | nil => rfl
  | cons m rest => rfl

theorem splitCRLF_cons_cons (c d : Char) (rest : List Char) :
    splitCRLF (c :: d :: rest)
      = if c = '\r' ∧ d = '\n' then [] :: splitCRLF rest
        else
          match splitCRLF (d :: rest) with
          | [] => [[c]]
          | l :: ls => (c :: l) :: ls := by
  rw [splitCRLF]

theorem joinCRLF_splitCRLF : ∀ s : List Char, joinCRLF (splitCRLF s) = s
  | [] => rfl
  | [c] => rfl
  | c :: d :: rest => by
    have ih1 := joinCRLF_splitCRLF rest
    have ih2 := joinCRLF_splitCRLF (d :: rest)
    rw [splitCRLF_cons_cons]
    by_cases h : c = '\r' ∧ d = '\n'
    · obtain ⟨rfl, rfl⟩ := h
      simp only [and_self, if_true]
      rw [joinCRLF_cons_of_ne_nil _ _ (splitCRLF_ne_nil rest), ih1]
      rfl
    · simp only [h, if_false]
      cases hs : splitCRLF (d :: rest) with
      | nil => exact absurd hs (splitCRLF_ne_nil _)
      | cons l ls =>
        simp only []
        rw [joinCRLF_push, ← hs, ih2]

theorem splitCRLF_line (line rest : List Char) (h : '\r' ∉ line) :
    splitCRLF (line ++ '\r' :: '\n' :: rest) = line :: splitCRLF rest := by
  induction line with
  | nil =>
    rw [List.nil_append, splitCRLF_cons_cons]
    simp
  | cons c l ih =>
    have hc : c ≠ '\r' := fun hc => h (by simp [hc])
    have hl : '\r' ∉ l := fun hl => h (List.mem_cons_of_mem _ hl)
    have ih2 := ih hl
    cases l with
    | nil =>
      simp only [List.nil_append] at ih2
      simp only [List.cons_append, List.nil_append]
      rw [splitCRLF_cons_cons]
      simp only [hc, false_and, if_false, ih2]
    | cons d l2 =>
      simp only [List.cons_append] at ih2 ⊢
      rw [splitCRLF_cons_cons]
      simp only [hc, false_and, if_false, ih2]

theorem splitCRLF_joinCRLF (hs : List (List Char)) (b : List Char)
    (h : ∀ l ∈ hs, '\r' ∉ l) :
    splitCRLF (joinCRLF (hs ++ [b])) = hs ++ splitCRLF b := by
  induction hs with
  | nil => rfl
  | cons l rest ih =>
    rw [List.cons_append, joinCRLF_cons_of_ne_nil _ _ (by simp),
      splitCRLF_line _ _ (h l (List.mem_cons_self _ _)),
      ih fun l2 hl2 => h l2 (List.mem_cons_of_mem _ hl2)]
    rfl

theorem intercalate_go_data (acc : String) (rest : List String) :
    (String.intercalate.go acc "\r\n" rest).data
      = acc.data ++ rest.flatMap fun a => '\r' :: '\n' :: a.data := by
  induction rest generalizing acc with
  | nil => simp [String.intercalate.go]
  | cons a rest ih =>
    rw [String.intercalate.go, ih]
    simp only [String.data_append, List.flatMap_cons, List.append_assoc]
    rfl

theorem joinCRLF_flatMap (l : List Char) (rest : List (List Char)) :
    joinCRLF (l :: rest) = l ++ rest.flatMap fun a => '\r' :: '\n' :: a := by
  induction rest generalizing l with
  | nil => simp [joinCRLF]
  | cons m rest ih =>
    rw [joinCRLF_cons_of_ne_nil _ _ (by simp), ih]
    simp [List.flatMap_cons]

theorem intercalate_data (lines : List String) :
    ("\r\n".intercalate lines).data = joinCRLF (lines.map String.data) := by
  cases lines with
  | nil => rfl
  | cons a rest =>
    rw [String.intercalate, intercalate_go_data, List.map_cons, joinCRLF_flatMap]
    simp [List.flatMap_map]

theorem takeWhile_append_stop {α : Type} (p : α → Bool) (hs : List α) (x : α) (xs : List α)
    (h : ∀ l ∈ hs, p l = true) (hx : p x = false) :
    (hs ++ x :: xs).takeWhile p = hs := by
  induction hs with
  | nil => simp [List.takeWhile, hx]
  | cons l rest ih =>
    simp only [List.cons_append, List.takeWhile_cons, h l (List.mem_cons_self _ _), if_true]
    rw [ih fun l2 hl2 => h l2 (List.mem_cons_of_mem _ hl2)]

theorem dropWhile_append_stop {α : Type} (p : α → Bool) (hs : List α) (x : α) (xs : List α)
    (h : ∀ l ∈ hs, p l = true) (hx : p x = false) :
    (hs ++ x :: xs).dropWhile p = x :: xs := by
  induction hs with
  | nil => simp [List.dropWhile, hx]
  | cons l rest ih =>
    simp only [List.cons_append, List.dropWhile_cons, h l (List.mem_cons_self _ _), if_true]
    rw [ih fun l2 hl2 => h l2 (List.mem_cons_of_mem _ hl2)]

/-- The reference parser on a source made of header lines, an empty line and a
body. -/
theorem referenceParser_core (parseDate : String → Option Nat) (H : List (List Char))
    (b src : String) (hsrc : src.data = joinCRLF (H ++ [[], b.data]))
    (hcr : ∀ l ∈ H, '\r' ∉ l) (hne : ∀ l ∈ H, l ≠ []) :
    referenceParser parseDate src
      = .ok { subject := headerValue "Subject: ".data H
              from_ := headerValue "From: ".data H
              to_ := headerValue "To: ".data H
              date := (headerValue "Date: ".data H).bind parseDate
              text :=
                if ((headerValue "Content-Type: ".data H).map fun v =>
                  "text/html".data.isPrefixOf v.data).getD false then none else some b
              html :=
                if ((headerValue "Content-Type: ".data H).map fun v =>
                  "text/html".data.isPrefixOf v.data).getD false then some b else none
              attachments := some [] } := by
  have hsplit : splitCRLF src.data = H ++ [] :: splitCRLF b.data := by
    rw [hsrc]
    have : H ++ [[], b.data] = (H ++ [[]]) ++ [b.data] := by simp
    rw [this, splitCRLF_joinCRLF]
    · simp
    · intro l hl
      rcases List.mem_append.mp hl with h | h
      · exact hcr l h
      · simp at h; subst h; simp
  have hp : ∀ l ∈ H, (fun l : List Char => !l.isEmpty) l = true := by
    intro l hl
    have := hne l hl
    cases l with
    | nil => exact absurd rfl this
    | cons c l => rfl
  unfold referenceParser
  simp only [hsplit]
  rw [takeWhile_append_stop _ H [] _ hp rfl, dropWhile_append_stop _ H [] _ hp rfl]
  simp only [joinCRLF_splitCRLF]

theorem headerValue_append (n : List Char) (A B : List (List Char)) :
    headerValue n (A ++ B) = (headerValue n A).or (headerValue n B) := by
  unfold headerValue
  rw [List.find?_append]
  cases List.find? (fun l => n.isPrefixOf l) A <;> rfl

theorem optLine_some (name s : String) (h : s ≠ "") : optLine name (some s) = [name ++ s] := by
  simp [optLine, truthy, h]

theorem headerValue_hit (name : String) (s : String) :
    headerValue name.data [(name ++ s).data] = some s := by
  have hp : name.data.isPrefixOf (name.data ++ s.data) = true := by
    rw [List.isPrefixOf_iff_prefix]
    exact List.prefix_append _ _
  simp only [headerValue, List.find?_cons, String.data_append, hp, Option.map_some',
    List.drop_left]

theorem headerValue_optLine_hit (name : String) (v : Option String) (h : singleLine v) :
    headerValue name.data ((optLine name v).map String.data) = v := by
  cases v with
  | none => rfl
  | some s =>
    rw [optLine_some name s (h s rfl).1]
    exact headerValue_hit name s

theorem headerValue_miss (n : List Char) (name s : String)
    (hmiss : ∀ t : List Char, n.isPrefixOf (name.data ++ t) = false) :
    headerValue n [(name ++ s).data] = none := by
  simp only [headerValue, List.find?_cons, String.data_append, hmiss, List.find?_nil,
    Option.map_none']

theorem headerValue_optLine_miss (n : List Char) (name : String) (v : Option String)
    (hmiss : ∀ t : List Char, n.isPrefixOf (name.data ++ t) = false) :
    headerValue n ((optLine name v).map String.data) = none := by
  unfold optLine
  split
  · exact headerValue_miss n name _ hmiss
  · rfl

theorem headerValue_dateLines_miss (n : List Char) (toUTCString : Nat → String)
    (date : Option Nat) (hmiss : ∀ t : List Char, n.isPrefixOf ("Date: ".data ++ t) = false) :
    headerValue n ((dateLines toUTCString date).map String.data) = none := by
  cases date with
  | none => rfl
  | some d => exact headerValue_miss n "Date: " _ hmiss

theorem headerValue_tail_miss (n : List Char) (message : Message)
    (h1 : n.isPrefixOf "MIME-Version: 1.0".data = false)
    (h2 : ∀ t : List Char, n.isPrefixOf ("Content-Type: ".data ++ t) = false) :
    headerValue n (["MIME-Version: 1.0", contentTypeLine message].map String.data) = none := by
  have h3 : n.isPrefixOf (contentTypeLine message).data = false := by
    unfold contentTypeLine
    split
    · exact h2 "text/html; charset=utf-8".data
    · exact h2 "text/plain; charset=utf-8".data
  simp only [headerValue, List.map_cons, List.map_nil, List.find?_cons, h1, h3,
    List.find?_nil, Option.map_none']

theorem headerValue_from (toUTCString : Nat → String) (m : Message) (h : singleLine m.from_) :
    headerValue "From: ".data ((headerLines toUTCString m).map String.data) = m.from_ := by
  simp only [headerLines, List.map_append, headerValue_append]
  rw [headerValue_optLine_hit _ _ h,
    headerValue_optLine_miss "From: ".data "To: " _ (fun _ => rfl),
    headerValue_optLine_miss "From: ".data "Subject: " _ (fun _ => rfl),
    headerValue_dateLines_miss "From: ".data _ _ (fun _ => rfl),
    headerValue_tail_miss "From: ".data _ rfl (fun _ => rfl)]
  cases m.from_ <;> rfl

theorem headerValue_to (toUTCString : Nat → String) (m : Message) (h : singleLine m.to_) :
    headerValue "To: ".data ((headerLines toUTCString m).map String.data) = m.to_ := by
  simp only [headerLines, List.map_append, headerValue_append]
  rw [headerValue_optLine_hit _ _ h,
    headerValue_optLine_miss "To: ".data "From: " _ (fun _ => rfl),
    headerValue_optLine_miss "To: ".data "Subject: " _ (fun _ => rfl),
    headerValue_dateLines_miss "To: ".data _ _ (fun _ => rfl),
    headerValue_tail_miss "To: ".data _ rfl (fun _ => rfl)]
  cases m.to_ <;> rfl

theorem headerValue_subject (toUTCString : Nat → String) (m : Message)
    (h : singleLine m.subject) :
    headerValue "Subject: ".data ((headerLines toUTCString m).map String.data)
      = m.subject := by
  simp only [headerLines, List.map_append, headerValue_append]
  rw [headerValue_optLine_hit _ _ h,
    headerValue_optLine_miss "Subject: ".data "From: " _ (fun _ => rfl),
    headerValue_optLine_miss "Subject: ".data "To: " _ (fun _ => rfl),
    headerValue_dateLines_miss "Subject: ".data _ _ (fun _ => rfl),
    headerValue_tail_miss "Subject: ".data _ rfl (fun _ => rfl)]
  cases m.subject <;> rfl

theorem headerValue_contentType (toUTCString : Nat → String) (m : Message) :
    ((headerValue "Content-Type: ".data ((headerLines toUTCString m).map String.data)).map
      fun v => "text/html".data.isPrefixOf v.data).getD false = truthy m.html := by
  simp only [headerLines, List.map_append, headerValue_append]
  rw [headerValue_optLine_miss "Content-Type: ".data "From: " _ (fun _ => rfl),
    headerValue_optLine_miss "Content-Type: ".data "To: " _ (fun _ => rfl),
    headerValue_optLine_miss "Content-Type: ".data "Subject: " _ (fun _ => rfl),
    headerValue_dateLines_miss "Content-Type: ".data _ _ (fun _ => rfl)]
  unfold contentTypeLine
  cases truthy m.html <;> rfl

theorem optLine_mem (name : String) (v : Option String) (l : List Char)
    (h : l ∈ (optLine name v).map String.data) :
    ∃ s, v = some s ∧ l = name.data ++ s.data := by
  unfold optLine at h
  split at h
  · cases v with
    | none => simp [truthy] at *
    | some s =>
      simp only [List.map_cons, List.map_nil, List.mem_singleton, Option.getD_some,
        String.data_append] at h
      exact ⟨s, rfl, h⟩
  · simp at h

/-- Every header line of an encoding is non-empty and, for single-line fields,
free of carriage returns. -/
theorem headerLines_wf (toUTCString : Nat → String) (m : Message)
    (hutc : ∀ d, '\r' ∉ (toUTCString d).data)
    (hs : singleLine m.subject) (hf : singleLine m.from_) (ht : singleLine m.to_) :
    ∀ l ∈ (headerLines toUTCString m).map String.data, '\r' ∉ l ∧ l ≠ [] := by
  have hopt : ∀ (name : String) (v : Option String), singleLine v → '\r' ∉ name.data →
      name.data ≠ [] → ∀ l ∈ (optLine name v).map String.data, '\r' ∉ l ∧ l ≠ [] := by
    intro name v hv hn hne l hl
    obtain ⟨s, hvs, rfl⟩ := optLine_mem name v l hl
    refine ⟨?_, ?_⟩
    · intro hmem
      rcases List.mem_append.mp hmem with h | h
      · exact hn h
      · exact (hv s hvs).2 h
    · intro hnil
      exact hne (List.append_eq_nil.mp hnil).1
  intro l hl
  simp only [headerLines, List.map_append, List.mem_append] at hl
  rcases hl with (((hl | hl) | hl) | hl) | hl
  · exact hopt "From: " _ hf (by decide) (by decide) l hl
  · exact hopt "To: " _ ht (by decide) (by decide) l hl
  · exact hopt "Subject: " _ hs (by decide) (by decide) l hl
  · cases hd : m.date with
    | none => rw [hd] at hl; simp [dateLines] at hl
    | some d =>
      rw [hd] at hl
      simp only [dateLines, List.map_cons, List.map_nil, List.mem_singleton,
        String.data_append] at hl
      subst hl
      refine ⟨?_, ?_⟩
      · intro hmem
        rcases List.mem_append.mp hmem with h | h
        · exact absurd h (by decide)
        · exact hutc d h
      · intro hnil
        exact absurd (List.append_eq_nil.mp hnil).1 (by decide)
  · simp only [List.map_cons, List.map_nil, List.mem_cons, List.mem_singleton,
      List.not_mem_nil, or_false] at hl
    rcases hl with rfl | rfl
    · exact ⟨by decide, by decide⟩
    · unfold contentTypeLine
      split <;> exact ⟨by decide, by decide⟩

/-! ## Lemmas on disconnecting and locking -/

theorem getLast?_append_singleton {α : Type} (l : List α) (a : α) :
    (l ++ [a]).getLast? = some a := by
  simp

theorem getLast?_append_pair {α : Type} (l : List α) (a b : α) :
    (l ++ [a, b]).getLast? = some b := by
  have : l ++ [a, b] = (l ++ [a]) ++ [b] := by simp
  rw [this]
  simp

/-- The last client call of `syncAccount` is a `logout`, on every path. -/
theorem syncAccount_last_logout (srv : SyncServer)
    (simpleParser : String → Except String ParsedMail) (s : Store) (account : Account) :
    (syncAccount srv simpleParser s account).2.2.getLast? = some Event.logout := by
  unfold syncAccount
  cases srv.connectError with
  | some err => exact getLast?_append_singleton _ _
  | none =>
    cases srv.listResult with
    | error err => exact getLast?_append_pair _ _ _
    | ok tree =>
      cases srv.logoutError with
      | some err => exact getLast?_append_pair _ _ _
      | none => exact getLast?_append_singleton _ _

/-- The last client call of `exportToAccount` is a `logout` on every path
except the early return for an empty folder set. -/
theorem exportToAccount_last_logout (srv : ExportServer) (toUTCString : Nat → String)
    (s : Store) (sourceEmail : String) (targetAccount : Account)
    (mailboxes : Option (List String)) :
    (exportToAccount srv toUTCString s sourceEmail targetAccount mailboxes).2.getLast?
        = some Event.logout ∨
      (srv.connectError = none ∧ mailboxesToExport s sourceEmail mailboxes = []) := by
  unfold exportToAccount
  cases hc : srv.connectError with
  | some err => exact Or.inl (getLast?_append_singleton _ _)
  | none =>
    by_cases hlen : (mailboxesToExport s sourceEmail mailboxes).length = 0
    · exact Or.inr ⟨rfl, List.length_eq_zero.mp hlen⟩
    · left
      simp only [hlen, if_false]
      cases srv.logoutError with
      | some err => exact getLast?_append_pair _ _ _
      | none => exact getLast?_append_singleton _ _

theorem parseFetched_eq_filterMap (simpleParser : String → Except String ParsedMail)
    (fetched : List RawMessage) :
    parseFetched simpleParser fetched
      = fetched.filterMap fun raw =>
          match simpleParser raw.source with
          | .ok parsed => some (toMessage raw parsed)
          | .error _ => none := by
  induction fetched with
  | nil => rfl
  | cons raw rest ih =>
    unfold parseFetched
    cases h : simpleParser raw.source with
    | ok parsed => simp [List.filterMap_cons, h, ih]
    | error e => simp [List.filterMap_cons, h, ih]

/-- The lock and release calls of one download. -/
theorem downloadMailboxMessages_locks (simpleParser : String → Except String ParsedMail)
    (mb : MailboxScript) :
    (downloadMailboxMessages simpleParser mb).2.filter (fun e => e.isLock || e.isRelease)
      = if mb.lockError.isSome then [Event.getMailboxLock mb.path]
        else [Event.getMailboxLock mb.path, Event.lockRelease mb.path] := by
  unfold downloadMailboxMessages
  cases mb.lockError with
  | some err => rfl
  | none =>
    by_cases h0 : mb.exists_ = 0
    · simp [h0, Event.isLock, Event.isRelease]
    · cases mb.fetchError with
      | some err => simp [h0, Event.isLock, Event.isRelease]
      | none => simp [h0, Event.isLock, Event.isRelease]

theorem syncMailboxes_events (simpleParser : String → Except String ParsedMail)
    (email : String) (folders : List MailboxScript) (s : Store) :
    (syncMailboxes simpleParser email s folders).2.2
      = folders.flatMap fun mb => (downloadMailboxMessages simpleParser mb).2 := by
  induction folders generalizing s with
  | nil => rfl
  | cons mb rest ih => rw [syncMailboxes_cons, List.flatMap_cons, ← ih]

theorem parseFetched_filter (simpleParser : String → Except String ParsedMail)
    (fetched : List RawMessage) :
    parseFetched simpleParser (fetched.filter fun raw =>
        match simpleParser raw.source with
        | .ok _ => true
        | .error _ => false)
      = parseFetched simpleParser fetched := by
  induction fetched with
  | nil => rfl
  | cons raw rest ih =>
    cases h : simpleParser raw.source with
    | ok parsed => simp [List.filter_cons, h, parseFetched, ih]
    | error e => simp [List.filter_cons, h, parseFetched, ih]

theorem downloadMailboxMessages_parsable (simpleParser : String → Except String ParsedMail)
    (mb : MailboxScript) :
    downloadMailboxMessages simpleParser (mb.parsable simpleParser)
      = downloadMailboxMessages simpleParser mb := by
  simp only [downloadMailboxMessages, MailboxScript.parsable, parseFetched_filter]

theorem syncMailboxes_parsable (simpleParser : String → Except String ParsedMail)
    (email : String) (folders : List MailboxScript) (s : Store) :
    syncMailboxes simpleParser email s (folders.map fun mb => mb.parsable simpleParser)
      = syncMailboxes simpleParser email s folders := by
  induction folders generalizing s with
  | nil => rfl
  | cons mb rest ih =>
    simp only [List.map_cons, syncMailboxes, downloadMailboxMessages_parsable, ih]
    rfl

theorem downloadMailboxMessages_count (simpleParser : String → Except String ParsedMail)
    (mb : MailboxScript) (d : Download)
    (h : (downloadMailboxMessages simpleParser mb).1 = .ok d) :
    d.count = d.messages.length := by
  unfold downloadMailboxMessages at h
  cases hl : mb.lockError with
  | some e => simp [hl] at h
  | none =>
    by_cases h0 : mb.exists_ = 0
    · simp [hl, h0] at h; rw [← h]; rfl
    · cases hf : mb.fetchError with
      | some e => simp [hl, h0, hf] at h
      | none => simp [hl, h0, hf] at h; rw [← h]

/-! ## Lemmas on host discovery -/

/-- Whatever the probes answer, the loop returns at its first candidate. -/
theorem discoverImapHost_eq (probe : String → ProbeScript) (email : String) :
    discoverImapHost probe email
      = ("imap." ++ emailDomain email,
          [Event.probeConnect ("imap." ++ emailDomain email),
           Event.probeLogout ("imap." ++ emailDomain email)]) := by
  simp [discoverImapHost, discoverLoop, probeCandidate]

/-! ## Lemmas on folder creation and on the sync aggregate -/

/-- The upload loop does not read the outcome of `mailboxCreate`. -/
theorem uploadMessages_createError (srv : ExportServer) (create : Nat → Option JsError)
    (toUTCString : Nat → String) (mailboxName : String) (messages : List Message)
    (st : UploadState) :
    uploadMessages { srv with createError := create } toUTCString mailboxName st messages
      = uploadMessages srv toUTCString mailboxName st messages := by
  induction messages generalizing st with
  | nil => rfl
  | cons m rest ih =>
    simp only [uploadMessages]
    cases srv.appendError st.appendCalls with
    | none => exact ih _
    | some e => exact ih _

/-- The folder loop does not depend on the outcome of `mailboxCreate`. -/
theorem exportMailboxes_createError (srv : ExportServer) (create : Nat → Option JsError)
    (toUTCString : Nat → String) (s : Store) (sourceEmail : String) (folders : List String)
    (st : ExportState) :
    exportMailboxes { srv with createError := create } toUTCString s sourceEmail st folders
      = exportMailboxes srv toUTCString s sourceEmail st folders := by
  induction folders generalizing st with
  | nil => rfl
  | cons f rest ih =>
    simp only [exportMailboxes, uploadMessages_createError]
    split
    · exact ih _
    · exact ih _

/-- A left fold that adds a number per element is the sum of the numbers. -/
theorem foldl_add_eq_sum {α : Type} (f : α → Nat) (l : List α) (a : Nat) :
    l.foldl (fun sum r => sum + f r) a = a + (l.map f).sum := by
  induction l generalizing a with
  | nil => simp
  | cons x rest ih => simp only [List.foldl_cons, ih, List.map_cons, List.sum_cons]; omega

/-- The aggregate of `syncAccount` is the sum of the counts of the entries. -/
theorem totalMessages_eq_sum (results : List SyncEntry) :
    totalMessages results = (results.map fun r => r.count.getD 0).sum := by
  unfold totalMessages
  rw [foldl_add_eq_sum]
  simp

/-- A download that returned carries the path of its folder. -/
theorem downloadMailboxMessages_boxName (simpleParser : String → Except String ParsedMail)
    (mb : MailboxScript) (d : Download)
    (h : (downloadMailboxMessages simpleParser mb).1 = .ok d) : d.boxName = mb.path := by
  unfold downloadMailboxMessages at h
  cases hl : mb.lockError with
  | some e => simp [hl] at h
  | none =>
    by_cases h0 : mb.exists_ = 0
    · simp [hl, h0] at h; rw [← h]
    · cases hf : mb.fetchError with
      | some e => simp [hl, h0, hf] at h
      | none => simp [hl, h0, hf] at h; rw [← h]

/-- The entry of a folder whose download raised. -/
theorem folderEntry_download_error (simpleParser : String → Except String ParsedMail)
    (mb : MailboxScript) (err : String)
    (h : (downloadMailboxMessages simpleParser mb).1 = .error err) :
    folderEntry simpleParser mb = errorEntry mb.path err := by
  simp only [folderEntry, h]

/-- The entry of a folder whose download returned and whose save raised. -/
theorem folderEntry_save_error (simpleParser : String → Except String ParsedMail)
    (mb : MailboxScript) (d : Download) (e : SaveError)
    (h : (downloadMailboxMessages simpleParser mb).1 = .ok d) (hs : mb.saveError = some e) :
    folderEntry simpleParser mb = errorEntry mb.path e.message := by
  simp only [folderEntry, h, hs, saveMessagesOutcome_some]

/-- The entry of a folder whose download and save returned. -/
theorem folderEntry_saved (simpleParser : String → Except String ParsedMail)
    (mb : MailboxScript) (d : Download)
    (h : (downloadMailboxMessages simpleParser mb).1 = .ok d) (hs : mb.saveError = none) :
    folderEntry simpleParser mb = d.toEntry := by
  simp only [folderEntry, h, hs, saveMessagesOutcome_none]

/-- Every entry carries the path of its folder. -/
theorem folderEntry_boxName (simpleParser : String → Except String ParsedMail)
    (mb : MailboxScript) : (folderEntry simpleParser mb).boxName = mb.path := by
  cases hd : (downloadMailboxMessages simpleParser mb).1 with
  | error e => rw [folderEntry_download_error simpleParser mb e hd]; rfl
  | ok d =>
    cases hs : mb.saveError with
    | some e => rw [folderEntry_save_error simpleParser mb d e hd hs]; rfl
    | none =>
      rw [folderEntry_saved simpleParser mb d hd hs]
      exact downloadMailboxMessages_boxName simpleParser mb d hd

/-- An entry is an error entry or carries its messages and their number. -/
theorem folderEntry_shape (simpleParser : String → Except String ParsedMail)
    (mb : MailboxScript) :
    (∃ err, (folderEntry simpleParser mb).error = some err ∧
      (folderEntry simpleParser mb).count = none ∧
      (folderEntry simpleParser mb).messages = none) ∨
    (∃ msgs, (folderEntry simpleParser mb).error = none ∧
      (folderEntry simpleParser mb).messages = some msgs ∧
      (folderEntry simpleParser mb).count = some msgs.length) := by
  cases hd : (downloadMailboxMessages simpleParser mb).1 with
  | error e =>
    rw [folderEntry_download_error simpleParser mb e hd]
    exact Or.inl ⟨e, rfl, rfl, rfl⟩
  | ok d =>
    cases hs : mb.saveError with
    | some e =>
      rw [folderEntry_save_error simpleParser mb d e hd hs]
      exact Or.inl ⟨e.message, rfl, rfl, rfl⟩
    | none =>
      rw [folderEntry_saved simpleParser mb d hd hs]
      refine Or.inr ⟨d.messages, rfl, rfl, ?_⟩
      simp only [Download.toEntry]
      rw [downloadMailboxMessages_count simpleParser mb d hd]

/-- The count of the entry of a folder is the number of records saved for it
by a save that returned. -/
theorem folderEntry_count (simpleParser : String → Except String ParsedMail)
    (mb : MailboxScript) :
    (folderEntry simpleParser mb).count.getD 0 = savedCount simpleParser mb := by
  cases hd : (downloadMailboxMessages simpleParser mb).1 with
  | error e =>
    rw [folderEntry_download_error simpleParser mb e hd]
    simp only [savedCount, hd]
    rfl
  | ok d =>
    cases hs : mb.saveError with
    | some e =>
      rw [folderEntry_save_error simpleParser mb d e hd hs]
      simp only [savedCount, hd, hs, saveMessagesOutcome_some]
      rfl
    | none =>
      rw [folderEntry_saved simpleParser mb d hd hs]
      simp only [savedCount, hd, hs, saveMessagesOutcome_none, Download.toEntry, saveMessages,
        Option.getD_some]
      exact downloadMailboxMessages_count simpleParser mb d hd

/-- The outcome, the store and the result of `syncAccount` once the session is
established and the folders are listed: only the closing logout can make it
raise. -/
theorem syncAccount_listed (srv : SyncServer)
    (simpleParser : String → Except String ParsedMail) (s : Store) (account : Account)
    (folders : List MailboxScript)
    (hconnect : srv.connectError = none) (hlist : srv.listResult = .ok folders) :
    (syncAccount srv simpleParser s account).1
      = (match srv.logoutError with
         | none => .ok { success := true, email := account.email
                         mailboxCount := folders.length
                         totalMessages := totalMessages (folders.map (folderEntry simpleParser))
                         results := folders.map (folderEntry simpleParser) }
         | some err => .error err) ∧
    (syncAccount srv simpleParser s account).2.1
      = folders.foldl (folderSave simpleParser account.email) s := by
  simp only [syncAccount, hconnect, hlist, flattenMailboxTree_eq, syncMailboxes_results,
    syncMailboxes_store]
  cases srv.logoutError <;> exact ⟨rfl, rfl⟩

/-! ## Lemmas on operation records -/

/-- A record read after `set` is the written one or was there before. -/
theorem KV.get_set_cases {α β : Type} [DecidableEq α] (m : List (α × β)) (k k2 : α)
    (v r : β) (h : KV.get (KV.set m k v) k2 = some r) : r = v ∨ KV.get m k2 = some r := by
  by_cases hk : k = k2
  · subst hk
    rw [KV.get_set_same] at h
    exact Or.inl (Option.some.inj h).symm
  · rw [KV.get_set_other _ _ _ _ hk] at h
    exact Or.inr h

/-- A deleted key is absent. -/
theorem KV.get_delete_same {α β : Type} [DecidableEq α] (m : List (α × β)) (k : α) :
    KV.get (KV.delete m k) k = none := by
  induction m with
  | nil => rfl
  | cons e rest ih =>
    obtain ⟨k', v'⟩ := e
    by_cases h : k' = k
    · simp [KV.delete, h, ih]
    · simp [KV.delete, KV.get, h, ih]

/-- Deleting a key leaves the other keys as they are. -/
theorem KV.get_delete_other {α β : Type} [DecidableEq α] (m : List (α × β)) (k k2 : α)
    (h : k ≠ k2) : KV.get (KV.delete m k) k2 = KV.get m k2 := by
  induction m with
  | nil => rfl
  | cons e rest ih =>
    obtain ⟨k', v'⟩ := e
    by_cases h1 : k' = k
    · subst h1
      simp [KV.delete, KV.get, h, ih]
    · by_cases h2 : k' = k2
      · subst h2
        simp [KV.delete, KV.get, h1]
      · simp [KV.delete, KV.get, h1, h2, ih]

/-- A record read after `delete` was there before. -/
theorem KV.get_delete {α β : Type} [DecidableEq α] (m : List (α × β)) (k k2 : α) (r : β)
    (h : KV.get (KV.delete m k) k2 = some r) : KV.get m k2 = some r := by
  by_cases hk : k = k2
  · subst hk
    rw [KV.get_delete_same] at h
    exact absurd h (by simp)
  · rw [KV.get_delete_other _ _ _ hk] at h
    exact h

/-- Writing a record with the fields of its status keeps the map shaped. -/
theorem mapShaped_set {ρ : Type} (m : List (String × OpRecord ρ)) (k : String)
    (v : OpRecord ρ) (hm : mapShaped m) (hv : v.shaped) : mapShaped (KV.set m k v) := by
  intro k2 r h
  rcases KV.get_set_cases m k k2 v r h with h1 | h1
  · rw [h1]
    exact hv
  · exact hm k2 r h1

/-- Evicting a record keeps the map shaped. -/
theorem mapShaped_delete {ρ : Type} (m : List (String × OpRecord ρ)) (k : String)
    (hm : mapShaped m) : mapShaped (KV.delete m k) :=
  fun k2 r h => hm k2 r (KV.get_delete m k k2 r h)

/-- An empty map is shaped. -/
theorem mapShaped_nil {ρ : Type} : mapShaped ([] : List (String × OpRecord ρ)) := by
  intro k r h
  simp [KV.get] at h

/-- Every action of the routes keeps the records shaped. -/
theorem routeStep_shaped (w : World) (a : Nat × RouteAction) (h : recordsShaped w) :
    recordsShaped (routeStep w a) := by
  obtain ⟨now, act⟩ := a
  obtain ⟨hs, he⟩ := h
  cases act with
  | syncPost p =>
    cases p with
    | entry id =>
      simp only [routeStep, SyncPost.step]
      split <;> exact ⟨hs, he⟩
    | awaitAccount id =>
      simp only [routeStep, SyncPost.step]
      split
      · exact ⟨hs, he⟩
      · exact ⟨mapShaped_set _ _ _ hs (by simp [OpRecord.shaped]), he⟩
    | done res => exact ⟨hs, he⟩
  | exportPost p =>
    cases p with
    | entry req =>
      simp only [routeStep, ExportPost.step]
      split <;> exact ⟨hs, he⟩
    | awaitSource req => exact ⟨hs, he⟩
    | awaitTarget req sa =>
      simp only [routeStep, ExportPost.step]
      split
      · split
        · exact ⟨hs, he⟩
        · exact ⟨hs, mapShaped_set _ _ _ he (by simp [OpRecord.shaped])⟩
      · exact ⟨hs, he⟩
    | done res => exact ⟨hs, he⟩
  | syncThen accountId result =>
    exact ⟨mapShaped_set _ _ _ hs (by simp [OpRecord.shaped]), he⟩
  | syncThenUpdate accountId =>
    simp only [routeStep, syncThenUpdate]
    split
    · exact ⟨hs, he⟩
    · exact ⟨mapShaped_set _ _ _ hs (by simp [OpRecord.shaped]), he⟩
  | syncCatch accountId err =>
    exact ⟨mapShaped_set _ _ _ hs (by simp [OpRecord.shaped]), he⟩
  | exportSettle exportId outcome =>
    cases outcome with
    | ok result => exact ⟨hs, mapShaped_set _ _ _ he (by simp [OpRecord.shaped])⟩
    | error err => exact ⟨hs, mapShaped_set _ _ _ he (by simp [OpRecord.shaped])⟩
  | syncTimer accountId => exact ⟨mapShaped_delete _ _ hs, he⟩
  | exportTimer exportId => exact ⟨hs, mapShaped_delete _ _ he⟩
  | deleteAccount id =>
    simp only [routeStep, deleteAccountRoute]
    split <;> exact ⟨hs, he⟩

/-- Every run of actions keeps the records shaped. -/
theorem run_shaped (actions : List (Nat × RouteAction)) (w : World) (h : recordsShaped w) :
    recordsShaped (actions.foldl routeStep w) := by
  induction actions generalizing w with
  | nil => exact h
  | cons a rest ih => exact ih _ (routeStep_shaped w a h)

/-- The fields of a shaped record, status by status. -/
theorem OpRecord.shaped_fields {ρ : Type} (r : OpRecord ρ) (h : r.shaped) :
    (r.status = .running → r.startedAt.isSome = true ∧ r.completedAt = none) ∧
    (r.status = .completed →
      r.completedAt.isSome = true ∧ r.result.isSome = true ∧ r.startedAt = none) ∧
    (r.status = .failed →
      r.completedAt.isSome = true ∧ r.error.isSome = true ∧ r.startedAt = none) := by
  unfold OpRecord.shaped at h
  cases hst : r.status <;> simp only [hst] at h <;> simp [h]

/-! ## Lemmas on storage keys -/

/-- The replacement character is not in the replaced class, so a second
replacement changes nothing. -/
theorem sanitizeBoxName_idem (name : String) :
    sanitizeBoxName (sanitizeBoxName name) = sanitizeBoxName name := by
  apply String.ext
  simp only [sanitizeBoxName, List.map_map]
  apply List.map_congr_left
  intro c _
  simp only [Function.comp]
  by_cases h : c ∈ unsafeChars
  · rw [if_pos h]
    decide
  · rw [if_neg h, if_neg h]

/-- A key that is read is an entry of the container. -/
theorem KV.get_mem {α β : Type} [DecidableEq α] (m : List (α × β)) (k : α) (v : β)
    (h : KV.get m k = some v) : (k, v) ∈ m := by
  induction m with
  | nil => simp [KV.get] at h
  | cons e rest ih =>
    obtain ⟨k', v'⟩ := e
    by_cases h1 : k' = k
    · subst h1
      simp only [KV.get, if_true, Option.some.injEq] at h
      subst h
      exact List.mem_cons_self _ _
    · simp only [KV.get, h1, if_false] at h
      exact List.mem_cons_of_mem _ (ih h)

/-- A folder directory that exists is listed by `getLocalMailboxes`. -/
theorem mem_getLocalMailboxes (s : Store) (accountEmail dirName : String) (d : BoxDir)
    (h : KV.get s (accountEmail, dirName) = some d) :
    dirName ∈ getLocalMailboxes s accountEmail := by
  unfold getLocalMailboxes
  simp only [List.mem_map, List.mem_filter, decide_eq_true_eq]
  exact ⟨((accountEmail, dirName), d), ⟨KV.get_mem s _ _ h, rfl⟩, rfl⟩

/-- A name that is listed by `getLocalMailboxes` is a folder directory. -/
theorem get_of_mem_getLocalMailboxes (s : Store) (accountEmail dirName : String)
    (h : dirName ∈ getLocalMailboxes s accountEmail) :
    ∃ d, KV.get s (accountEmail, dirName) = some d := by
  unfold getLocalMailboxes at h
  simp only [List.mem_map, List.mem_filter, decide_eq_true_eq] at h
  obtain ⟨e, ⟨he, h1⟩, h2⟩ := h
  induction s with
  | nil => simp at he
  | cons e0 rest ih =>
    obtain ⟨k', v'⟩ := e0
    by_cases hk : k' = (accountEmail, dirName)
    · exact ⟨v', by simp [KV.get, hk]⟩
    · rcases List.mem_cons.mp he with h0 | h0
      · exfalso
        apply hk
        rw [← h1, ← h2, h0]
      · obtain ⟨d, hd⟩ := ih h0
        exact ⟨d, by simp [KV.get, hk, hd]⟩

/-- Reading by the storage key is reading by the folder path. -/
theorem readLocalMessages_sanitized (s : Store) (accountEmail name : String) :
    readLocalMessages s accountEmail (sanitizeBoxName name)
      = readLocalMessages s accountEmail name := by
  unfold readLocalMessages
  simp only [sanitizeBoxName_idem]

/-! ## Lemmas on the folder names of an export -/

/-- The `mailboxCreate` calls of the folder loop: one per folder that has a
stored message, in order. -/
theorem folderEvents_creates (srv : ExportServer) (toUTCString : Nat → String) (s : Store)
    (sourceEmail : String) (folders : List String) :
    (folderEvents srv toUTCString s sourceEmail folders).filter Event.isCreate
      = (folders.filter fun f => (readLocalMessages s sourceEmail f).length ≠ 0).map
          Event.mailboxCreate := by
  induction folders with
  | nil => rfl
  | cons f rest ih =>
    simp only [folderEvents, List.filter_append, ih]
    by_cases h0 : (readLocalMessages s sourceEmail f).length = 0
    · have hnil : readLocalMessages s sourceEmail f = [] := List.length_eq_zero.mp h0
      simp [List.filter_cons, hnil]
    · simp only [h0, if_false]
      rw [List.filter_cons, List.filter_cons]
      simp only [Event.isCreate, if_true, ne_eq, h0, not_false_eq_true, decide_True,
        List.map_cons, List.cons_append]
      congr 1
      rw [filter_eq_nil_of_forall]
      · rfl
      · intro e he
        simp only [List.mem_map] at he
        obtain ⟨m, _, rfl⟩ := he
        rfl

/-- Once the target session is open, the `mailboxCreate` and `append` calls of
`exportToAccount` are those of its folder loop. -/
theorem exportToAccount_folder_calls (srv : ExportServer) (toUTCString : Nat → String)
    (s : Store) (sourceEmail : String) (targetAccount : Account)
    (mailboxes : Option (List String)) (hconnect : srv.connectError = none)
    (p : Event → Bool) (hp : ∀ e, e.isCreate = false → e.isAppend = false → p e = false) :
    (exportToAccount srv toUTCString s sourceEmail targetAccount mailboxes).2.filter p
      = (folderEvents srv toUTCString s sourceEmail
          (mailboxesToExport s sourceEmail mailboxes)).filter p := by
  have hcfg : (imapConfig srv.probe targetAccount).2.filter p = [] :=
    filter_eq_nil_of_forall _ _ fun e he =>
      hp e (imapConfig_events _ _ e he).2 (imapConfig_events _ _ e he).1
  have hconn : ∀ a b c, p (Event.connect a b c) = false := fun a b c => hp _ rfl rfl
  have hlog : p Event.logout = false := hp _ rfl rfl
  unfold exportToAccount
  simp only [hconnect]
  by_cases hlen : (mailboxesToExport s sourceEmail mailboxes).length = 0
  · have hnil := List.length_eq_zero.mp hlen
    simp [hnil, folderEvents, List.filter_append, hcfg, List.filter_cons, hconn]
  · cases srv.logoutError <;>
      simp [hlen, exportMailboxes_spec, List.filter_append, hcfg, List.filter_cons, hconn, hlog]

/-! ## Theorems -/

/-- C4 (summary derivability): after `saveMessages` for any store, account,
folder name and message list `M`, the persisted `summary.json` of the folder is
the projection of the persisted `messages.json`: the collection read back is
`M`, `messageCount` is its length, the summary entries are the
uid/subject/from/date/flags projections of the persisted messages in the same
order (entry `i` is the projection of message `i`), and `boxName` is the
unsanitised folder name. -/
theorem C4_summary_is_projection (s : Store) (now : Nat) (accountEmail boxName : String)
    (M : List Message) :
    let s' := (saveMessages s now accountEmail boxName M).1
    readLocalMessages s' accountEmail boxName = M ∧
    ∃ summary, readSummary s' accountEmail (sanitizeBoxName boxName) = some summary ∧
      summary.boxName = boxName ∧
      summary.messageCount = (readLocalMessages s' accountEmail boxName).length ∧
      summary.messageCount = M.length ∧
      summary.messages = (readLocalMessages s' accountEmail boxName).map summaryEntry ∧
      summary.messages.length = M.length ∧
      ∀ (i : Nat) (m : Message), M.get? i = some m →
        ∃ e, summary.messages.get? i = some e ∧
          e.uid = m.uid ∧ e.subject = m.subject ∧ e.from_ = m.from_ ∧
          e.date = m.date ∧ e.flags = m.flags := by
  intro s'
  have hget := get_saveMessages s now accountEmail boxName M
  have hread : readLocalMessages s' accountEmail boxName = M := by
    simp [readLocalMessages, s', hget]
  refine ⟨hread, buildSummary now boxName M, ?_, rfl, ?_, rfl, ?_, ?_, ?_⟩
  · simp [readSummary, s', hget]
  · rw [hread]; rfl
  · rw [hread]; rfl
  · simp [buildSummary]
  · intro i m hm
    refine ⟨summaryEntry m, ?_, rfl, rfl, rfl, rfl, rfl⟩
    simp [buildSummary, List.get?_eq_getElem?, List.getElem?_map] at hm ⊢
    simp [hm]

/-- C3 (counterexample to the claim as stated): the server lists `INBOX` and a
folder whose path is 300 characters long; for both, lock and fetch return, and
one message is downloaded from each. The `mkdir` of the directory of the long
folder raises `ENAMETOOLONG` inside the same `try` as the download.
`syncAccount` returns a result in which the long folder, whose lock and fetch
did not raise, has an error entry without count, and its downloaded message is
not in the store. -/
theorem C3_unsaved_folder_without_lock_or_fetch_error :
    exampleLongFolder.lockError = none ∧ exampleLongFolder.fetchError = none ∧
    (downloadMailboxMessages exampleParser exampleLongFolder).1
      = .ok { boxName := exampleLongFolder.path, count := 1,
              messages := downloaded exampleParser exampleLongFolder } ∧
    (downloaded exampleParser exampleLongFolder).length = 1 ∧
    (syncAccount exampleLongServer exampleParser [] exampleAccountA).1
      = .ok { success := true, email := "a@x.com", mailboxCount := 2, totalMessages := 1,
              results :=
                [{ boxName := "INBOX", count := some 1,
                   messages := some (downloaded exampleParser exampleInbox), error := none },
                 { boxName := exampleLongFolder.path, count := none, messages := none,
                   error := some "ENAMETOOLONG: name too long, mkdir" }] } ∧
    readLocalMessages (syncAccount exampleLongServer exampleParser [] exampleAccountA).2.1
        "a@x.com" exampleLongFolder.path = [] ∧
    readLocalMessages (syncAccount exampleLongServer exampleParser [] exampleAccountA).2.1
        "a@x.com" "INBOX" = downloaded exampleParser exampleInbox := by
  refine ⟨rfl, rfl, rfl, rfl, rfl, rfl, rfl⟩

/-- C3 (amended): when the session is established and the folder list
`folders` is returned, then for every choice of folders whose lock, fetch or
save raises, no folder aborts `syncAccount`: it runs through all folders and
returns, unless the closing logout raises (then it raises that error, the
store being the same), a result with exactly one entry per folder in
enumeration order. The entry of a folder whose lock, fetch or save raises
carries that folder's path and the error message, and neither count nor
messages; the entry of any other folder carries its downloaded messages and
their number. The store afterwards is the initial store with the effect of
every folder applied in order, and a folder none of whose steps raised is read
back from the store unless a later folder whose download returned is stored
under the same directory name. -/
theorem C3_folder_isolation (srv : SyncServer)
    (simpleParser : String → Except String ParsedMail) (s : Store) (account : Account)
    (folders : List MailboxScript)
    (hconnect : srv.connectError = none) (hlist : srv.listResult = .ok folders) :
    ∃ result s',
      (syncAccount srv simpleParser s account).1
        = (match srv.logoutError with
           | none => .ok result
           | some err => .error err) ∧
      (syncAccount srv simpleParser s account).2.1 = s' ∧
      result.mailboxCount = folders.length ∧
      result.results.length = folders.length ∧
      result.results.map (·.boxName) = folders.map (·.path) ∧
      (∀ (i : Nat) (mb : MailboxScript), folders.get? i = some mb →
        ∃ entry, result.results.get? i = some entry ∧ entry.boxName = mb.path ∧
          (∀ err, mb.lockError = some err →
            entry.error = some err ∧ entry.count = none ∧ entry.messages = none) ∧
          (∀ err, mb.lockError = none → mb.exists_ ≠ 0 → mb.fetchError = some err →
            entry.error = some err ∧ entry.count = none ∧ entry.messages = none) ∧
          (∀ e, mb.lockError = none → (mb.exists_ = 0 ∨ mb.fetchError = none) →
            mb.saveError = some e →
            entry.error = some e.message ∧ entry.count = none ∧ entry.messages = none) ∧
          (mb.lockError = none → (mb.exists_ = 0 ∨ mb.fetchError = none) →
            mb.saveError = none →
            entry.error = none ∧ entry.messages = some (downloaded simpleParser mb) ∧
            entry.count = some (downloaded simpleParser mb).length)) ∧
      s' = folders.foldl (folderSave simpleParser account.email) s ∧
      (∀ (pre post : List MailboxScript) (mb : MailboxScript),
        folders = pre ++ mb :: post →
        mb.lockError = none → (mb.exists_ = 0 ∨ mb.fetchError = none) →
        mb.saveError = none →
        (∀ mb2 ∈ post, ∀ d, (downloadMailboxMessages simpleParser mb2).1 = .ok d →
          sanitizeBoxName mb2.path ≠ sanitizeBoxName mb.path) →
        readLocalMessages s' account.email mb.path = downloaded simpleParser mb) := by
  have hrun := syncAccount_listed srv simpleParser s account folders hconnect hlist
  refine ⟨{ success := true, email := account.email, mailboxCount := folders.length,
             totalMessages := totalMessages (folders.map (folderEntry simpleParser)),
             results := folders.map (folderEntry simpleParser) },
    folders.foldl (folderSave simpleParser account.email) s,
    hrun.1, hrun.2, rfl, ?_, ?_, ?_, rfl, ?_⟩
  · simp
  · simp only [List.map_map]
    apply List.map_congr_left
    intro mb _
    exact folderEntry_boxName simpleParser mb
  · intro i mb hi
    refine ⟨folderEntry simpleParser mb, ?_, folderEntry_boxName simpleParser mb, ?_, ?_, ?_, ?_⟩
    · simp [List.get?_eq_getElem?, List.getElem?_map] at hi ⊢
      simp [hi]
    · intro err h
      rw [folderEntry_download_error simpleParser mb err
        (downloadMailboxMessages_lockError simpleParser mb err h)]
      exact ⟨rfl, rfl, rfl⟩
    · intro err h1 h2 h3
      rw [folderEntry_download_error simpleParser mb err
        (downloadMailboxMessages_fetchError simpleParser mb err h1 h2 h3)]
      exact ⟨rfl, rfl, rfl⟩
    · intro e h1 h2 hs
      rw [folderEntry_save_error simpleParser mb _ e
        (downloadMailboxMessages_ok simpleParser mb h1 h2) hs]
      exact ⟨rfl, rfl, rfl⟩
    · intro h1 h2 hs
      rw [folderEntry_saved simpleParser mb _
        (downloadMailboxMessages_ok simpleParser mb h1 h2) hs]
      exact ⟨rfl, rfl, rfl⟩
  · intro pre post mb hf h1 h2 hs hpost
    subst hf
    rw [List.foldl_append, List.foldl_cons]
    unfold readLocalMessages
    simp only []
    rw [get_foldl_folderSave simpleParser account.email _ post _ hpost]
    unfold folderSave
    rw [downloadMailboxMessages_ok simpleParser mb h1 h2]
    simp only [hs, saveMessagesOutcome_none]
    rw [get_saveMessages]
    rfl

/-- C3 (amended) at a concrete run: three folders, the second of which fails
to fetch; the sync returns three entries and the first folder is read back. -/
theorem C3_folder_isolation_witness :
    ∃ result s',
      (syncAccount exampleSyncServer exampleParser [] exampleAccountA).1 = .ok result ∧
      (syncAccount exampleSyncServer exampleParser [] exampleAccountA).2.1 = s' ∧
      result.results.length = 3 ∧
      readLocalMessages s' "a@x.com" "INBOX" = downloaded exampleParser exampleInbox :=
  let ⟨result, s', h, hs, _, hlen, _, _, _, hread⟩ :=
    C3_folder_isolation exampleSyncServer exampleParser [] exampleAccountA exampleFolders
      rfl rfl
  ⟨result, s', h, hs, hlen,
    hread [] [exampleSent, exampleDrafts] exampleInbox rfl rfl (Or.inr rfl) rfl (by
      intro mb2 hmb d _
      simp only [List.mem_cons, List.mem_singleton, List.not_mem_nil, or_false] at hmb
      rcases hmb with rfl | rfl <;> decide)⟩

/-- C1 (evaluation of the race): two `POST /sync/1` handlers for the known
account `1`, scheduled so that both run their presence check before either
resumes from the account lookup, are both accepted: both answer 200, both
write a `running` record and `syncAccount` is called twice. Scheduled one after
the other, the second is rejected with 409 and `syncAccount` is called once. -/
theorem C1_interleaved_triggers_both_start :
    (runSyncPair 7 (exampleWorld, .entry "1", .entry "1") [false, true, false, true]).2.1
        = .done (.syncStarted "1" "a@x.com") ∧
    (runSyncPair 7 (exampleWorld, .entry "1", .entry "1") [false, true, false, true]).2.2
        = .done (.syncStarted "1" "a@x.com") ∧
    (runSyncPair 7 (exampleWorld, .entry "1", .entry "1") [false, true, false, true]).1.syncCalls
        = [exampleAccountA, exampleAccountA] ∧
    (runSyncPair 7 (exampleWorld, .entry "1", .entry "1") [false, false, true, true]).2.2
        = .done (.error 409 "Sync already in progress for this account") ∧
    (runSyncPair 7 (exampleWorld, .entry "1", .entry "1") [false, false, true, true]).1.syncCalls
        = [exampleAccountA] := by
  decide

/-- C2 (export is at-most-one per pair): two `POST /sync/export` handlers for
the same pair `(src, tgt)`, started in any world and run under any schedule of
their suspension points (the exports they start may settle in between; the
eviction timers do not fire during the run), are never both accepted; `exportToAccount` is called once per acceptance, hence at
most once; no key other than `src->tgt` is inserted; when both have answered,
an acceptance of one means the other answered 409, and for a known pair whose
key was absent one of them is accepted. For two handlers of different pairs
whose source ids are registry ids, the keys differ and neither handler is
answered 409 when its own key was absent at the start. -/
theorem C2_export_at_most_one (now : Nat) (w0 : World) (src tgt : String)
    (mb1 mb2 : Option (List String)) (schedule : List ExportAction) :
    (∀ r, r = runExportPair now
        (w0,
          .entry { sourceAccountId := some src, targetAccountId := some tgt, mailboxes := mb1 },
          .entry { sourceAccountId := some src, targetAccountId := some tgt, mailboxes := mb2 })
        schedule →
      ¬ (r.2.1.accepted = true ∧ r.2.2.accepted = true) ∧
      r.1.exportCalls.length = w0.exportCalls.length
        + (if r.2.1.accepted || r.2.2.accepted then 1 else 0) ∧
      (r.2.1.accepted = true ∨ r.2.2.accepted = true →
        KV.has r.1.activeExports (exportKey src tgt) = true) ∧
      (∀ k, KV.has r.1.activeExports k = true →
        KV.has w0.activeExports k = true ∨ k = exportKey src tgt) ∧
      (∀ res1 res2, r.2.1 = .done res1 → r.2.2 = .done res2 →
        (res1.accepted = true → res2 = exportConflict) ∧
        (res2.accepted = true → res1 = exportConflict) ∧
        (validPair w0.accounts src tgt →
          KV.has w0.activeExports (exportKey src tgt) = false →
          (res1.accepted = true ∨ res2.accepted = true)))) ∧
    (∀ (src2 tgt2 : String) (schedule2 : List ExportAction),
      isRegistryId src → isRegistryId src2 → (src, tgt) ≠ (src2, tgt2) →
      exportKey src tgt ≠ exportKey src2 tgt2 ∧
      ∀ r, r = runExportPair now
          (w0,
            .entry { sourceAccountId := some src, targetAccountId := some tgt,
                     mailboxes := mb1 },
            .entry { sourceAccountId := some src2, targetAccountId := some tgt2,
                     mailboxes := mb2 })
          schedule2 →
        (∀ res1, r.2.1 = .done res1 →
          KV.has w0.activeExports (exportKey src tgt) = false →
          res1.code ≠ 409 ∧ (validPair w0.accounts src tgt → res1.accepted = true)) ∧
        (∀ res2, r.2.2 = .done res2 →
          KV.has w0.activeExports (exportKey src2 tgt2) = false →
          res2.code ≠ 409 ∧ (validPair w0.accounts src2 tgt2 → res2.accepted = true))) := by
  have hdone : ∀ (accounts : List Account) (s t : String) (res : Response),
      (ExportPost.done res).serves accounts s t →
      res = exportConflict ∨ (res.code ≠ 409 ∧ res.accepted = false ∧ ¬ validPair accounts s t) ∨
        (res.accepted = true ∧ validPair accounts s t) := by
    intro accounts s t res hs
    cases res with
    | error c m =>
      rcases hs with h | h
      · exact Or.inl h
      · exact Or.inr (Or.inl ⟨h.1, rfl, h.2⟩)
    | exportStarted id a b => exact Or.inr (Or.inr ⟨rfl, hs.2⟩)
    | syncStarted a b => exact absurd hs (by simp [ExportPost.serves])
  constructor
  · intro r hr
    have hinv := exportPairInv_run now w0 src tgt src tgt schedule _
      (exportPairInv_init w0 src tgt src tgt mb1 mb2)
    rw [← hr] at hinv
    obtain ⟨_, i2, i3, i4, i5, i6, i7, i8, i9, i10⟩ := hinv
    have hnot : ¬ (r.2.1.accepted = true ∧ r.2.2.accepted = true) := i10 rfl
    refine ⟨hnot, ?_, ?_, ?_, ?_⟩
    · rw [i9]
      cases ha : r.2.1.accepted <;> cases hb : r.2.2.accepted <;> simp
      exact hnot ⟨ha, hb⟩
    · rintro (h | h)
      · exact i5 h
      · exact i6 h
    · intro k hk
      rcases i4 k hk with h | h | h
      · exact Or.inl h
      · exact Or.inr h.1
      · exact Or.inr h.1
    · intro res1 res2 h1 h2
      rw [h1] at i2 i7
      rw [h2] at i3 i8
      have a1 : r.2.1.accepted = res1.accepted := by rw [h1]; rfl
      have a2 : r.2.2.accepted = res2.accepted := by rw [h2]; rfl
      rw [a1, a2] at hnot
      have d1 := hdone _ _ _ _ i2
      have d2 := hdone _ _ _ _ i3
      refine ⟨?_, ?_, ?_⟩
      · intro ha
        rcases d2 with h | h | h
        · exact h
        · rcases d1 with g | g | g
          · rw [g] at ha; exact absurd ha (by decide)
          · rw [g.2.1] at ha; exact absurd ha (by decide)
          · exact absurd g.2 h.2.2
        · exact absurd ⟨ha, h.1⟩ hnot
      · intro hb
        rcases d1 with h | h | h
        · exact h
        · rcases d2 with g | g | g
          · rw [g] at hb; exact absurd hb (by decide)
          · rw [g.2.1] at hb; exact absurd hb (by decide)
          · exact absurd g.2 h.2.2
        · exact absurd ⟨h.1, hb⟩ hnot
      · intro hv hk
        rcases d1 with h | h | h
        · have := i7 (by rw [h])
          rcases this with g | g
          · rw [hk] at g; exact absurd g (by decide)
          · right; rw [← a2]; exact g.2
        · exact absurd hv h.2.2
        · exact Or.inl h.1
  · intro src2 tgt2 schedule2 hid1 hid2 hne
    have hkey : exportKey src tgt ≠ exportKey src2 tgt2 := by
      intro h
      have := exportKey_inj src tgt src2 tgt2 hid1 hid2 h
      exact hne (by rw [this.1, this.2])
    refine ⟨hkey, ?_⟩
    intro r hr
    have hinv := exportPairInv_run now w0 src tgt src2 tgt2 schedule2 _
      (exportPairInv_init w0 src tgt src2 tgt2 mb1 mb2)
    rw [← hr] at hinv
    obtain ⟨_, i2, i3, _, _, _, i7, i8, _, _⟩ := hinv
    constructor
    · intro res1 h1 hk
      rw [h1] at i2 i7
      rcases hdone _ _ _ _ i2 with h | h | h
      · rcases i7 (by rw [h]) with g | g
        · rw [hk] at g; exact absurd g (by decide)
        · exact absurd g.1 hkey
      · exact ⟨h.1, fun hv => absurd hv h.2.2⟩
      · refine ⟨?_, fun _ => h.1⟩
        cases res1 with
        | error c m => exact absurd h.1 (by simp [Response.accepted])
        | exportStarted id a b => simp [Response.code]
        | syncStarted a b => simp [Response.code]
    · intro res2 h2 hk
      rw [h2] at i3 i8
      rcases hdone _ _ _ _ i3 with h | h | h
      · rcases i8 (by rw [h]) with g | g
        · rw [hk] at g; exact absurd g (by decide)
        · exact absurd g.1 hkey
      · exact ⟨h.1, fun hv => absurd hv h.2.2⟩
      · refine ⟨?_, fun _ => h.1⟩
        cases res2 with
        | error c m => exact absurd h.1 (by simp [Response.accepted])
        | exportStarted id a b => simp [Response.code]
        | syncStarted a b => simp [Response.code]

/-- C2 at a concrete run: two triggers for the pair `1 -> 2`, interleaved at
every suspension point, are not both accepted; the keys of `1 -> 2` and
`2 -> 1` differ. -/
theorem C2_export_at_most_one_witness :
    (isRegistryId "1" ∧ isRegistryId "2" ∧ (("1", "2") : String × String) ≠ ("2", "1")) ∧
    exportKey "1" "2" ≠ exportKey "2" "1" ∧
    ¬ ((runExportPair 7
          (exampleWorldAB, .entry exampleExportRequest, .entry exampleExportRequest)
          [.handler false, .handler true, .handler false, .handler true, .handler false,
            .handler true]).2.1.accepted = true ∧
       (runExportPair 7
          (exampleWorldAB, .entry exampleExportRequest, .entry exampleExportRequest)
          [.handler false, .handler true, .handler false, .handler true, .handler false,
            .handler true]).2.2.accepted = true) :=
  ⟨⟨by unfold isRegistryId; decide, by unfold isRegistryId; decide, by decide⟩,
    ((C2_export_at_most_one 7 exampleWorldAB "1" "2" none none []).2 "2" "1" []
      (by unfold isRegistryId; decide) (by unfold isRegistryId; decide) (by decide)).1,
    ((C2_export_at_most_one 7 exampleWorldAB "1" "2" none none
      [.handler false, .handler true, .handler false, .handler true, .handler false,
        .handler true]).1 _ rfl).1⟩

/-- C5 (counterexample to the claim as stated): for a source account without
any locally stored folder, an export with no folder filter on a server where
every call succeeds returns the `No mailboxes found to export` result, which
has no `totalExported` (and no `results`): it does not report a total of 0. -/
theorem C5_no_total_without_folders :
    (exportToAccount exampleExportServer exampleUTC [] "a@x.com" exampleAccountB none).1
      = .ok noMailboxesResult ∧
    noMailboxesResult.totalExported = none ∧
    noMailboxesResult.results = none ∧
    ¬ ∃ r ev, exportToAccount exampleExportServer exampleUTC [] "a@x.com" exampleAccountB none
        = (.ok r, ev) ∧ r.totalExported = some 0 := by
  refine ⟨rfl, rfl, rfl, ?_⟩
  rintro ⟨r, ev, h, ht⟩
  have h1 : (exportToAccount exampleExportServer exampleUTC [] "a@x.com" exampleAccountB
      none).1 = .ok r := by rw [h]
  have h2 : (exportToAccount exampleExportServer exampleUTC [] "a@x.com" exampleAccountB
      none).1 = .ok noMailboxesResult := rfl
  rw [h1] at h2
  injection h2 with h3
  rw [h3] at ht
  exact absurd ht (by decide)

/-- C5 (amended, export per-folder statuses): for a source account with at
least one locally stored folder, when the target session is established, every
append succeeds and the closing logout succeeds, an export with no folder
filter returns a result whose entries are, in directory order, `skipped` with
`exported = 0` for each folder holding no message and `success` with
`total = exported = n` for each folder holding `n > 0` messages;
`totalExported` is the sum of the `n`; and the operation record of the export
becomes `completed`, carrying that result. -/
theorem C5_export_statuses (srv : ExportServer) (toUTCString : Nat → String) (now : Nat)
    (w : World) (exportId sourceEmail : String) (targetAccount : Account)
    (hconnect : srv.connectError = none) (happend : ∀ n, srv.appendError n = none)
    (hlogout : srv.logoutError = none) (hne : getLocalMailboxes w.store sourceEmail ≠ []) :
    ∃ r ev, exportToAccount srv toUTCString w.store sourceEmail targetAccount none = (.ok r, ev) ∧
      r.results = some ((getLocalMailboxes w.store sourceEmail).map fun f =>
        if (readLocalMessages w.store sourceEmail f).length = 0 then
          { mailbox := f, total := none, exported := some 0, status := .skipped,
            error := none }
        else
          { mailbox := f, total := some (readLocalMessages w.store sourceEmail f).length,
            exported := some (readLocalMessages w.store sourceEmail f).length,
            status := .success, error := none }) ∧
      r.totalExported = some
        ((getLocalMailboxes w.store sourceEmail).map fun f =>
          (readLocalMessages w.store sourceEmail f).length).sum ∧
      KV.get (runExport srv toUTCString now w exportId sourceEmail targetAccount
          none).activeExports exportId
        = some { status := .completed, startedAt := none, completedAt := some now,
                 result := some r, error := none } := by
  have hrun := exportToAccount_ok srv toUTCString w.store sourceEmail targetAccount none
    hconnect hlogout hne
  refine ⟨_, _, hrun, ?_, ?_, ?_⟩
  · simp only [mailboxesToExport, folderEntries_all_ok srv w.store sourceEmail happend]
  · simp only [mailboxesToExport, folderEntries_all_ok_sum srv w.store sourceEmail happend]
  · simp only [runExport, hrun, exportSettle, KV.get_set_same]

/-- C5 at the scenario of the specification: `INBOX` with 3 messages and
`Drafts` with none give `success`/3, `skipped`/0, `totalExported` 3 and the
state `completed`. -/
theorem C5_export_statuses_witness :
    ∃ r ev, exportToAccount exampleExportServer exampleUTC exampleStore "a@x.com"
        exampleAccountB none = (.ok r, ev) ∧
      r.results = some
        [ { mailbox := "INBOX", total := some 3, exported := some 3, status := .success,
            error := none },
          { mailbox := "Drafts", total := none, exported := some 0, status := .skipped,
            error := none } ] ∧
      r.totalExported = some 3 ∧
      KV.get (runExport exampleExportServer exampleUTC 9 exampleWorldStored "1->2" "a@x.com"
          exampleAccountB none).activeExports "1->2"
        = some { status := .completed, startedAt := none, completedAt := some 9,
                 result := some r, error := none } :=
  let ⟨r, ev, h1, h2, h3, h4⟩ :=
    C5_export_statuses exampleExportServer exampleUTC 9 exampleWorldStored "1->2" "a@x.com"
      exampleAccountB rfl (fun _ => rfl) rfl (by decide)
  ⟨r, ev, h1, h2.trans (by decide), h3.trans (by decide), h4⟩

/-- C6 (per-message independence and order in export): when the target session
is established, the closing logout succeeds and the folder set is not empty,
then for every pattern of append failures `exportToAccount` returns a result
such that: the `append` calls of the run are exactly one per stored message,
folder by folder and in stored order; there is one entry per folder, in order;
the entry of a folder holding `k` messages, the appends of which are the calls
numbered `start, ..., start + k - 1`, has `exported` equal to the number of
those calls that returned, which is at most `k`, with `total = k` and status
`success` when `k > 0` and status `skipped` when `k = 0`; and `totalExported`
is the sum of `exported` over all entries. -/
theorem C6_per_message_independence (srv : ExportServer) (toUTCString : Nat → String)
    (s : Store) (sourceEmail : String) (targetAccount : Account)
    (mailboxes : Option (List String))
    (hconnect : srv.connectError = none) (hlogout : srv.logoutError = none)
    (hne : mailboxesToExport s sourceEmail mailboxes ≠ []) :
    ∃ r ev results,
      exportToAccount srv toUTCString s sourceEmail targetAccount mailboxes = (.ok r, ev) ∧
      r.results = some results ∧
      ev.filter Event.isAppend
        = (mailboxesToExport s sourceEmail mailboxes).flatMap (fun f =>
            (readLocalMessages s sourceEmail f).map fun m =>
              Event.append f (messageToRFC822 toUTCString m) m.flags (m.date.getD srv.now)) ∧
      results.map (·.mailbox) = mailboxesToExport s sourceEmail mailboxes ∧
      (∀ (pre post : List String) (f : String),
        mailboxesToExport s sourceEmail mailboxes = pre ++ f :: post →
        ∃ e, results.get? pre.length = some e ∧ e.mailbox = f ∧
          e.exported = some
            (((List.range (readLocalMessages s sourceEmail f).length).filter fun j =>
              (srv.appendError
                ((pre.map fun g => (readLocalMessages s sourceEmail g).length).sum + j)
                ).isNone).length) ∧
          (∀ n, e.exported = some n → n ≤ (readLocalMessages s sourceEmail f).length) ∧
          (0 < (readLocalMessages s sourceEmail f).length →
            e.total = some (readLocalMessages s sourceEmail f).length ∧
            e.status = .success) ∧
          ((readLocalMessages s sourceEmail f).length = 0 → e.status = .skipped)) ∧
      r.totalExported = some (results.map fun e => e.exported.getD 0).sum := by
  have hrun := exportToAccount_ok srv toUTCString s sourceEmail targetAccount mailboxes
    hconnect hlogout hne
  refine ⟨_, _, _, hrun, rfl, ?_, ?_, ?_, rfl⟩
  · simp only [List.filter_append, folderEvents_appends]
    rw [filter_eq_nil_of_forall _ _ fun e he => (imapConfig_events srv.probe targetAccount e he).1]
    simp only [List.filter_cons, List.filter_nil, Event.isAppend, Bool.false_eq_true,
      if_false, List.nil_append, List.append_nil]
    rfl
  · exact folderEntries_mailbox srv s sourceEmail _ 0
  · intro pre post f hf
    rw [hf, folderEntries_append]
    have hlen : (folderEntries srv s sourceEmail 0 pre).length = pre.length :=
      folderEntries_length srv s sourceEmail pre 0
    simp only [folderEntries, Nat.zero_add]
    rw [List.get?_eq_getElem?, List.getElem?_append_right (by omega), hlen, Nat.sub_self]
    simp only [List.getElem?_cons_zero]
    by_cases h0 : (readLocalMessages s sourceEmail f).length = 0
    · refine ⟨_, rfl, ?_, ?_, ?_, ?_, ?_⟩
      · simp [h0, skippedEntry]
      · simp [h0, skippedEntry]
      · intro n hn
        simp [h0, skippedEntry] at hn
        omega
      · intro hpos; omega
      · intro _; simp [h0, skippedEntry]
    · refine ⟨_, rfl, ?_, ?_, ?_, ?_, ?_⟩
      · simp [h0, successEntry]
      · simp [h0, successEntry, successes]
      · intro n hn
        simp only [h0, if_false, successEntry, Option.some.injEq] at hn
        rw [← hn]
        exact successes_le srv _ _
      · intro _; simp [h0, successEntry]
      · intro h; exact absurd h h0

/-- C6 at a concrete run: of the three stored messages of `INBOX` the second
and third append fail; all three appends are attempted and `exported` is 1. -/
theorem C6_per_message_independence_witness :
    ∃ r ev results,
      exportToAccount exampleFlakyServer exampleUTC exampleStore "a@x.com" exampleAccountB
        (some ["INBOX", "Drafts"]) = (.ok r, ev) ∧
      r.results = some results ∧
      (ev.filter Event.isAppend).length = 3 ∧
      results.map (·.mailbox) = ["INBOX", "Drafts"] ∧
      r.totalExported = some 1 :=
  let ⟨r, ev, results, h1, h2, h3, h4, _, h6⟩ :=
    C6_per_message_independence exampleFlakyServer exampleUTC exampleStore "a@x.com"
      exampleAccountB (some ["INBOX", "Drafts"]) rfl rfl (by decide)
  ⟨r, ev, results, h1, h2, by rw [h3]; decide, h4, by
    have h7 : (exportToAccount exampleFlakyServer exampleUTC exampleStore "a@x.com"
        exampleAccountB (some ["INBOX", "Drafts"])).1 = .ok r := by rw [h1]
    have h8 : (exportToAccount exampleFlakyServer exampleUTC exampleStore "a@x.com"
        exampleAccountB (some ["INBOX", "Drafts"])).1
        = .ok { success := true, message := none, sourceEmail := some "a@x.com",
                targetEmail := some "b@y.com", mailboxCount := some 2,
                totalExported := some 1,
                results := some [successEntry "INBOX" 3 1, skippedEntry "Drafts"] } := rfl
    rw [h7] at h8
    injection h8 with h9
    rw [h9]⟩

/-- C7 (empty export is not a failure): when the target session is established
and the source account has no locally known folder, an export without a caller
list returns normally (it does not raise) with the result
`{ success: false, message: 'No mailboxes found to export' }`, which carries no
error; no `append` and no `mailboxCreate` is called; and the operation record
of the export becomes `completed` (not `failed`), carrying that result and no
error. -/
theorem C7_empty_export_completes (srv : ExportServer) (toUTCString : Nat → String)
    (now : Nat) (w : World) (exportId sourceEmail : String) (targetAccount : Account)
    (hconnect : srv.connectError = none)
    (hempty : getLocalMailboxes w.store sourceEmail = []) :
    ∃ r ev,
      exportToAccount srv toUTCString w.store sourceEmail targetAccount none = (.ok r, ev) ∧
      r.message = some "No mailboxes found to export" ∧
      r.success = false ∧ r.results = none ∧ r.totalExported = none ∧
      ev.filter Event.isAppend = [] ∧ ev.filter Event.isCreate = [] ∧
      KV.get (runExport srv toUTCString now w exportId sourceEmail targetAccount
          none).activeExports exportId
        = some { status := .completed, startedAt := none, completedAt := some now,
                 result := some r, error := none } := by
  have hrun := exportToAccount_empty srv toUTCString w.store sourceEmail targetAccount none
    hconnect hempty
  refine ⟨_, _, hrun, rfl, rfl, rfl, rfl, ?_, ?_, ?_⟩
  · rw [List.filter_append,
      filter_eq_nil_of_forall _ _ fun e he => (imapConfig_events srv.probe targetAccount e he).1]
    rfl
  · rw [List.filter_append,
      filter_eq_nil_of_forall _ _ fun e he => (imapConfig_events srv.probe targetAccount e he).2]
    rfl
  · simp only [runExport, hrun, exportSettle, KV.get_set_same]

/-- C7 at a concrete run: account `a@x.com` has nothing stored locally. -/
theorem C7_empty_export_completes_witness :
    ∃ r ev,
      exportToAccount exampleExportServer exampleUTC exampleWorldAB.store "a@x.com"
        exampleAccountB none = (.ok r, ev) ∧
      r.message = some "No mailboxes found to export" ∧
      (KV.get (runExport exampleExportServer exampleUTC 9 exampleWorldAB "1->2" "a@x.com"
          exampleAccountB none).activeExports "1->2").map (·.status) = some .completed :=
  let ⟨r, ev, h1, h2, _, _, _, _, _, h8⟩ :=
    C7_empty_export_completes exampleExportServer exampleUTC 9 exampleWorldAB "1->2" "a@x.com"
      exampleAccountB rfl rfl
  ⟨r, ev, h1, h2, by rw [h8]; rfl⟩

/-- C8 (counterexample to the claim as stated): with `INBOX` (3 messages) stored
locally, an export called with the explicit empty folder list `[]` creates
`INBOX` on the target and appends its 3 messages; the result reports
`totalExported = 3`, not the nothing-to-export result. -/
theorem C8_empty_list_exports_everything :
    ((exportToAccount exampleExportServer exampleUTC exampleStore "a@x.com" exampleAccountB
        (some [])).2.filter Event.isAppend).length = 3 ∧
    (exportToAccount exampleExportServer exampleUTC exampleStore "a@x.com" exampleAccountB
        (some [])).2.filter Event.isCreate = [Event.mailboxCreate "INBOX"] ∧
    (exportToAccount exampleExportServer exampleUTC exampleStore "a@x.com" exampleAccountB
        (some [])).1
      = .ok { success := true, message := none, sourceEmail := some "a@x.com",
              targetEmail := some "b@y.com", mailboxCount := some 2,
              totalExported := some 3,
              results := some [successEntry "INBOX" 3 3, skippedEntry "Drafts"] } :=
  ⟨by decide, by decide, rfl⟩

/-- C8 (amended): an export called with an explicit empty folder list behaves
exactly as an export called without a folder list, for every store: it exports
all the locally known folders of the source account. Hence it appends no
message, creates no folder and returns the `No mailboxes found to export`
result when (the session being established) the source account has no locally
known folder. -/
theorem C8_empty_list_is_no_list (srv : ExportServer) (toUTCString : Nat → String)
    (s : Store) (sourceEmail : String) (targetAccount : Account) :
    exportToAccount srv toUTCString s sourceEmail targetAccount (some [])
      = exportToAccount srv toUTCString s sourceEmail targetAccount none ∧
    (srv.connectError = none → getLocalMailboxes s sourceEmail = [] →
      ∃ ev, exportToAccount srv toUTCString s sourceEmail targetAccount (some [])
          = (.ok noMailboxesResult, ev) ∧
        ev.filter Event.isAppend = [] ∧ ev.filter Event.isCreate = []) := by
  constructor
  · simp [exportToAccount, mailboxesToExport]
  · intro hconnect hempty
    have hrun := exportToAccount_empty srv toUTCString s sourceEmail targetAccount (some [])
      hconnect (by simpa [mailboxesToExport] using hempty)
    refine ⟨_, hrun, ?_, ?_⟩
    · rw [List.filter_append,
        filter_eq_nil_of_forall _ _ fun e he =>
          (imapConfig_events srv.probe targetAccount e he).1]
      rfl
    · rw [List.filter_append,
        filter_eq_nil_of_forall _ _ fun e he =>
          (imapConfig_events srv.probe targetAccount e he).2]
      rfl

/-- C8 (amended) at a concrete run: nothing is stored for `a@x.com`. -/
theorem C8_empty_list_is_no_list_witness :
    ∃ ev, exportToAccount exampleExportServer exampleUTC [] "a@x.com" exampleAccountB (some [])
        = (.ok noMailboxesResult, ev) ∧
      ev.filter Event.isAppend = [] ∧ ev.filter Event.isCreate = [] :=
  (C8_empty_list_is_no_list exampleExportServer exampleUTC [] "a@x.com" exampleAccountB).2
    rfl rfl

/-- C10 (evaluation at the failing run): a sync of account `1` is accepted and
the account is deleted while the sync runs. `syncAccount` returns its aggregate
result and the `.then` callback first writes a `completed` record carrying it;
the following `updateAccount` raises `Account not found`, the chained `.catch`
runs, and the record ends `failed` with that error and without the result.
Separately, when every folder was processed and only the closing logout raises,
`syncAccount` raises and the record ends `failed` although the session was
established. -/
theorem C10_completed_sync_ends_failed :
    (∃ result,
      (syncAccount exampleSyncServer exampleParser exampleWorldDeleted.store
        exampleAccountA).1 = .ok result ∧
      KV.get exampleWorldDeleted.activeSyncs "1"
        = some { status := .running, startedAt := some 7, completedAt := none,
                 result := none, error := none } ∧
      KV.get (syncThen 9 exampleWorldDeleted "1" result).activeSyncs "1"
        = some { status := .completed, startedAt := none, completedAt := some 9,
                 result := some result, error := none } ∧
      KV.get (runSync exampleSyncServer exampleParser 9 exampleWorldDeleted
          exampleAccountA).activeSyncs "1"
        = some { status := .failed, startedAt := none, completedAt := some 9,
                 result := none, error := some "Account not found" }) ∧
    (syncAccount exampleLogoutFailsServer exampleParser exampleWorld.store
        exampleAccountA).1 = .error "logout failed" ∧
    KV.get (runSync exampleLogoutFailsServer exampleParser 9 exampleWorld
        exampleAccountA).activeSyncs "1"
      = some { status := .failed, startedAt := none, completedAt := some 9,
               result := none, error := some "logout failed" } :=
  ⟨⟨_, rfl, rfl, rfl, rfl⟩, rfl, rfl⟩

/-- C9 (counterexample to the claim as stated): the encoder writes one body
only. Two stored messages that have the same html and different plain texts are
encoded to the same bytes, and so are a message without any body and a message
whose text is `(No content)`; hence no parser at all reproduces the body
variants of both messages of either pair. In particular the reference parser
returns no text for a message that has both variants, and the text
`(No content)` for a message that has neither. -/
theorem C9_no_parser_round_trips_all :
    messageToRFC822 exampleUTC exampleBothA = messageToRFC822 exampleUTC exampleBothB ∧
    messageToRFC822 exampleUTC exampleNeither = messageToRFC822 exampleUTC examplePlaceholder ∧
    (¬ ∃ parser : String → Except String ParsedMail,
      roundTrips parser exampleUTC exampleBothA ∧ roundTrips parser exampleUTC exampleBothB) ∧
    (¬ ∃ parser : String → Except String ParsedMail,
      roundTrips parser exampleUTC exampleNeither ∧
      roundTrips parser exampleUTC examplePlaceholder) ∧
    ¬ roundTrips (referenceParser fun _ => some 1000) exampleUTC exampleBothA ∧
    ¬ roundTrips (referenceParser fun _ => some 1000) exampleUTC exampleNeither := by
  have e1 : messageToRFC822 exampleUTC exampleBothA
      = messageToRFC822 exampleUTC exampleBothB := rfl
  have e2 : messageToRFC822 exampleUTC exampleNeither
      = messageToRFC822 exampleUTC examplePlaceholder := rfl
  refine ⟨e1, e2, ?_, ?_, ?_, ?_⟩
  · rintro ⟨parser, ⟨p, hp, _, _, _, ht, _⟩, ⟨q, hq, _, _, _, ht2, _⟩⟩
    rw [e1, hq] at hp
    injection hp with hpq
    rw [← hpq, ht2] at ht
    exact absurd ht (by decide)
  · rintro ⟨parser, ⟨p, hp, _, _, _, ht, _⟩, ⟨q, hq, _, _, _, ht2, _⟩⟩
    rw [e2, hq] at hp
    injection hp with hpq
    rw [← hpq, ht2] at ht
    exact absurd ht (by decide)
  · rintro ⟨p, hp, _, _, _, ht, _⟩
    have h : referenceParser (fun _ => some 1000) (messageToRFC822 exampleUTC exampleBothA)
        = .ok { subject := some "hello", from_ := some "a@x.com", to_ := some "c@z.com",
                date := some 1000, text := none, html := some "<p>x</p>",
                attachments := some [] } := rfl
    rw [h] at hp
    injection hp with hp
    rw [← hp] at ht
    exact absurd ht (by decide)
  · rintro ⟨p, hp, _, _, _, ht, _⟩
    have h : referenceParser (fun _ => some 1000) (messageToRFC822 exampleUTC exampleNeither)
        = .ok { subject := some "hello", from_ := some "a@x.com", to_ := some "c@z.com",
                date := some 1000, text := some "(No content)", html := none,
                attachments := some [] } := rfl
    rw [h] at hp
    injection hp with hp
    rw [← hp] at ht
    exact absurd ht (by decide)

/-- C9 (amended, codec round trip of the emitted variant): for every stored
message whose subject, sender and recipient are absent or non-empty single-line
strings (dates being rendered on one line), the reference parser accepts the
bytes produced by `messageToRFC822` and yields the same subject, sender and
recipient, and the one body variant the encoder writes: the html with its
original content when the original had html; otherwise no html, and the text
with its original content when the original had text, or the placeholder text
`(No content)` when it had neither. -/
theorem C9_round_trip_emitted_variant (parseDate : String → Option Nat)
    (toUTCString : Nat → String) (m : Message)
    (hutc : ∀ d, '\r' ∉ (toUTCString d).data)
    (hs : singleLine m.subject) (hf : singleLine m.from_) (ht : singleLine m.to_) :
    ∃ p, referenceParser parseDate (messageToRFC822 toUTCString m) = .ok p ∧
      p.subject = m.subject ∧ p.from_ = m.from_ ∧ p.to_ = m.to_ ∧
      (truthy m.html = true → p.html = m.html) ∧
      (truthy m.html = false → p.html = none) ∧
      (truthy m.html = false → truthy m.text = true → p.text = m.text) ∧
      (truthy m.html = false → truthy m.text = false → p.text = some "(No content)") := by
  have hsrc : (messageToRFC822 toUTCString m).data
      = joinCRLF ((headerLines toUTCString m).map String.data ++ [[], (bodyOf m).data]) := by
    rw [messageToRFC822, intercalate_data, messageToRFC822Lines_eq]
    simp
  have hwf := headerLines_wf toUTCString m hutc hs hf ht
  have hparse := referenceParser_core parseDate _ _ _ hsrc (fun l hl => (hwf l hl).1)
    (fun l hl => (hwf l hl).2)
  rw [headerValue_contentType, headerValue_subject toUTCString m hs,
    headerValue_from toUTCString m hf, headerValue_to toUTCString m ht] at hparse
  have htruthy : ∀ v : Option String, truthy v = true → some (v.getD "") = v := by
    intro v hv
    cases v with
    | none => exact absurd hv (by decide)
    | some s => rfl
  refine ⟨_, hparse, rfl, rfl, rfl, ?_, ?_, ?_, ?_⟩
  · intro hh
    simp only [hh, if_true, bodyOf]
    exact htruthy _ hh
  · intro hh
    simp only [hh, Bool.false_eq_true, if_false]
  · intro hh htx
    simp only [hh, htx, Bool.false_eq_true, if_false, if_true, bodyOf]
    exact htruthy _ htx
  · intro hh htx
    simp only [hh, htx, Bool.false_eq_true, if_false, bodyOf]

/-- C9 (amended) at a concrete message: a text-only message is read back with
its subject, sender, recipient and text. -/
theorem C9_round_trip_emitted_variant_witness :
    ∃ p, referenceParser (fun _ => some 1000) (messageToRFC822 exampleUTC (exampleMessage 1))
        = .ok p ∧
      p.subject = some "hello" ∧ p.from_ = some "a@x.com" ∧ p.to_ = some "c@z.com" ∧
      p.text = some "body" ∧ p.html = none :=
  let ⟨p, h1, h2, h3, h4, _, h6, h7, _⟩ :=
    C9_round_trip_emitted_variant (fun _ => some 1000) exampleUTC (exampleMessage 1)
      (fun _ => by
        show '\r' ∉ ("Thu, 01 Jan 1970 00:00:01 GMT" : String).data
        decide)
      (fun s h => by
        have hs : s = "hello" := (Option.some.inj h).symm
        subst hs
        exact ⟨by decide, by decide⟩)
      (fun s h => by
        have hs : s = "a@x.com" := (Option.some.inj h).symm
        subst hs
        exact ⟨by decide, by decide⟩)
      (fun s h => by
        have hs : s = "c@z.com" := (Option.some.inj h).symm
        subst hs
        exact ⟨by decide, by decide⟩)
  ⟨p, h1, h2, h3, h4, h7 rfl rfl, h6 rfl⟩

/-- C11 (unreachable host): for every account with a non-empty explicit host,
when `connect` raises, host discovery is not invoked (the only client calls are
the `connect` to the explicit host and the `logout` of the error path),
`syncAccount` raises that same error and leaves the store unchanged; the
background run then leaves the store and the account registry (hence last-sync)
unchanged and writes a `failed` record whose `error` is the message of the
connection error. -/
theorem C11_unreachable_host (srv : SyncServer)
    (simpleParser : String → Except String ParsedMail) (now : Nat) (w : World)
    (account : Account) (host err : String)
    (hhost : account.host = some host) (hne : host ≠ "")
    (hconnect : srv.connectError = some err) :
    (syncAccount srv simpleParser w.store account).1 = .error err ∧
    (syncAccount srv simpleParser w.store account).2.1 = w.store ∧
    (syncAccount srv simpleParser w.store account).2.2
      = [Event.connect host (if account.port.getD 0 = 0 then 993 else account.port.getD 0)
          (if truthy account.username then account.username.getD "" else account.email),
         Event.logout] ∧
    (syncAccount srv simpleParser w.store account).2.2.filter Event.isProbe = [] ∧
    (runSync srv simpleParser now w account).store = w.store ∧
    (runSync srv simpleParser now w account).accounts = w.accounts ∧
    KV.get (runSync srv simpleParser now w account).activeSyncs account.id
      = some { status := .failed, startedAt := none, completedAt := some now,
               result := none, error := some err } := by
  have htruthy : truthy (some host) = true := by simp [truthy, hne]
  have hrun : syncAccount srv simpleParser w.store account
      = (.error err, w.store,
          [Event.connect host (if account.port.getD 0 = 0 then 993 else account.port.getD 0)
            (if truthy account.username then account.username.getD "" else account.email),
           Event.logout]) := by
    simp [syncAccount, imapConfig, hconnect, htruthy, hhost]
  refine ⟨by rw [hrun], by rw [hrun], by rw [hrun], by rw [hrun]; rfl, ?_, ?_, ?_⟩
  · simp [runSync, hrun, syncSettle, syncCatch]
  · simp [runSync, hrun, syncSettle, syncCatch]
  · simp [runSync, hrun, syncSettle, syncCatch, KV.get_set_same]

/-- C11 at a concrete run: the explicit host `imap.x.com` of account `1`
refuses the connection. -/
theorem C11_unreachable_host_witness :
    (syncAccount exampleUnreachableServer exampleParser exampleWorld.store exampleAccountA).1
      = .error "connect ECONNREFUSED" ∧
    (runSync exampleUnreachableServer exampleParser 9 exampleWorld exampleAccountA).store = [] ∧
    KV.get (runSync exampleUnreachableServer exampleParser 9 exampleWorld
        exampleAccountA).activeSyncs "1"
      = some { status := .failed, startedAt := none, completedAt := some 9,
               result := none, error := some "connect ECONNREFUSED" } :=
  ⟨(C11_unreachable_host exampleUnreachableServer exampleParser 9 exampleWorld exampleAccountA
      "imap.x.com" "connect ECONNREFUSED" rfl (by decide) rfl).1,
    (C11_unreachable_host exampleUnreachableServer exampleParser 9 exampleWorld exampleAccountA
      "imap.x.com" "connect ECONNREFUSED" rfl (by decide) rfl).2.2.2.2.1,
    (C11_unreachable_host exampleUnreachableServer exampleParser 9 exampleWorld exampleAccountA
      "imap.x.com" "connect ECONNREFUSED" rfl (by decide) rfl).2.2.2.2.2.2⟩

/-- C12 (evaluation at the failing runs): a trigger `POST /sync/1` that arrives
while the record of account `1` is `completed` (its sync has finished, the
eviction timer has not fired) is answered 409 `Sync already in progress for
this account` at its presence check; the record stays `completed` and
`syncAccount` is not called again. The same happens while the record is
`failed`. While the record is `running` the answer is 409 as well, and with no
record the trigger is accepted. -/
theorem C12_trigger_rejected_after_completion :
    (KV.get exampleWorldCompleted.activeSyncs "1").map (·.status) = some .completed ∧
    ((SyncPost.entry "1").step 20 exampleWorldCompleted).2
      = .done (.error 409 "Sync already in progress for this account") ∧
    (KV.get ((SyncPost.entry "1").step 20 exampleWorldCompleted).1.activeSyncs "1").map
      (·.status) = some .completed ∧
    ((SyncPost.entry "1").step 20 exampleWorldCompleted).1.syncCalls = [exampleAccountA] ∧
    (KV.get exampleWorldFailed.activeSyncs "1").map (·.status) = some .failed ∧
    ((SyncPost.entry "1").step 20 exampleWorldFailed).2
      = .done (.error 409 "Sync already in progress for this account") ∧
    ((SyncPost.entry "1").step 20 exampleWorldFailed).1.syncCalls = [exampleAccountA] ∧
    (KV.get exampleWorldRunning.activeSyncs "1").map (·.status) = some .running ∧
    ((SyncPost.entry "1").step 20 exampleWorldRunning).2
      = .done (.error 409 "Sync already in progress for this account") ∧
    ((SyncPost.awaitAccount "1").step 20
        ((SyncPost.entry "1").step 20 exampleWorld).1).2
      = .done (.syncStarted "1" "a@x.com") := by
  refine ⟨rfl, rfl, rfl, rfl, rfl, rfl, rfl, rfl, rfl, rfl⟩

/-- C13 (evaluation at the failing run): an export for a source account without
locally known folders connects to the target and returns the
`No mailboxes found to export` result through the early return of line 320; no
`logout` is called on the session. On the other paths the last client call is
the `logout`: the normal completion of the same export with folders stored, a
sync whose `connect` raises, and in general every path of `syncAccount` and
every path of `exportToAccount` but that early return. -/
theorem C13_early_return_skips_logout :
    (exportToAccount exampleExportServer exampleUTC [] "a@x.com" exampleAccountB none).1
      = .ok noMailboxesResult ∧
    (exportToAccount exampleExportServer exampleUTC [] "a@x.com" exampleAccountB none).2
      = [Event.connect "imap.y.com" 993 "b"] ∧
    (exportToAccount exampleExportServer exampleUTC [] "a@x.com" exampleAccountB none).2.filter
      Event.isLogout = [] ∧
    (exportToAccount exampleExportServer exampleUTC exampleStore "a@x.com" exampleAccountB
      none).2.getLast? = some Event.logout ∧
    (syncAccount exampleUnreachableServer exampleParser [] exampleAccountA).2.2.getLast?
      = some Event.logout ∧
    (syncAccount exampleSyncServer exampleParser [] exampleAccountA).2.2.getLast?
      = some Event.logout ∧
    (∀ (srv : SyncServer) (simpleParser : String → Except String ParsedMail) (s : Store)
        (account : Account),
      (syncAccount srv simpleParser s account).2.2.getLast? = some Event.logout) ∧
    (∀ (srv : ExportServer) (toUTCString : Nat → String) (s : Store) (sourceEmail : String)
        (targetAccount : Account) (mailboxes : Option (List String)),
      (exportToAccount srv toUTCString s sourceEmail targetAccount mailboxes).2.getLast?
          = some Event.logout ∨
        (srv.connectError = none ∧ mailboxesToExport s sourceEmail mailboxes = [])) := by
  refine ⟨rfl, rfl, rfl, rfl, rfl, rfl, ?_, ?_⟩
  · exact syncAccount_last_logout
  · exact exportToAccount_last_logout

/-- C14 (evaluation at the failing runs): with every folder processed and
saved, a `logout` that raises makes `syncAccount` raise that error instead of
returning its aggregate, and the record ends `failed`; with the same server and
a `logout` that returns, the record ends `completed` and the store is the same.
Likewise `exportToAccount`, after all three appends, raises the logout error
and the export record ends `failed`. -/
theorem C14_logout_error_escalates :
    (syncAccount exampleLogoutFailsServer exampleParser [] exampleAccountA).1
      = .error "logout failed" ∧
    (syncAccount exampleLogoutFailsServer exampleParser [] exampleAccountA).2.1
      = (syncAccount exampleSyncServer exampleParser [] exampleAccountA).2.1 ∧
    (KV.get (runSync exampleLogoutFailsServer exampleParser 9 exampleWorldRunning
        exampleAccountA).activeSyncs "1").map (·.status) = some .failed ∧
    (KV.get (runSync exampleSyncServer exampleParser 9 exampleWorldRunning
        exampleAccountA).activeSyncs "1").map (·.status) = some .completed ∧
    (exportToAccount exampleExportLogoutFails exampleUTC exampleStore "a@x.com"
        exampleAccountB none).1 = .error "logout failed" ∧
    ((exportToAccount exampleExportLogoutFails exampleUTC exampleStore "a@x.com"
        exampleAccountB none).2.filter Event.isAppend).length = 3 ∧
    KV.get (runExport exampleExportLogoutFails exampleUTC 9 exampleWorldStored "1->2"
        "a@x.com" exampleAccountB none).activeExports "1->2"
      = some { status := .failed, startedAt := none, completedAt := some 9,
               result := none, error := some "logout failed" } ∧
    (KV.get (runExport exampleExportServer exampleUTC 9 exampleWorldStored "1->2"
        "a@x.com" exampleAccountB none).activeExports "1->2").map (·.status)
      = some .completed := by
  refine ⟨rfl, rfl, rfl, rfl, rfl, rfl, rfl, rfl⟩

/-- C15 (folder lock is released on every exit path): for every folder script,
when `getMailboxLock` returns, the client calls of `downloadMailboxMessages`
start with that acquisition and end with the release of the same folder, with
no other acquisition or release in between, whether the function returns (empty
folder, normal completion) or raises (fetch error); when `getMailboxLock`
raises, the function raises that error and the acquisition attempt is its only
client call. Hence over the folder loop of a sync the acquisitions and releases
alternate folder by folder: no lock is held when the next folder is processed. -/
theorem C15_lock_released_on_every_path (simpleParser : String → Except String ParsedMail)
    (mb : MailboxScript) :
    (mb.lockError = none →
      ∃ middle,
        (downloadMailboxMessages simpleParser mb).2
          = Event.getMailboxLock mb.path :: middle ++ [Event.lockRelease mb.path] ∧
        middle.filter (fun e => e.isLock || e.isRelease) = [] ∧
        ((downloadMailboxMessages simpleParser mb).2.filter Event.isRelease).length = 1) ∧
    (∀ err, mb.lockError = some err →
      (downloadMailboxMessages simpleParser mb).1 = .error err ∧
      (downloadMailboxMessages simpleParser mb).2 = [Event.getMailboxLock mb.path] ∧
      (downloadMailboxMessages simpleParser mb).2.filter Event.isRelease = []) ∧
    (∀ (email : String) (s : Store) (folders : List MailboxScript),
      (syncMailboxes simpleParser email s folders).2.2.filter
          (fun e => e.isLock || e.isRelease)
        = folders.flatMap fun f =>
            if f.lockError.isSome then [Event.getMailboxLock f.path]
            else [Event.getMailboxLock f.path, Event.lockRelease f.path]) := by
  refine ⟨?_, ?_, ?_⟩
  · intro hlock
    unfold downloadMailboxMessages
    by_cases h0 : mb.exists_ = 0
    · exact ⟨[], by simp [hlock, h0], rfl, by simp [hlock, h0, Event.isRelease]⟩
    · cases hf : mb.fetchError with
      | some err =>
        exact ⟨[Event.fetch mb.path], by simp [hlock, h0], rfl,
          by simp [hlock, h0, Event.isRelease]⟩
      | none =>
        exact ⟨[Event.fetch mb.path], by simp [hlock, h0], rfl,
          by simp [hlock, h0, Event.isRelease]⟩
  · intro err hlock
    simp [downloadMailboxMessages, hlock, Event.isRelease]
  · intro email s folders
    rw [syncMailboxes_events]
    induction folders with
    | nil => rfl
    | cons f rest ih =>
      simp only [List.flatMap_cons, List.filter_append, ih, downloadMailboxMessages_locks]

/-- C15 at a concrete folder: the fetch of `Sent` raises and its lock is
released. -/
theorem C15_lock_released_on_every_path_witness :
    (downloadMailboxMessages exampleParser exampleSent).1 = .error "fetch failed" ∧
    ∃ middle,
      (downloadMailboxMessages exampleParser exampleSent).2
        = Event.getMailboxLock "Sent" :: middle ++ [Event.lockRelease "Sent"] ∧
      middle.filter (fun e => e.isLock || e.isRelease) = [] :=
  ⟨rfl,
    let ⟨middle, h1, h2, _⟩ :=
      (C15_lock_released_on_every_path exampleParser exampleSent).1 rfl
    ⟨middle, h1, h2⟩⟩

/-- C16 (parse failures are skipped, not fatal): for a non-empty folder whose
lock and fetch succeed, `downloadMailboxMessages` returns (it does not raise)
for every parser and every sequence of fetched raw messages; the returned
messages are, in fetch order, exactly the records built from the raw messages
whose parse succeeds, each with the uid and flags of its raw message and the
fields of its parse; raw messages whose parse raises are left out; and the
returned count is the number of returned records. -/
theorem C16_parse_failures_skipped (simpleParser : String → Except String ParsedMail)
    (mb : MailboxScript) (hlock : mb.lockError = none) (hexists : mb.exists_ ≠ 0)
    (hfetch : mb.fetchError = none) :
    ∃ d, (downloadMailboxMessages simpleParser mb).1 = .ok d ∧
      d.boxName = mb.path ∧
      d.messages = mb.fetched.filterMap (fun raw =>
        match simpleParser raw.source with
        | .ok parsed =>
          some { uid := raw.uid, flags := raw.flags, subject := parsed.subject,
                 from_ := parsed.from_, to_ := parsed.to_, date := parsed.date,
                 text := parsed.text, html := parsed.html,
                 attachments := parsed.attachments }
        | .error _ => none) ∧
      d.count = d.messages.length ∧
      d.messages.map (·.uid)
        = (mb.fetched.filter fun raw =>
            match simpleParser raw.source with
            | .ok _ => true
            | .error _ => false).map (·.uid) := by
  refine ⟨{ boxName := mb.path
            count := (parseFetched simpleParser mb.fetched).length
            messages := parseFetched simpleParser mb.fetched }, ?_, rfl, ?_, rfl, ?_⟩
  · simp [downloadMailboxMessages, hlock, hexists, hfetch]
  · simp only [parseFetched_eq_filterMap]
    rfl
  · simp only []
    induction mb.fetched with
    | nil => rfl
    | cons raw rest ih =>
      unfold parseFetched
      cases h : simpleParser raw.source with
      | ok parsed => simp [List.filter_cons, h, ih, toMessage]
      | error e => simp [List.filter_cons, h, ih]

/-- C16 at a concrete folder: of the two fetched messages the second does not
parse; the download returns the record of the first only. -/
theorem C16_parse_failures_skipped_witness :
    ∃ d, (downloadMailboxMessages exampleStrictParser exampleInboxBad).1 = .ok d ∧
      d.count = d.messages.length ∧ d.messages.map (·.uid) = [1] :=
  let ⟨d, h1, _, _, h4, h5⟩ :=
    C16_parse_failures_skipped exampleStrictParser exampleInboxBad rfl (by decide) rfl
  ⟨d, h1, h4, h5.trans (by decide)⟩

/-- C17 (counterexample to the claim as stated): a sync of a folder in which one
of two fetched messages fails to parse returns exactly the same value as a sync
of a folder in which the only fetched message parses, although one message was
skipped in the first run and none in the second; so no function of the result
of `syncAccount` gives the number of skipped messages. -/
theorem C17_skipped_not_in_result :
    (syncAccount exampleBadServer exampleStrictParser [] exampleAccountA).1
      = (syncAccount exampleGoodServer exampleStrictParser [] exampleAccountA).1 ∧
    exampleInboxBad.fetched.length - (downloaded exampleStrictParser exampleInboxBad).length
      = 1 ∧
    exampleInbox.fetched.length - (downloaded exampleStrictParser exampleInbox).length = 0 ∧
    ¬ ∃ skipped : Except String SyncResult → Nat,
      skipped (syncAccount exampleBadServer exampleStrictParser [] exampleAccountA).1 = 1 ∧
      skipped (syncAccount exampleGoodServer exampleStrictParser [] exampleAccountA).1
        = 0 := by
  have h : (syncAccount exampleBadServer exampleStrictParser [] exampleAccountA).1
      = (syncAccount exampleGoodServer exampleStrictParser [] exampleAccountA).1 := rfl
  refine ⟨h, by decide, by decide, ?_⟩
  rintro ⟨skipped, h1, h0⟩
  rw [h, h0] at h1
  exact absurd h1 (by decide)

/-- C17 (amended, parse failures are not counted): a message skipped because of
a parse failure leaves no trace in what `syncAccount` returns or stores: the
outcome, the store and the client calls are the same as for the server on which
the unparsable messages are never fetched. The result entry of a folder whose
download returned records the stored messages and their number
(`count = messages.length`), and nothing about skipped ones. -/
theorem C17_parse_failures_leave_no_trace (srv : SyncServer)
    (simpleParser : String → Except String ParsedMail) (s : Store) (account : Account) :
    syncAccount (srv.parsable simpleParser) simpleParser s account
      = syncAccount srv simpleParser s account ∧
    ∀ result st ev, syncAccount srv simpleParser s account = (.ok result, st, ev) →
      ∀ e ∈ result.results,
        (∃ err, e.error = some err ∧ e.count = none ∧ e.messages = none) ∨
        (∃ msgs, e.error = none ∧ e.messages = some msgs ∧ e.count = some msgs.length) := by
  constructor
  · unfold syncAccount SyncServer.parsable
    cases srv.connectError with
    | some err => rfl
    | none =>
      cases srv.listResult with
      | error err => rfl
      | ok folders =>
        simp only [flattenMailboxTree_eq, syncMailboxes_parsable, List.length_map]
  · intro result st ev hrun e he
    unfold syncAccount at hrun
    cases hc : srv.connectError with
    | some err => simp [hc] at hrun
    | none =>
      cases hl : srv.listResult with
      | error err => simp [hc, hl] at hrun
      | ok folders =>
        cases ho : srv.logoutError with
        | some err => simp [hc, hl, ho] at hrun
        | none =>
          simp only [hc, hl, ho, flattenMailboxTree_eq, syncMailboxes_results,
            Prod.mk.injEq, Except.ok.injEq] at hrun
          rw [← hrun.1] at he
          simp only [List.mem_map] at he
          obtain ⟨mb, _, rfl⟩ := he
          exact folderEntry_shape simpleParser mb

/-- C17 (amended) at a concrete run: the sync of the folder with an unparsable
message returns, and its entry carries the count of its stored messages. -/
theorem C17_parse_failures_leave_no_trace_witness :
    ∃ result st ev,
      syncAccount exampleBadServer exampleStrictParser [] exampleAccountA
        = (.ok result, st, ev) ∧
      ∀ e ∈ result.results,
        (∃ err, e.error = some err ∧ e.count = none ∧ e.messages = none) ∨
        (∃ msgs, e.error = none ∧ e.messages = some msgs ∧ e.count = some msgs.length) :=
  ⟨(syncAccount exampleBadServer exampleStrictParser [] exampleAccountA).1.toOption.getD
      { success := false, email := "", mailboxCount := 0, totalMessages := 0, results := [] },
    (syncAccount exampleBadServer exampleStrictParser [] exampleAccountA).2.1,
    (syncAccount exampleBadServer exampleStrictParser [] exampleAccountA).2.2,
    rfl,
    (C17_parse_failures_leave_no_trace exampleBadServer exampleStrictParser []
      exampleAccountA).2 _ _ _ rfl⟩

/-- C18 (counterexample to the claim as stated): `INBOX` of `a@x.com` holds
three messages and their summary; during a `saveMessages` of one new message,
in the state after the write of `messages.json` and before the write of
`summary.json`, the folder holds the one new message together with the old
summary of count 3: the persisted summary is not the projection of the
persisted collection. -/
theorem C18_reader_sees_stale_summary :
    KV.get (saveMessagesStates exampleStore 8 "a@x.com" "INBOX" [exampleMessage 9]).2.1
        ("a@x.com", "INBOX")
      = some { messagesFile := some [exampleMessage 9],
               summaryFile := some (buildSummary 5 "INBOX"
                 [exampleMessage 1, exampleMessage 2, exampleMessage 3]) } ∧
    ¬ summaryConsistent
        { messagesFile := some [exampleMessage 9],
          summaryFile := some (buildSummary 5 "INBOX"
            [exampleMessage 1, exampleMessage 2, exampleMessage 3]) } := by
  refine ⟨by decide, ?_⟩
  intro h
  have h1 := (h _ rfl).1
  exact absurd h1 (by decide)

/-- C18 (amended): for a folder that already holds data, the state in which
`saveMessages` returns holds the new collection and a summary that is its
projection. The two files are written one after the other: the state after the
`mkdir` still holds the previous content, and the state between the write of
`messages.json` and the write of `summary.json` holds the new collection
together with the previous summary, so that state is consistent only when the
previous summary already is the projection of the new collection. -/
theorem C18_summary_consistent_after_save (s : Store) (now : Nat)
    (accountEmail boxName : String) (M : List Message) (d : BoxDir)
    (hd : KV.get s (accountEmail, sanitizeBoxName boxName) = some d) :
    (saveMessagesStates s now accountEmail boxName M).2.2
      = (saveMessages s now accountEmail boxName M).1 ∧
    KV.get (saveMessagesStates s now accountEmail boxName M).1
        (accountEmail, sanitizeBoxName boxName) = some d ∧
    KV.get (saveMessagesStates s now accountEmail boxName M).2.1
        (accountEmail, sanitizeBoxName boxName)
      = some { messagesFile := some M, summaryFile := d.summaryFile } ∧
    KV.get (saveMessagesStates s now accountEmail boxName M).2.2
        (accountEmail, sanitizeBoxName boxName)
      = some { messagesFile := some M, summaryFile := some (buildSummary now boxName M) } ∧
    summaryConsistent
      { messagesFile := some M, summaryFile := some (buildSummary now boxName M) } ∧
    (summaryConsistent { messagesFile := some M, summaryFile := d.summaryFile } ↔
      ∀ summary, d.summaryFile = some summary →
        summary.messageCount = M.length ∧ summary.messages = M.map summaryEntry) := by
  have h1 : mkdir s accountEmail (sanitizeBoxName boxName) = s := by
    simp [mkdir, hd]
  refine ⟨rfl, ?_, ?_, ?_, ?_, ?_⟩
  · simp only [saveMessagesStates, h1, hd]
  · simp only [saveMessagesStates, h1, writeMessagesFile, hd, KV.get_set_same]
  · simp only [saveMessagesStates, h1, writeMessagesFile, writeSummaryFile, hd,
      KV.get_set_same]
  · intro summary hs
    simp only [Option.some.injEq] at hs
    subst hs
    exact ⟨rfl, rfl⟩
  · rfl

/-- C18 (amended) at a concrete folder: after the save of one new message into
`INBOX` of `a@x.com` the folder holds that message and its summary. -/
theorem C18_summary_consistent_after_save_witness :
    KV.get (saveMessagesStates exampleStore 8 "a@x.com" "INBOX" [exampleMessage 9]).2.2
        ("a@x.com", sanitizeBoxName "INBOX")
      = some { messagesFile := some [exampleMessage 9],
               summaryFile := some (buildSummary 8 "INBOX" [exampleMessage 9]) } :=
  (C18_summary_consistent_after_save exampleStore 8 "a@x.com" "INBOX" [exampleMessage 9]
    { messagesFile := some [exampleMessage 1, exampleMessage 2, exampleMessage 3],
      summaryFile := some (buildSummary 5 "INBOX"
        [exampleMessage 1, exampleMessage 2, exampleMessage 3]) }
    (by decide)).2.2.2.1

/-- C19 (read-after-write on the mailbox store): for every store, account key,
folder name and message list `M`, `readLocalMessages` after `saveMessages`
returns `M`, in the same order, whatever the folder held before; in particular
a second save replaces the collection of the first. When the store has no
directory for the folder, or a directory without `messages.json`,
`readLocalMessages` returns the empty list. -/
theorem C19_read_after_write (s : Store) (now : Nat) (accountEmail boxName : String)
    (M : List Message) :
    readLocalMessages (saveMessages s now accountEmail boxName M).1 accountEmail boxName = M ∧
    (∀ (M0 : List Message) (now0 : Nat),
      readLocalMessages
        (saveMessages (saveMessages s now0 accountEmail boxName M0).1 now accountEmail
          boxName M).1 accountEmail boxName = M) ∧
    (KV.get s (accountEmail, sanitizeBoxName boxName) = none →
      readLocalMessages s accountEmail boxName = []) ∧
    (∀ d, KV.get s (accountEmail, sanitizeBoxName boxName) = some d →
      d.messagesFile = none → readLocalMessages s accountEmail boxName = []) ∧
    readLocalMessages [] accountEmail boxName = [] := by
  have hread : ∀ (s0 : Store) (now0 : Nat) (M0 : List Message),
      readLocalMessages (saveMessages s0 now0 accountEmail boxName M0).1 accountEmail boxName
        = M0 := by
    intro s0 now0 M0
    simp [readLocalMessages, get_saveMessages]
  refine ⟨hread s now M, fun M0 now0 => hread _ now M, ?_, ?_, rfl⟩
  · intro h
    simp [readLocalMessages, h]
  · intro d h hm
    simp [readLocalMessages, h, hm]

/-- C19 at a concrete store: nothing was ever stored for `Archive` of
`a@x.com`, and `INBOX` reads back its three messages. -/
theorem C19_read_after_write_witness :
    readLocalMessages exampleStore "a@x.com" "Archive" = [] ∧
    readLocalMessages
      (saveMessages exampleStore 8 "a@x.com" "INBOX" [exampleMessage 9]).1 "a@x.com" "INBOX"
      = [exampleMessage 9] :=
  ⟨(C19_read_after_write exampleStore 8 "a@x.com" "Archive" []).2.2.1 (by decide),
    (C19_read_after_write exampleStore 8 "a@x.com" "INBOX" [exampleMessage 9]).1⟩

/-- C20 (folder-name sanitisation): the nine replaced characters are
`/ \ : * ? " < > |` (code points 47, 92, 58, 42, 63, 34, 60, 62, 124). For every
folder name, the storage key used by `saveMessages` and read by
`readLocalMessages` is `(account, sanitizeBoxName name)`, where the sanitised
name has, position by position, `_` where the name has one of the nine
characters and the character of the name elsewhere; it has the length of the
name, contains none of the nine characters, and is the name itself when the
name contains none of them. -/
theorem C20_sanitised_key (name : String) :
    unsafeChars.map Char.toNat = [47, 92, 58, 42, 63, 34, 60, 62, 124] ∧
    (∀ (s : Store) (now : Nat) (accountEmail : String) (M : List Message),
      (saveMessages s now accountEmail name M).2.boxDir
        = (accountEmail, sanitizeBoxName name)) ∧
    (∀ (s : Store) (accountEmail : String),
      readLocalMessages s accountEmail name
        = ((KV.get s (accountEmail, sanitizeBoxName name)).map
            fun d => d.messagesFile.getD []).getD []) ∧
    (∀ i : Nat, (sanitizeBoxName name).data.get? i
      = (name.data.get? i).map fun c => if c ∈ unsafeChars then '_' else c) ∧
    (sanitizeBoxName name).length = name.length ∧
    (∀ c ∈ (sanitizeBoxName name).data, c ∉ unsafeChars) ∧
    ((∀ c ∈ name.data, c ∉ unsafeChars) → sanitizeBoxName name = name) := by
  refine ⟨by decide, fun _ _ _ _ => rfl, ?_, ?_, ?_, ?_, ?_⟩
  · intro s accountEmail
    unfold readLocalMessages
    cases h : KV.get s (accountEmail, sanitizeBoxName name) <;> simp only [h] <;> rfl
  · intro i
    simp only [sanitizeBoxName, List.get?_eq_getElem?, List.getElem?_map]
  · simp only [sanitizeBoxName, String.length, List.length_map]
  · intro c hc
    simp only [sanitizeBoxName, List.mem_map] at hc
    obtain ⟨c0, _, rfl⟩ := hc
    by_cases h : c0 ∈ unsafeChars
    · rw [if_pos h]
      decide
    · rw [if_neg h]
      exact h
  · intro h
    apply String.ext
    simp only [sanitizeBoxName]
    conv_rhs => rw [← List.map_id name.data]
    apply List.map_congr_left
    intro c hc
    rw [if_neg (h c hc)]
    rfl

/-- C20 at concrete names: `INBOX` is its own key and `INBOX/Sent` is stored
under `INBOX_Sent`. -/
theorem C20_sanitised_key_witness :
    sanitizeBoxName "INBOX" = "INBOX" ∧ sanitizeBoxName "INBOX/Sent" = "INBOX_Sent" :=
  ⟨(C20_sanitised_key "INBOX").2.2.2.2.2.2 (by decide), by decide⟩

/-- C21 (evaluation at the failing input): for `u@d.com`, with `imap.d.com`
ending in a connection-level failure and `mail.d.com` in an
authentication-style rejection (its error satisfies the test of line 57, the
error of `imap.d.com` does not), `discoverImapHost` returns `imap.d.com` and
probes no other candidate. In general it returns `imap.<domain>` after probing
that candidate only, whatever the probes answer. -/
theorem C21_first_candidate_always_returned :
    (discoverImapHost exampleProbe "u@d.com").1 = "imap.d.com" ∧
    (discoverImapHost exampleProbe "u@d.com").2
      = [Event.probeConnect "imap.d.com", Event.probeLogout "imap.d.com"] ∧
    ((exampleProbe "imap.d.com").connectError.map fun err =>
      (err.message.map (includes · "auth")).getD false
        || (err.responseText.map (includes · "auth")).getD false) = some false ∧
    ((exampleProbe "mail.d.com").connectError.map fun err =>
      (err.message.map (includes · "auth")).getD false
        || (err.responseText.map (includes · "auth")).getD false) = some true ∧
    (∀ (probe : String → ProbeScript) (email : String),
      (discoverImapHost probe email).1 = "imap." ++ emailDomain email ∧
      (discoverImapHost probe email).2
        = [Event.probeConnect ("imap." ++ emailDomain email),
           Event.probeLogout ("imap." ++ emailDomain email)]) := by
  refine ⟨by decide, by decide, by decide, by decide, ?_⟩
  intro probe email
  rw [discoverImapHost_eq]
  exact ⟨rfl, rfl⟩

/-- C22 (host discovery never fails): for every email string and all probe
outcomes, `discoverImapHost` returns a hostname (the function is total: no
probe error is rethrown), the hostname is one of the candidates
`imap.<domain>`, `mail.<domain>`, `<domain>`, and it is `imap.<domain>`, in
particular when no probe yields an authentication rejection; `<domain>` is the
second segment of the email split at `@`, printed as `undefined` when there is
none. -/
theorem C22_discovery_never_fails (probe : String → ProbeScript) (email : String) :
    (discoverImapHost probe email).1
      ∈ ["imap." ++ emailDomain email, "mail." ++ emailDomain email, emailDomain email] ∧
    (discoverImapHost probe email).1 = "imap." ++ emailDomain email ∧
    emailDomain "user@example.com" = "example.com" ∧
    emailDomain "a@b@c" = "b" ∧
    emailDomain "no-at-sign" = "undefined" ∧
    (discoverImapHost probe "no-at-sign").1 = "imap.undefined" := by
  rw [discoverImapHost_eq, discoverImapHost_eq]
  refine ⟨by simp, rfl, by decide, by decide, by decide, by decide⟩

/-- C23 (createFolder errors are never fatal): for every target server, every
script `create` of `mailboxCreate` outcomes (success, an "already exists"
rejection, any other error), every store and folder list, `exportToAccount`
returns the same result and makes the same client calls as with the outcomes
of the server itself; the same holds for the folder loop from every state. For
a folder with at least one stored message the loop makes the `mailboxCreate`
call followed by one `append` per stored message, and pushes the `success`
entry with `total` the number of stored messages and `exported` the number of
appends that returned, whatever `create` is. -/
theorem C23_create_errors_not_fatal (srv : ExportServer) (create : Nat → Option JsError)
    (toUTCString : Nat → String) (s : Store) (sourceEmail : String) (targetAccount : Account)
    (mailboxes : Option (List String)) :
    exportToAccount { srv with createError := create } toUTCString s sourceEmail
        targetAccount mailboxes
      = exportToAccount srv toUTCString s sourceEmail targetAccount mailboxes ∧
    (∀ (st : ExportState) (folders : List String),
      exportMailboxes { srv with createError := create } toUTCString s sourceEmail st folders
        = exportMailboxes srv toUTCString s sourceEmail st folders) ∧
    (∀ (st : ExportState) (f : String), (readLocalMessages s sourceEmail f).length ≠ 0 →
      (exportMailboxes { srv with createError := create } toUTCString s sourceEmail st [f]).results
        = st.results ++ [successEntry f (readLocalMessages s sourceEmail f).length
            (successes srv st.appendCalls (readLocalMessages s sourceEmail f).length)] ∧
      (exportMailboxes { srv with createError := create } toUTCString s sourceEmail st [f]).events
        = st.events ++ Event.mailboxCreate f ::
            (readLocalMessages s sourceEmail f).map (appendEvent srv toUTCString f)) ∧
    exportToAccount { exampleFlakyServer with createError := exampleCreateExists } exampleUTC
        exampleStore "a@x.com" exampleAccountB none
      = exportToAccount { exampleFlakyServer with createError := exampleCreateDenied }
          exampleUTC exampleStore "a@x.com" exampleAccountB none := by
  refine ⟨?_, fun st folders => exportMailboxes_createError srv create _ _ _ _ _, ?_, ?_⟩
  · unfold exportToAccount
    simp only [exportMailboxes_createError]
  · intro st f hf
    rw [exportMailboxes_createError, exportMailboxes_spec]
    simp only [folderEntries, folderEvents, if_neg hf, List.append_nil, List.cons_append,
      and_self]
  · unfold exportToAccount
    simp only [exportMailboxes_createError]

/-- C24 (counterexample to the claim as stated): the server lists the one
folder `INBOX`, from which one message is downloaded; `saveMessages` writes
`messages.json` and then raises on the write of `summary.json`, inside the
`try` of the folder. `syncAccount` returns with an error entry for `INBOX` and
`totalMessages` 0, while the store holds the one message record saved in this
run. -/
theorem C24_saved_but_not_counted :
    (syncAccount exampleDeniedServer exampleParser [] exampleAccountA).1
      = .ok { success := true, email := "a@x.com", mailboxCount := 1, totalMessages := 0,
              results := [{ boxName := "INBOX", count := none, messages := none,
                            error := some "EACCES: permission denied, open summary.json" }] } ∧
    readLocalMessages [] "a@x.com" "INBOX" = [] ∧
    readLocalMessages (syncAccount exampleDeniedServer exampleParser [] exampleAccountA).2.1
        "a@x.com" "INBOX" = downloaded exampleParser exampleInbox ∧
    (downloaded exampleParser exampleInbox).length = 1 := by
  refine ⟨rfl, rfl, rfl, rfl⟩

/-- C24 (amended): when `syncAccount` returns, the server listed some folders;
`totalMessages` is the sum of `count` over the result entries, an entry with an
error carrying no count and adding 0; that sum is the sum over the folders of
the number of message records saved by a `saveMessages` that returned. A
folder whose download and save returned is saved with exactly its downloaded
messages and counted with their number; a folder whose save raised has an
error entry and counts 0, its downloaded messages being in the store when the
raising call is the write of `summary.json` and the stored messages being as
before otherwise; a folder whose download raised counts 0 and is not saved.
The store afterwards is the result of these effects in order; `mailboxCount`
is the number of folders listed and the number of result entries. -/
theorem C24_sync_aggregate (srv : SyncServer)
    (simpleParser : String → Except String ParsedMail) (s : Store) (account : Account)
    (result : SyncResult) (st : Store) (ev : List Event)
    (hrun : syncAccount srv simpleParser s account = (.ok result, st, ev)) :
    ∃ folders, srv.listResult = .ok folders ∧
      result.results = folders.map (folderEntry simpleParser) ∧
      result.totalMessages = (result.results.map fun r => r.count.getD 0).sum ∧
      (∀ r ∈ result.results, r.error ≠ none → r.count = none) ∧
      result.totalMessages = (folders.map (savedCount simpleParser)).sum ∧
      st = folders.foldl (folderSave simpleParser account.email) s ∧
      (∀ mb ∈ folders, ∀ s0 : Store,
        (∃ d, (downloadMailboxMessages simpleParser mb).1 = .ok d ∧ mb.saveError = none ∧
          savedCount simpleParser mb = d.messages.length ∧
          (folderEntry simpleParser mb).count = some d.messages.length ∧
          readLocalMessages (folderSave simpleParser account.email s0 mb) account.email mb.path
            = d.messages) ∨
        (∃ d e, (downloadMailboxMessages simpleParser mb).1 = .ok d ∧ mb.saveError = some e ∧
          savedCount simpleParser mb = 0 ∧
          folderEntry simpleParser mb = errorEntry mb.path e.message ∧
          readLocalMessages (folderSave simpleParser account.email s0 mb) account.email mb.path
            = (if e.step = .writeSummary then d.messages
               else readLocalMessages s0 account.email mb.path)) ∨
        (∃ err, (downloadMailboxMessages simpleParser mb).1 = .error err ∧
          savedCount simpleParser mb = 0 ∧
          folderEntry simpleParser mb = errorEntry mb.path err ∧
          folderSave simpleParser account.email s0 mb = s0)) ∧
      result.mailboxCount = folders.length ∧
      result.mailboxCount = result.results.length := by
  unfold syncAccount at hrun
  cases hc : srv.connectError with
  | some err => simp [hc] at hrun
  | none =>
    cases hl : srv.listResult with
    | error err => simp [hc, hl] at hrun
    | ok folders =>
      cases ho : srv.logoutError with
      | some err => simp [hc, hl, ho] at hrun
      | none =>
        simp only [hc, hl, ho, flattenMailboxTree_eq, syncMailboxes_results,
          syncMailboxes_store, Prod.mk.injEq, Except.ok.injEq] at hrun
        obtain ⟨hres, hst, _⟩ := hrun
        subst hres
        refine ⟨folders, rfl, rfl, totalMessages_eq_sum _, ?_, ?_, hst.symm, ?_, rfl, ?_⟩
        · intro r hr herr
          simp only [List.mem_map] at hr
          obtain ⟨mb, _, rfl⟩ := hr
          rcases folderEntry_shape simpleParser mb with ⟨err, _, hcount, _⟩ | ⟨msgs, hnone, _, _⟩
          · exact hcount
          · exact absurd hnone herr
        · show totalMessages _ = _
          rw [totalMessages_eq_sum, List.map_map]
          congr 1
          apply List.map_congr_left
          intro mb _
          exact folderEntry_count simpleParser mb
        · intro mb _ s0
          have hcount := folderEntry_count simpleParser mb
          cases hd : (downloadMailboxMessages simpleParser mb).1 with
          | error err =>
            refine Or.inr (Or.inr ⟨err, rfl, ?_, folderEntry_download_error simpleParser mb err hd,
              ?_⟩)
            · rw [← hcount, folderEntry_download_error simpleParser mb err hd]
              rfl
            · simp only [folderSave, hd]
          | ok d =>
            cases hs : mb.saveError with
            | none =>
              refine Or.inl ⟨d, rfl, rfl, ?_, ?_, ?_⟩
              · rw [← hcount, folderEntry_saved simpleParser mb d hd hs]
                simp only [Download.toEntry, Option.getD_some]
                exact downloadMailboxMessages_count simpleParser mb d hd
              · rw [folderEntry_saved simpleParser mb d hd hs]
                simp only [Download.toEntry]
                rw [downloadMailboxMessages_count simpleParser mb d hd]
              · simp only [folderSave, hd, hs, saveMessagesOutcome_none, readLocalMessages,
                  get_saveMessages, Option.getD_some]
            | some e =>
              refine Or.inr (Or.inl ⟨d, e, rfl, rfl, ?_,
                folderEntry_save_error simpleParser mb d e hd hs, ?_⟩)
              · rw [← hcount, folderEntry_save_error simpleParser mb d e hd hs]
                rfl
              · obtain ⟨step, msg⟩ := e
                simp only [folderSave, hd, hs, saveMessagesOutcome]
                cases step
                · simp
                · simp [readLocalMessages_mkdir]
                · simp [readLocalMessages_writeMessagesFile]
        · simp only [List.length_map]

/-- C24 (amended) at a concrete run: one folder with one message, one whose
fetch raises and one empty folder give three entries and a total of one
message. -/
theorem C24_sync_aggregate_witness :
    syncAccount exampleSyncServer exampleParser [] exampleAccountA
      = (.ok { success := true, email := "a@x.com", mailboxCount := 3, totalMessages := 1,
               results := exampleFolders.map (folderEntry exampleParser) },
          (syncAccount exampleSyncServer exampleParser [] exampleAccountA).2.1,
          (syncAccount exampleSyncServer exampleParser [] exampleAccountA).2.2) ∧
    (exampleFolders.map (savedCount exampleParser)).sum = 1 ∧
    ∃ folders, exampleSyncServer.listResult = .ok folders ∧
      (1 : Nat) = (folders.map (savedCount exampleParser)).sum ∧
      (3 : Nat) = folders.length :=
  ⟨rfl, by decide,
    (C24_sync_aggregate exampleSyncServer exampleParser [] exampleAccountA
      { success := true, email := "a@x.com", mailboxCount := 3, totalMessages := 1,
        results := exampleFolders.map (folderEntry exampleParser) }
      (syncAccount exampleSyncServer exampleParser [] exampleAccountA).2.1
      (syncAccount exampleSyncServer exampleParser [] exampleAccountA).2.2 rfl).elim
      fun folders h => ⟨folders, h.1, h.2.2.2.2.1, h.2.2.2.2.2.2.2.1⟩⟩

/-- C25 (counterexample to the claim as stated): a sync of account `1` is
triggered at time 10, which records `running` with start time 10, and
completes at time 20; an export from `1` to `2` is triggered at time 30 and
fails at time 40. The completed sync record and the failed export record carry
a completion time and a result, respectively an error message, and no start
time. -/
theorem C25_settled_record_has_no_start_time :
    KV.get ((exampleActions.take 2).foldl routeStep exampleWorldAB).activeSyncs "1"
      = some { status := .running, startedAt := some 10, completedAt := none,
               result := none, error := none } ∧
    KV.get (exampleActions.foldl routeStep exampleWorldAB).activeSyncs "1"
      = some { status := .completed, startedAt := none, completedAt := some 20,
               result := some { success := true, email := "a@x.com", mailboxCount := 0,
                                totalMessages := 0, results := [] },
               error := none } ∧
    KV.get ((exampleActions.take 7).foldl routeStep exampleWorldAB).activeExports "1->2"
      = some { status := .running, startedAt := some 30, completedAt := none,
               result := none, error := none } ∧
    KV.get (exampleActions.foldl routeStep exampleWorldAB).activeExports "1->2"
      = some { status := .failed, startedAt := none, completedAt := some 40,
               result := none, error := some "connect ECONNREFUSED" } := by
  refine ⟨by decide, by decide, by decide, by decide⟩

/-- C25 (amended): start from a process state whose records have the fields of
their status (in particular the two empty maps of a fresh process) and let the
routes act in any order and at any times: handlers running to their next
suspension point, callbacks of background runs, timers, account deletions.
Then every sync or export record is `running`, `completed` or `failed`; a
running record carries its start time and no completion time; a completed
record carries a completion time and a result payload; a failed record carries
a completion time and an error message; and a completed or failed record
carries no start time. -/
theorem C25_record_fields_by_status (w0 : World) (h0 : recordsShaped w0)
    (actions : List (Nat × RouteAction)) :
    (∀ k r, KV.get (actions.foldl routeStep w0).activeSyncs k = some r →
      (r.status = .running ∨ r.status = .completed ∨ r.status = .failed) ∧
      (r.status = .running → r.startedAt.isSome = true ∧ r.completedAt = none) ∧
      (r.status = .completed →
        r.completedAt.isSome = true ∧ r.result.isSome = true ∧ r.startedAt = none) ∧
      (r.status = .failed →
        r.completedAt.isSome = true ∧ r.error.isSome = true ∧ r.startedAt = none)) ∧
    (∀ k r, KV.get (actions.foldl routeStep w0).activeExports k = some r →
      (r.status = .running ∨ r.status = .completed ∨ r.status = .failed) ∧
      (r.status = .running → r.startedAt.isSome = true ∧ r.completedAt = none) ∧
      (r.status = .completed →
        r.completedAt.isSome = true ∧ r.result.isSome = true ∧ r.startedAt = none) ∧
      (r.status = .failed →
        r.completedAt.isSome = true ∧ r.error.isSome = true ∧ r.startedAt = none)) := by
  have h := run_shaped actions w0 h0
  constructor
  · intro k r hr
    refine ⟨?_, OpRecord.shaped_fields r (h.1 k r hr)⟩
    cases r.status <;> simp
  · intro k r hr
    refine ⟨?_, OpRecord.shaped_fields r (h.2 k r hr)⟩
    cases r.status <;> simp

/-- C25 (amended) at the concrete run of the counterexample, started with
empty maps. -/
theorem C25_record_fields_by_status_witness :
    recordsShaped exampleWorldAB ∧
    ∀ k r, KV.get (exampleActions.foldl routeStep exampleWorldAB).activeSyncs k = some r →
      (r.status = .running ∨ r.status = .completed ∨ r.status = .failed) ∧
      (r.status = .running → r.startedAt.isSome = true ∧ r.completedAt = none) ∧
      (r.status = .completed →
        r.completedAt.isSome = true ∧ r.result.isSome = true ∧ r.startedAt = none) ∧
      (r.status = .failed →
        r.completedAt.isSome = true ∧ r.error.isSome = true ∧ r.startedAt = none) :=
  ⟨⟨mapShaped_nil, mapShaped_nil⟩,
    (C25_record_fields_by_status exampleWorldAB ⟨mapShaped_nil, mapShaped_nil⟩
      exampleActions).1⟩

/-- C23 at a concrete export: with a target that refuses every
`mailboxCreate`, the folder `INBOX` with three stored messages, two of whose
appends are rejected, still gets its `mailboxCreate` call, its three appends
and the entry `success` with total 3 and exported 1. -/
theorem C23_create_errors_not_fatal_witness :
    (readLocalMessages exampleStore "a@x.com" "INBOX").length ≠ 0 ∧
    (exportMailboxes { exampleFlakyServer with createError := exampleCreateDenied } exampleUTC
        exampleStore "a@x.com"
        { results := [], totalExported := 0, folderIndex := 0, appendCalls := 0, events := [] }
        ["INBOX"]).results
      = [] ++ [successEntry "INBOX" (readLocalMessages exampleStore "a@x.com" "INBOX").length
          (successes exampleFlakyServer 0
            (readLocalMessages exampleStore "a@x.com" "INBOX").length)] ∧
    successEntry "INBOX" (readLocalMessages exampleStore "a@x.com" "INBOX").length
        (successes exampleFlakyServer 0 (readLocalMessages exampleStore "a@x.com" "INBOX").length)
      = successEntry "INBOX" 3 1 :=
  ⟨by decide,
    ((C23_create_errors_not_fatal exampleFlakyServer exampleCreateDenied exampleUTC exampleStore
      "a@x.com" exampleAccountB none).2.2.1
      { results := [], totalExported := 0, folderIndex := 0, appendCalls := 0, events := [] }
      "INBOX" (by decide)).1,
    by decide⟩

/-- C26 (export trigger responses): a `POST /sync/export` handler run to its
answer on a process state `w` answers 400 when `sourceAccountId` or
`targetAccountId` is missing (absent or empty); otherwise 404 when either
account is unknown; otherwise 409 when `activeExports` has a record under
`sourceAccountId + "->" + targetAccountId`; otherwise it answers with that key
as `exportId` and the two emails, having recorded `running` with the start
time under that key and called `exportToAccount` once. In the three rejection
cases the process state afterwards is `w`: the map is unchanged and no export
is started. -/
theorem C26_export_trigger_responses (now : Nat) (w : World) (req : ExportRequest) :
    ((truthy req.sourceAccountId = false ∨ truthy req.targetAccountId = false) →
      ExportPost.run now w req
        = (w, .done (.error 400 "Missing required fields: sourceAccountId, targetAccountId"))) ∧
    (truthy req.sourceAccountId = true → truthy req.targetAccountId = true →
      (getAccountById w.accounts (req.sourceAccountId.getD "") = none ∨
        getAccountById w.accounts (req.targetAccountId.getD "") = none) →
      ExportPost.run now w req
        = (w, .done (.error 404 "Source or target account not found"))) ∧
    (truthy req.sourceAccountId = true → truthy req.targetAccountId = true →
      ∀ source target,
        getAccountById w.accounts (req.sourceAccountId.getD "") = some source →
        getAccountById w.accounts (req.targetAccountId.getD "") = some target →
        KV.has w.activeExports
          (req.sourceAccountId.getD "" ++ "->" ++ req.targetAccountId.getD "") = true →
        ExportPost.run now w req
          = (w, .done (.error 409 "Export already in progress for these accounts"))) ∧
    (truthy req.sourceAccountId = true → truthy req.targetAccountId = true →
      ∀ source target,
        getAccountById w.accounts (req.sourceAccountId.getD "") = some source →
        getAccountById w.accounts (req.targetAccountId.getD "") = some target →
        KV.has w.activeExports
          (req.sourceAccountId.getD "" ++ "->" ++ req.targetAccountId.getD "") = false →
        ExportPost.run now w req
          = ({ w with
                activeExports := KV.set w.activeExports
                  (req.sourceAccountId.getD "" ++ "->" ++ req.targetAccountId.getD "")
                  { status := .running, startedAt := some now, completedAt := none,
                    result := none, error := none }
                exportCalls := w.exportCalls ++ [(source.email, target, req.mailboxes)] },
              .done (.exportStarted
                (req.sourceAccountId.getD "" ++ "->" ++ req.targetAccountId.getD "")
                source.email target.email)) ∧
        KV.get (ExportPost.run now w req).1.activeExports
            (req.sourceAccountId.getD "" ++ "->" ++ req.targetAccountId.getD "")
          = some { status := .running, startedAt := some now, completedAt := none,
                   result := none, error := none }) := by
  refine ⟨?_, ?_, ?_, ?_⟩
  · intro h
    rcases h with h | h <;> simp [ExportPost.run, ExportPost.step, h]
  · intro hs ht h
    rcases h with h | h
    · simp [ExportPost.run, ExportPost.step, hs, ht, h]
    · cases hsa : getAccountById w.accounts (req.sourceAccountId.getD "") <;>
        simp [ExportPost.run, ExportPost.step, hs, ht, h, hsa]
  · intro hs ht source target hsa hta hhas
    simp [ExportPost.run, ExportPost.step, hs, ht, hsa, hta, exportKey, hhas]
  · intro hs ht source target hsa hta hhas
    have hrun : ExportPost.run now w req
        = ({ w with
              activeExports := KV.set w.activeExports
                (req.sourceAccountId.getD "" ++ "->" ++ req.targetAccountId.getD "")
                { status := .running, startedAt := some now, completedAt := none,
                  result := none, error := none }
              exportCalls := w.exportCalls ++ [(source.email, target, req.mailboxes)] },
            .done (.exportStarted
              (req.sourceAccountId.getD "" ++ "->" ++ req.targetAccountId.getD "")
              source.email target.email)) := by
      simp [ExportPost.run, ExportPost.step, hs, ht, hsa, hta, exportKey, hhas]
    refine ⟨hrun, ?_⟩
    rw [hrun]
    exact KV.get_set_same _ _ _

/-- C26 at concrete requests: with accounts `1` and `2` registered and no
record, the trigger for `1 -> 2` is accepted under the key `1->2`; the same
trigger on the resulting state is answered 409 and leaves the state as it is. -/
theorem C26_export_trigger_responses_witness :
    (ExportPost.run 30 exampleWorldAB exampleExportRequest).2
      = .done (.exportStarted "1->2" "a@x.com" "b@y.com") ∧
    KV.get (ExportPost.run 30 exampleWorldAB exampleExportRequest).1.activeExports "1->2"
      = some { status := .running, startedAt := some 30, completedAt := none,
               result := none, error := none } ∧
    ExportPost.run 31 (ExportPost.run 30 exampleWorldAB exampleExportRequest).1
        exampleExportRequest
      = ((ExportPost.run 30 exampleWorldAB exampleExportRequest).1,
          .done (.error 409 "Export already in progress for these accounts")) :=
  ⟨by decide,
    ((C26_export_trigger_responses 30 exampleWorldAB exampleExportRequest).2.2.2
      (by decide) (by decide) exampleAccountA exampleAccountB (by decide) (by decide)
      (by decide)).2,
    (C26_export_trigger_responses 31
      (ExportPost.run 30 exampleWorldAB exampleExportRequest).1 exampleExportRequest).2.2.1
      (by decide) (by decide) exampleAccountA exampleAccountB (by decide) (by decide)
      (by decide)⟩

/-- C27 (storage keys can collide): the distinct folder paths `INBOX/Sent` and
`INBOX_Sent` have the same sanitised storage key `INBOX_Sent`; and for every
two folder paths `p`, `q` of one account with the same sanitised key, after
`saveMessages` of `M1` for `p` followed by `saveMessages` of `M2` for `q`, the
one folder directory holds the collection `M2` and the summary built for `q`,
and `readLocalMessages` for `p` returns `M2`. -/
theorem C27_storage_keys_collide (s : Store) (now1 now2 : Nat) (accountEmail p q : String)
    (M1 M2 : List Message) (hkey : sanitizeBoxName p = sanitizeBoxName q) :
    "INBOX/Sent" ≠ "INBOX_Sent" ∧
    sanitizeBoxName "INBOX/Sent" = "INBOX_Sent" ∧
    sanitizeBoxName "INBOX_Sent" = "INBOX_Sent" ∧
    (saveMessages s now1 accountEmail p M1).2.boxDir
      = (saveMessages (saveMessages s now1 accountEmail p M1).1 now2 accountEmail q M2).2.boxDir ∧
    KV.get (saveMessages s now1 accountEmail p M1).1 (accountEmail, sanitizeBoxName p)
      = some { messagesFile := some M1, summaryFile := some (buildSummary now1 p M1) } ∧
    KV.get (saveMessages (saveMessages s now1 accountEmail p M1).1 now2 accountEmail q M2).1
        (accountEmail, sanitizeBoxName p)
      = some { messagesFile := some M2, summaryFile := some (buildSummary now2 q M2) } ∧
    readSummary (saveMessages (saveMessages s now1 accountEmail p M1).1 now2 accountEmail q M2).1
        accountEmail (sanitizeBoxName p)
      = some (buildSummary now2 q M2) ∧
    readLocalMessages (saveMessages s now1 accountEmail p M1).1 accountEmail p = M1 ∧
    readLocalMessages
        (saveMessages (saveMessages s now1 accountEmail p M1).1 now2 accountEmail q M2).1
        accountEmail p
      = M2 := by
  have h2 : KV.get
      (saveMessages (saveMessages s now1 accountEmail p M1).1 now2 accountEmail q M2).1
        (accountEmail, sanitizeBoxName p)
      = some { messagesFile := some M2, summaryFile := some (buildSummary now2 q M2) } := by
    rw [hkey]
    exact get_saveMessages _ _ _ _ _
  refine ⟨by decide, by decide, by decide, ?_, get_saveMessages _ _ _ _ _, h2, ?_, ?_, ?_⟩
  · simp only [saveMessages, hkey]
  · simp only [readSummary, h2]
  · simp only [readLocalMessages, get_saveMessages, Option.getD_some]
  · simp only [readLocalMessages, h2, Option.getD_some]

/-- C27 at the pair of the claim: after a save of messages 1 and 2 for
`INBOX/Sent` and a save of message 7 for `INBOX_Sent`, reading `INBOX/Sent`
returns message 7. -/
theorem C27_storage_keys_collide_witness :
    sanitizeBoxName "INBOX/Sent" = sanitizeBoxName "INBOX_Sent" ∧
    readLocalMessages
        (saveMessages
          (saveMessages [] 5 "a@x.com" "INBOX/Sent" [exampleMessage 1, exampleMessage 2]).1
          6 "a@x.com" "INBOX_Sent" [exampleMessage 7]).1
        "a@x.com" "INBOX/Sent"
      = [exampleMessage 7] :=
  ⟨by decide,
    (C27_storage_keys_collide [] 5 6 "a@x.com" "INBOX/Sent" "INBOX_Sent"
      [exampleMessage 1, exampleMessage 2] [exampleMessage 7] (by decide)).2.2.2.2.2.2.2.2⟩

/-- C28 (sanitisation is idempotent): for every folder name, sanitising the
sanitised name gives the sanitised name again. Hence, in every store,
`readLocalMessages` with a storage key reads the same folder directory as with
the path the key came from; and after `saveMessages` for a server path `p`, the
storage key of `p` is among the names `getLocalMailboxes` returns, and
`readLocalMessages` with that on-disk name returns the collection that was
saved for `p`, the content of the directory `saveMessages` wrote. -/
theorem C28_sanitise_idempotent (name : String) :
    sanitizeBoxName (sanitizeBoxName name) = sanitizeBoxName name ∧
    (∀ (s : Store) (accountEmail : String),
      readLocalMessages s accountEmail (sanitizeBoxName name)
        = readLocalMessages s accountEmail name) ∧
    (∀ (s : Store) (now : Nat) (accountEmail : String) (M : List Message),
      (saveMessages s now accountEmail name M).2.boxDir = (accountEmail, sanitizeBoxName name) ∧
      sanitizeBoxName name ∈ getLocalMailboxes (saveMessages s now accountEmail name M).1
        accountEmail ∧
      readLocalMessages (saveMessages s now accountEmail name M).1 accountEmail
        (sanitizeBoxName name) = M ∧
      KV.get (saveMessages s now accountEmail name M).1
          (accountEmail, sanitizeBoxName (sanitizeBoxName name))
        = some { messagesFile := some M, summaryFile := some (buildSummary now name M) }) ∧
    sanitizeBoxName (sanitizeBoxName "INBOX/Sent") = "INBOX_Sent" ∧
    sanitizeBoxName (sanitizeBoxName "a:b*c") = "a_b_c" := by
  refine ⟨sanitizeBoxName_idem name, fun s accountEmail => readLocalMessages_sanitized _ _ _,
    ?_, by decide, by decide⟩
  intro s now accountEmail M
  refine ⟨rfl, mem_getLocalMailboxes _ _ _ _ (get_saveMessages _ _ _ _ _), ?_, ?_⟩
  · rw [readLocalMessages_sanitized]
    simp only [readLocalMessages, get_saveMessages, Option.getD_some]
  · rw [sanitizeBoxName_idem]
    exact get_saveMessages _ _ _ _ _

/-- C29 (shape of the encoded message): for every message,
`messageToRFC822` is the CRLF-join of, in this order: the `From`, `To` and
`Subject` lines, each present exactly when its field is non-empty; the `Date`
line when the date is present; `MIME-Version: 1.0`; one `Content-Type` line,
`text/html` when html is non-empty and `text/plain` otherwise; one empty line;
one body, the html when it is non-empty, else the text when it is non-empty,
else `(No content)`. The output is the same for every uid, flags and
attachments, and, when html is non-empty, for every text. -/
theorem C29_encoded_shape (toUTCString : Nat → String) (message : Message) :
    messageToRFC822 toUTCString message
      = "\r\n".intercalate
          ((if truthy message.from_ then ["From: " ++ message.from_.getD ""] else []) ++
           (if truthy message.to_ then ["To: " ++ message.to_.getD ""] else []) ++
           (if truthy message.subject then ["Subject: " ++ message.subject.getD ""] else []) ++
           (match message.date with
            | some d => ["Date: " ++ toUTCString d]
            | none => []) ++
           ["MIME-Version: 1.0"] ++
           [if truthy message.html then "Content-Type: text/html; charset=utf-8"
            else "Content-Type: text/plain; charset=utf-8"] ++
           [""] ++
           [if truthy message.html then message.html.getD ""
            else if truthy message.text then message.text.getD ""
            else "(No content)"]) ∧
    (∀ (uid : Nat) (flags : List String) (attachments : Option (List Attachment)),
      messageToRFC822 toUTCString
          { message with uid := uid, flags := flags, attachments := attachments }
        = messageToRFC822 toUTCString message) ∧
    (truthy message.html = true → ∀ text : Option String,
      messageToRFC822 toUTCString { message with text := text }
        = messageToRFC822 toUTCString message) := by
  refine ⟨?_, fun uid flags attachments => rfl, ?_⟩
  · unfold messageToRFC822
    rw [messageToRFC822Lines_eq]
    congr 1
    simp only [headerLines, optLine, contentTypeLine, bodyOf, List.append_assoc,
      List.cons_append, List.nil_append]
    cases message.date <;> rfl
  · intro hhtml text
    unfold messageToRFC822
    rw [messageToRFC822Lines_eq, messageToRFC822Lines_eq]
    simp only [headerLines, contentTypeLine, bodyOf, hhtml, if_true]

/-- C29 at a concrete message with both html and text: the text does not show
in the output. -/
theorem C29_encoded_shape_witness :
    truthy exampleBothA.html = true ∧
    messageToRFC822 exampleUTC { exampleBothA with text := some "another text" }
      = messageToRFC822 exampleUTC exampleBothA :=
  ⟨by decide,
    (C29_encoded_shape exampleUTC exampleBothA).2.2 (by decide) (some "another text")⟩

/-- C30 (counterexample to the claim as stated): the data directory of
`a@x.com` has the entries `INBOX`, holding three messages, and `Drafts`,
holding none (an empty remote folder is saved too). In the unfiltered export
the one name passed to `mailboxCreate` is `INBOX` and the three appends go to
`INBOX`: the entry `Drafts` is passed neither to `mailboxCreate` nor to
`append`, it only gets a `skipped` result entry. -/
theorem C30_empty_entry_not_created :
    getLocalMailboxes exampleStore "a@x.com" = ["INBOX", "Drafts"] ∧
    (exportToAccount exampleExportServer exampleUTC exampleStore "a@x.com" exampleAccountB
        none).2.filter Event.isCreate
      = [Event.mailboxCreate "INBOX"] ∧
    (exportToAccount exampleExportServer exampleUTC exampleStore "a@x.com" exampleAccountB
        none).2.filter Event.isAppend
      = [exampleMessage 1, exampleMessage 2, exampleMessage 3].map
          (appendEvent exampleExportServer exampleUTC "INBOX") ∧
    ((exportToAccount exampleExportServer exampleUTC exampleStore "a@x.com" exampleAccountB
        none).1.toOption.bind fun r => r.results)
      = some [successEntry "INBOX" 3 3, skippedEntry "Drafts"] := by
  refine ⟨by decide, by decide, rfl, rfl⟩

/-- C30 (amended): when `exportToAccount`
is called without a folder list and the target session opens, the names passed
to `mailboxCreate` are the entries of the source account's data directory that
hold at least one message, in directory order, the names passed to `append`
are such entries too, each entry's messages being appended under the entry's
name, and the result has one entry per directory entry, whatever the entry is.
So a folder whose messages were stored from server path `p` is created and
filled on the target under the sanitised name of `p`; a name that is not a
directory entry is never created. For a store holding one message synced from
`INBOX/Sent`, the one folder created is `INBOX_Sent`. -/
theorem C30_unfiltered_export_names (srv : ExportServer) (toUTCString : Nat → String)
    (s : Store) (sourceEmail : String) (targetAccount : Account)
    (hconnect : srv.connectError = none) :
    (exportToAccount srv toUTCString s sourceEmail targetAccount none).2.filter Event.isCreate
      = ((getLocalMailboxes s sourceEmail).filter
          fun f => (readLocalMessages s sourceEmail f).length ≠ 0).map Event.mailboxCreate ∧
    (exportToAccount srv toUTCString s sourceEmail targetAccount none).2.filter Event.isAppend
      = (getLocalMailboxes s sourceEmail).flatMap (fun f =>
          (readLocalMessages s sourceEmail f).map (appendEvent srv toUTCString f)) ∧
    (∀ result entries,
      (exportToAccount srv toUTCString s sourceEmail targetAccount none).1 = .ok result →
      result.results = some entries →
      entries.map (·.mailbox) = getLocalMailboxes s sourceEmail) ∧
    (∀ p, (readLocalMessages s sourceEmail p).length ≠ 0 →
      sanitizeBoxName p ∈ getLocalMailboxes s sourceEmail ∧
      Event.mailboxCreate (sanitizeBoxName p)
        ∈ (exportToAccount srv toUTCString s sourceEmail targetAccount none).2 ∧
      ∀ m ∈ readLocalMessages s sourceEmail p,
        appendEvent srv toUTCString (sanitizeBoxName p) m
          ∈ (exportToAccount srv toUTCString s sourceEmail targetAccount none).2) ∧
    (∀ n, Event.mailboxCreate n
        ∈ (exportToAccount srv toUTCString s sourceEmail targetAccount none).2 →
      n ∈ getLocalMailboxes s sourceEmail) ∧
    (∀ n rfc822 flags date, Event.append n rfc822 flags date
        ∈ (exportToAccount srv toUTCString s sourceEmail targetAccount none).2 →
      n ∈ getLocalMailboxes s sourceEmail) ∧
    getLocalMailboxes exampleSentStore "a@x.com" = ["INBOX_Sent"] ∧
    (exportToAccount exampleExportServer exampleUTC exampleSentStore "a@x.com" exampleAccountB
        none).2.filter Event.isCreate
      = [Event.mailboxCreate "INBOX_Sent"] := by
  have hcreate := exportToAccount_folder_calls srv toUTCString s sourceEmail targetAccount none
    hconnect Event.isCreate (fun e h _ => h)
  have happend := exportToAccount_folder_calls srv toUTCString s sourceEmail targetAccount none
    hconnect Event.isAppend (fun e _ h => h)
  rw [folderEvents_creates] at hcreate
  rw [folderEvents_appends] at happend
  have hfolders : mailboxesToExport s sourceEmail none = getLocalMailboxes s sourceEmail := rfl
  rw [hfolders] at hcreate happend
  refine ⟨hcreate, happend, ?_, ?_, ?_, ?_, by decide, by decide⟩
  · intro result entries hrun hres
    unfold exportToAccount at hrun
    simp only [hconnect, hfolders] at hrun
    by_cases hlen : (getLocalMailboxes s sourceEmail).length = 0
    · simp only [hlen, if_true, Except.ok.injEq] at hrun
      rw [← hrun] at hres
      simp [noMailboxesResult] at hres
    · cases ho : srv.logoutError with
      | some err => simp [hlen, ho] at hrun
      | none =>
        simp only [hlen, if_false, ho, exportMailboxes_spec, List.nil_append,
          Except.ok.injEq] at hrun
        rw [← hrun] at hres
        simp only [Option.some.injEq] at hres
        rw [← hres]
        exact folderEntries_mailbox _ _ _ _ _
  · intro p hp
    have hkey : ∃ d, KV.get s (sourceEmail, sanitizeBoxName p) = some d := by
      cases hget : KV.get s (sourceEmail, sanitizeBoxName p) with
      | none => simp [readLocalMessages, hget] at hp
      | some d => exact ⟨d, rfl⟩
    obtain ⟨d, hd⟩ := hkey
    have hmem := mem_getLocalMailboxes s sourceEmail (sanitizeBoxName p) d hd
    refine ⟨hmem, ?_, ?_⟩
    · have h1 : Event.mailboxCreate (sanitizeBoxName p)
          ∈ (exportToAccount srv toUTCString s sourceEmail targetAccount none).2.filter
              Event.isCreate := by
        rw [hcreate]
        apply List.mem_map_of_mem
        rw [List.mem_filter]
        refine ⟨hmem, ?_⟩
        rw [readLocalMessages_sanitized]
        simpa using hp
      exact (List.mem_filter.mp h1).1
    · intro m hm
      have h1 : appendEvent srv toUTCString (sanitizeBoxName p) m
          ∈ (exportToAccount srv toUTCString s sourceEmail targetAccount none).2.filter
              Event.isAppend := by
        rw [happend, List.mem_flatMap]
        refine ⟨sanitizeBoxName p, hmem, ?_⟩
        rw [readLocalMessages_sanitized]
        exact List.mem_map_of_mem _ hm
      exact (List.mem_filter.mp h1).1
  · intro n hn
    have h1 : Event.mailboxCreate n
        ∈ (exportToAccount srv toUTCString s sourceEmail targetAccount none).2.filter
            Event.isCreate := List.mem_filter.mpr ⟨hn, rfl⟩
    rw [hcreate, List.mem_map] at h1
    obtain ⟨f, hf, hfe⟩ := h1
    have hfn : f = n := by
      injection hfe
    rw [← hfn]
    exact (List.mem_filter.mp hf).1
  · intro n rfc822 flags date hn
    have h1 : Event.append n rfc822 flags date
        ∈ (exportToAccount srv toUTCString s sourceEmail targetAccount none).2.filter
            Event.isAppend := List.mem_filter.mpr ⟨hn, rfl⟩
    rw [happend, List.mem_flatMap] at h1
    obtain ⟨f, hf, hfe⟩ := h1
    rw [List.mem_map] at hfe
    obtain ⟨m, _, hme⟩ := hfe
    have hfn : f = n := by
      unfold appendEvent at hme
      injection hme
    rw [← hfn]
    exact hf

/-- C30 at the concrete store: the message synced from `INBOX/Sent` is
appended on the target under `INBOX_Sent`, and nothing is created under
`INBOX/Sent`. -/
theorem C30_unfiltered_export_names_witness :
    exampleExportServer.connectError = none ∧
    (exportToAccount exampleExportServer exampleUTC exampleSentStore "a@x.com" exampleAccountB
        none).2.filter Event.isAppend
      = (getLocalMailboxes exampleSentStore "a@x.com").flatMap fun f =>
          (readLocalMessages exampleSentStore "a@x.com" f).map
            (appendEvent exampleExportServer exampleUTC f) :=
  ⟨rfl,
    (C30_unfiltered_export_names exampleExportServer exampleUTC exampleSentStore "a@x.com"
      exampleAccountB rfl).2.1⟩

end ImapBackup
